import Mathlib

/-!
Shallow embedding of the core of the `naitou-clone-2` shogi engine
(`src/shogi.rs`, `src/effect.rs`, `src/bitboard.rs`, `src/bbs.rs`,
`src/position.rs`, `src/movegen/*.rs`, `src/book.rs`, `src/naitou.rs`,
`src/engine.rs`), together with theorems settling the frozen claims about it.

Conventions of the embedding:
* machine integers become `Nat` / `Int`; 8-bit wrapping arithmetic is an
  explicit `% 256` (`Fin 256` for stored effect counts), 64-bit arithmetic an
  explicit `% 2^64`;
* a `Square` is `Fin 81` with the same index `9*col+row` as the source;
* `SquareWithWall` (a `Square` packed with four steps-to-edge counters whose
  sign bits detect leaving the board) is embedded as the pair of signed
  coordinates `(col, row) : Int × Int` with `is_on_board` testing
  `0 ≤ col < 9 ∧ 0 ≤ row < 9`: within this code base every `SquareWithWall`
  value is built from an on-board square and stepped at most one square past
  an edge before the walk stops, so the packed counters never overflow their
  5-bit fields and coincide with the plain coordinates;
* `for_each_square` / `for_each` iterations over bitboards and direction sets
  visit set bits in ascending order; they are embedded as folds over
  `(List.range n).filter (Nat.testBit x)`, which lists exactly those bits in
  the same order;
* Rust panics (`expect`, out-of-range table indexing) are modelled by
  `Option`-valued functions returning `none`.
-/

set_option maxRecDepth 10000

namespace Naitou

/-! ## Side (`shogi.rs`) -/

/-- The two sides.  `HUM` has internal value 0, `COM` has internal value 1. -/
inductive Side where
  | hum
  | com
deriving DecidableEq, Repr

def HUM : Side := Side.hum

def COM : Side := Side.com

/-- `Side::inv` — the opposite side (internal value xor 1). -/
def Side.inv : Side → Side
  | Side.hum => Side.com
  | Side.com => Side.hum

/-- Internal value of a side (`Side::inner`). -/
def Side.inner : Side → Nat
  | Side.hum => 0
  | Side.com => 1

/-- A pair of values indexed by side (the embedding of `MyArray1<_, Side, 2>`). -/
structure SidePair (α : Type) where
  hum : α
  com : α
deriving DecidableEq, Repr

def SidePair.get {α : Type} (p : SidePair α) : Side → α
  | Side.hum => p.hum
  | Side.com => p.com

def SidePair.set {α : Type} (p : SidePair α) : Side → α → SidePair α
  | Side.hum, v => { p with hum := v }
  | Side.com, v => { p with com := v }

/-! ## Squares (`shogi.rs`) -/

/-- A board square, index `9 * col + row` with `col, row ∈ 0..8`
(`SQ_11 = 0`, …, `SQ_99 = 80`). -/
def Square : Type := Fin 81
deriving DecidableEq, Repr

instance : OfNat Square 0 := ⟨(0 : Fin 81)⟩

/-- Build a square from its internal value (`Square::from_inner`). -/
def Square.mk' (n : Nat) (h : n < 81) : Square := ⟨n, h⟩

def Square.val (sq : Square) : Nat := Fin.val sq

/-- `Square::col` — the source looks this up in a table whose entry at index
`i` is `i / 9`. -/
def Square.col (sq : Square) : Nat := sq.val / 9

/-- `Square::row` — the source looks this up in a table whose entry at index
`i` is `i % 9`. -/
def Square.row (sq : Square) : Nat := sq.val % 9

/-- `Square::from_col_row`. -/
def Square.from_col_row (col row : Nat) (hc : col < 9) (hr : row < 9) : Square :=
  ⟨9 * col + row, by omega⟩

/-- `Square::distance` — Chebyshev distance; the source table entry for
`(sq1, sq2)` is `max |col₁-col₂| |row₁-row₂|`. -/
def Square.distance (sq1 sq2 : Square) : Nat :=
  max ((sq1.col : Int) - sq2.col).natAbs ((sq1.row : Int) - sq2.row).natAbs

/-- `Row::is_promotion_zone`: rows 0..2 for HUM, rows 6..8 for COM. -/
def rowIsPromotionZone (row : Nat) (s : Side) : Bool :=
  match s with
  | Side.hum => row ≤ 2
  | Side.com => 6 ≤ row

/-- `Square::is_promotion_zone`. -/
def Square.is_promotion_zone (sq : Square) (s : Side) : Bool :=
  rowIsPromotionZone sq.row s

/-- All squares in ascending order (`Square::iter`). -/
def squaresAsc : List Square :=
  (List.finRange 81)

/-! ## SquareWithWall (`shogi.rs`)

Embedded as signed coordinates; see the header comment. -/

structure SqWW where
  c : Int
  r : Int
deriving DecidableEq, Repr

/-- `SquareWithWall::from(sq)`. -/
def SqWW.ofSquare (sq : Square) : SqWW := ⟨(sq.col : Int), (sq.row : Int)⟩

/-- `SquareWithWall::is_on_board`. -/
def SqWW.is_on_board (p : SqWW) : Bool :=
  0 ≤ p.c && p.c ≤ 8 && 0 ≤ p.r && p.r ≤ 8

/-- `Square::from(sqww)`; meaningful only for on-board values. -/
def SqWW.toSquare (p : SqWW) : Square :=
  ⟨((9 * p.c + p.r).toNat) % 81, Nat.mod_lt _ (by norm_num)⟩

/-- A coordinate delta (the embedding of the `i32` `DIR_*` constants). -/
structure Delta where
  dc : Int
  dr : Int
deriving DecidableEq, Repr

def SqWW.add (p : SqWW) (d : Delta) : SqWW := ⟨p.c + d.dc, p.r + d.dr⟩

/-- Direction internal values (`Direction`): RU=0, R=1, RD=2, U=3, D=4, LU=5,
L=6, LD=7; `d.inv = 7 - d`. -/
def dirDelta : Nat → Delta
  | 0 => ⟨-1, -1⟩  -- RU
  | 1 => ⟨-1, 0⟩   -- R
  | 2 => ⟨-1, 1⟩   -- RD
  | 3 => ⟨0, -1⟩   -- U
  | 4 => ⟨0, 1⟩    -- D
  | 5 => ⟨1, -1⟩   -- LU
  | 6 => ⟨1, 0⟩    -- L
  | _ => ⟨1, 1⟩    -- LD


/-! ## Piece kinds and pieces (`shogi.rs`)

Internal values as in the source: kinds 0..14, pieces 0..30 with bit 4 the
side bit. -/

def NO_PIECE_KIND : Nat := 0
def PAWN : Nat := 1
def LANCE : Nat := 2
def KNIGHT : Nat := 3
def SILVER : Nat := 4
def BISHOP : Nat := 5
def ROOK : Nat := 6
def GOLD : Nat := 7
def KING : Nat := 8
def PRO_PAWN : Nat := 9
def PRO_LANCE : Nat := 10
def PRO_KNIGHT : Nat := 11
def PRO_SILVER : Nat := 12
def HORSE : Nat := 13
def DRAGON : Nat := 14

/-- `PieceKind::is_piece`. -/
def pkIsPiece (pk : Nat) : Bool := PAWN ≤ pk && pk ≤ DRAGON

/-- `PieceKind::is_promotable`. -/
def pkIsPromotable (pk : Nat) : Bool := PAWN ≤ pk && pk ≤ ROOK

/-- `PieceKind::is_promoted`. -/
def pkIsPromoted (pk : Nat) : Bool := PRO_PAWN ≤ pk && pk ≤ DRAGON

/-- `PieceKind::is_hand`. -/
def pkIsHand (pk : Nat) : Bool := PAWN ≤ pk && pk ≤ GOLD

/-- `PieceKind::to_promoted` (`pk | (1 << 3)`). -/
def pkToPromoted (pk : Nat) : Nat := pk ||| 8

/-- `PieceKind::to_raw` (`pk & 7`). -/
def pkToRaw (pk : Nat) : Nat := pk &&& 7

/-- Real piece kinds in ascending order (`PieceKind::iter_piece`). -/
def pieceKindsAll : List Nat :=
  [PAWN, LANCE, KNIGHT, SILVER, BISHOP, ROOK, GOLD, KING,
   PRO_PAWN, PRO_LANCE, PRO_KNIGHT, PRO_SILVER, HORSE, DRAGON]

/-- Hand piece kinds in ascending order (`PieceKind::iter_hand`). -/
def pieceKindsHand : List Nat :=
  [PAWN, LANCE, KNIGHT, SILVER, BISHOP, ROOK, GOLD]

def NO_PIECE : Nat := 0
def H_PAWN : Nat := 1
def H_LANCE : Nat := 2
def H_KNIGHT : Nat := 3
def H_SILVER : Nat := 4
def H_BISHOP : Nat := 5
def H_ROOK : Nat := 6
def H_GOLD : Nat := 7
def H_KING : Nat := 8
def H_HORSE : Nat := 13
def H_DRAGON : Nat := 14
def C_PAWN : Nat := 17
def C_LANCE : Nat := 18
def C_KNIGHT : Nat := 19
def C_SILVER : Nat := 20
def C_BISHOP : Nat := 21
def C_ROOK : Nat := 22
def C_GOLD : Nat := 23
def C_KING : Nat := 24
def C_HORSE : Nat := 29
def C_DRAGON : Nat := 30

/-- `Piece::new(side, pk)` = `(side << 4) | pk`. -/
def pcNew (s : Side) (pk : Nat) : Nat := (s.inner <<< 4) ||| pk

/-- `Piece::is_piece`. -/
def pcIsPiece (pc : Nat) : Bool := H_PAWN ≤ pc && pc ≤ C_DRAGON

/-- `Piece::side` = bit 4. -/
def pcSide (pc : Nat) : Side := if (pc >>> 4) &&& 1 = 1 then COM else HUM

/-- `Piece::kind` = `pc & 0xF`. -/
def pcKind (pc : Nat) : Nat := pc &&& 0xF

/-- `Piece::to_promoted` = `pc | (1 << 3)`. -/
def pcToPromoted (pc : Nat) : Nat := pc ||| 8

/-- `Piece::to_raw_kind` = `pc & 7`. -/
def pcToRawKind (pc : Nat) : Nat := pc &&& 7

/-! ## Direction sets (`shogi.rs`) and pairs (`effect.rs`)

A `DirectionSet` is a `u8` bit set (bit `d` for direction `d`); a
`DirectionSetPair` is a `u16`, low byte HUM, high byte COM.  Both are
embedded as `Nat`. -/

/-- Bits of a direction set, ascending (the `pop_least`/`for_each` order). -/
def dirsToList (ds : Nat) : List Nat :=
  (List.range 8).filter (fun d => ds.testBit d)

/-- `DirectionSet::get_least` — the least set bit (meaningful when nonempty). -/
def dirsGetLeast (ds : Nat) : Nat :=
  ((List.range 8).find? (fun d => ds.testBit d)).getD 0

/-- `DirectionSet::is_disjoint`. -/
def dirsIsDisjoint (a b : Nat) : Bool := a &&& b = 0

/-- `DirectionSetPair::new`. -/
def dspNew (dirsHum dirsCom : Nat) : Nat := dirsHum ||| (dirsCom <<< 8)

/-- `DirectionSetPair::from_part`. -/
def dspFromPart (s : Side) (dirs : Nat) : Nat := dirs <<< (s.inner <<< 3)

/-- `DirectionSetPair::get`. -/
def dspGet (dsp : Nat) (s : Side) : Nat := (dsp >>> (s.inner <<< 3)) &&& 0xFF

/-- `DirectionSetPair::all()` (`0xFFFF`). -/
def dspAll : Nat := 0xFFFF

/-- NOT on a `u16` (`!dsp`). -/
def dspNot (dsp : Nat) : Nat := dsp ^^^ 0xFFFF

/-- `u16::trailing_zeros`-style least set bit of a pair (meaningful when
nonempty). -/
def dspLsb (dsp : Nat) : Nat :=
  ((List.range 16).find? (fun d => dsp.testBit d)).getD 0

/-- One step of `DirectionSetPair::pop`: the direction (`lsb & 7`) and the
pair restricted to that direction. -/
def dspPop (dsp : Nat) : Nat × Nat :=
  let d := dspLsb dsp &&& 7
  (d, dsp &&& ((1 <<< d) ||| (1 <<< (d + 8))))

/-- The list of `(direction, per-direction pair)` pairs produced by the
`while !dsp.is_empty()` / `dsp.pop()` loop.  `fuel = 17` is more than the 16
bits of a pair, so the fuel never runs out on `u16` values. -/
def dspPopList : Nat → Nat → List (Nat × Nat)
  | 0, _ => []
  | fuel + 1, dsp =>
    if dsp = 0 then []
    else
      let (d, dspDir) := dspPop dsp
      (d, dspDir) :: dspPopList fuel (dsp &&& dspNot dspDir)

/-- `DirectionSet::from_squares` — the direction from `src` to `dst` as a
singleton set, or the empty set if the squares are not aligned; the source
builds its table by walking each of the 8 directions from `src` and recording
the direction at every square reached, which this reproduces by scanning
steps 1..8 in each direction. -/
def dirsFromSquares (src dst : Square) : Nat :=
  (List.range 8).foldl
    (fun acc d =>
      let delta := dirDelta d
      if (List.range 8).any (fun k =>
        let p := (SqWW.ofSquare src).add ⟨delta.dc * (k + 1), delta.dr * (k + 1)⟩
        p.is_on_board && p.toSquare = dst) then acc ||| (1 <<< d) else acc)
    0

/-- `DirectionSet::from_piece_supported` (`shogi.rs` table). -/
def dirsFromPieceSupported (pc : Nat) : Nat :=
  -- RU=1, R=2, RD=4, U=8, D=16, LU=32, L=64, LD=128
  -- BISHOP_DIRS = RU|RD|LU|LD = 0xA5, ROOK_DIRS = R|U|D|L = 0x5A
  -- H_SILVER = RU|RD|U|LU|LD = 0xAD, H_GOLD = RU|R|U|D|LU|L = 0x7B
  -- C_SILVER = RU|RD|D|LU|LD = 0xB5, C_GOLD = R|RD|U|D|L|LD = 0xDE
  match pc with
  | 1 => 0x08   -- H_PAWN: U
  | 2 => 0x08   -- H_LANCE: U
  | 4 => 0xAD   -- H_SILVER
  | 5 => 0xA5   -- H_BISHOP
  | 6 => 0x5A   -- H_ROOK
  | 7 => 0x7B   -- H_GOLD
  | 9 => 0x7B   -- H_PRO_PAWN
  | 10 => 0x7B  -- H_PRO_LANCE
  | 11 => 0x7B  -- H_PRO_KNIGHT
  | 12 => 0x7B  -- H_PRO_SILVER
  | 13 => 0xFF  -- H_HORSE
  | 14 => 0xFF  -- H_DRAGON
  | 17 => 0x10  -- C_PAWN: D
  | 18 => 0x10  -- C_LANCE: D
  | 20 => 0xB5  -- C_SILVER
  | 21 => 0xA5  -- C_BISHOP
  | 22 => 0x5A  -- C_ROOK
  | 23 => 0xDE  -- C_GOLD
  | 25 => 0xDE  -- C_PRO_PAWN
  | 26 => 0xDE  -- C_PRO_LANCE
  | 27 => 0xDE  -- C_PRO_KNIGHT
  | 28 => 0xDE  -- C_PRO_SILVER
  | 29 => 0xFF  -- C_HORSE
  | 30 => 0xFF  -- C_DRAGON
  | _ => 0      -- NO_PIECE, knights, kings, padding

/-- `DirectionSetPair::from_piece_ranged` (`effect.rs` table). -/
def dspFromPieceRanged (pc : Nat) : Nat :=
  match pc with
  | 2 => 0x08            -- H_LANCE: HUM U
  | 5 => 0xA5            -- H_BISHOP: HUM diagonals
  | 6 => 0x5A            -- H_ROOK: HUM orthogonals
  | 13 => 0xA5           -- H_HORSE
  | 14 => 0x5A           -- H_DRAGON
  | 18 => 0x10 <<< 8     -- C_LANCE: COM D
  | 21 => 0xA5 <<< 8     -- C_BISHOP
  | 22 => 0x5A <<< 8     -- C_ROOK
  | 29 => 0xA5 <<< 8     -- C_HORSE
  | 30 => 0x5A <<< 8     -- C_DRAGON
  | _ => 0

/-! ## Moves (`shogi.rs`)

`Move` packs destination, source-or-kind, drop flag and promotion flag;
`UndoableMove` additionally records the moved piece and the captured piece.
The embedding keeps the same information in structured form. -/

inductive Move where
  /-- `Move::new_walk` / `Move::new_walk_promotion`. -/
  | walk (src dst : Square) (promo : Bool)
  /-- `Move::new_drop`. -/
  | drop (pk : Nat) (dst : Square)
deriving DecidableEq, Repr

def Move.is_drop : Move → Bool
  | Move.walk _ _ _ => false
  | Move.drop _ _ => true

def Move.is_promotion : Move → Bool
  | Move.walk _ _ p => p
  | Move.drop _ _ => false

def Move.dst : Move → Square
  | Move.walk _ d _ => d
  | Move.drop _ d => d

/-- `Move::src`; meaningful only for walks (drops yield a junk square). -/
def Move.src : Move → Square
  | Move.walk s _ _ => s
  | Move.drop _ _ => 0

/-- `Move::dropped_piece_kind`; meaningful only for drops. -/
def Move.dropped_piece_kind : Move → Nat
  | Move.walk _ _ _ => 0
  | Move.drop pk _ => pk

/-- `Move::is_valid`. -/
def Move.is_valid : Move → Bool
  | Move.walk s d _ => decide (s ≠ d)
  | Move.drop pk _ => pkIsHand pk

inductive UndoableMove where
  /-- `UndoableMove::from_move_walk`. -/
  | walk (src dst : Square) (promo : Bool) (pc_src pc_captured : Nat)
  /-- `UndoableMove::from_move_drop`. -/
  | drop (pk : Nat) (dst : Square)
deriving DecidableEq, Repr

def UndoableMove.is_drop : UndoableMove → Bool
  | UndoableMove.walk _ _ _ _ _ => false
  | UndoableMove.drop _ _ => true

def UndoableMove.is_promotion : UndoableMove → Bool
  | UndoableMove.walk _ _ p _ _ => p
  | UndoableMove.drop _ _ => false

def UndoableMove.dst : UndoableMove → Square
  | UndoableMove.walk _ d _ _ _ => d
  | UndoableMove.drop _ d => d

def UndoableMove.src : UndoableMove → Square
  | UndoableMove.walk s _ _ _ _ => s
  | UndoableMove.drop _ _ => 0

def UndoableMove.piece_src : UndoableMove → Nat
  | UndoableMove.walk _ _ _ pc _ => pc
  | UndoableMove.drop _ _ => 0

def UndoableMove.piece_captured : UndoableMove → Nat
  | UndoableMove.walk _ _ _ _ pc => pc
  | UndoableMove.drop _ _ => 0

/-- `UndoableMove::piece_dst`. -/
def UndoableMove.piece_dst (umv : UndoableMove) : Nat :=
  if umv.is_promotion then pcToPromoted umv.piece_src else umv.piece_src

def UndoableMove.dropped_piece_kind : UndoableMove → Nat
  | UndoableMove.walk _ _ _ _ _ => 0
  | UndoableMove.drop pk _ => pk

/-- `Move::from(umv)`. -/
def UndoableMove.toMove : UndoableMove → Move
  | UndoableMove.walk s d p _ _ => Move.walk s d p
  | UndoableMove.drop pk d => Move.drop pk d

/-! ## Bitboards (`bitboard.rs`)

Two 64-bit parts: bits 0..62 of `lo` are squares 0..62 (files 1–7), bits
0..17 of `hi` are squares 63..80 (files 8–9). -/

def U64 : Nat := 2 ^ 64

/-- Truncate to 64 bits (used after arithmetic that can wrap). -/
def m64 (x : Nat) : Nat := x % U64

structure Bitboard where
  lo : Nat
  hi : Nat
deriving DecidableEq, Repr

def Bitboard.zero : Bitboard := ⟨0, 0⟩

/-- `Bitboard::all`. -/
def Bitboard.all : Bitboard := ⟨0x7FFFFFFFFFFFFFFF, 0x3FFFF⟩

def Bitboard.from_parts (lo hi : Nat) : Bitboard := ⟨lo, hi⟩

def Bitboard.is_zero (b : Bitboard) : Bool := b.lo = 0 && b.hi = 0

def Bitboard.band (a b : Bitboard) : Bitboard := ⟨a.lo &&& b.lo, a.hi &&& b.hi⟩

def Bitboard.bor (a b : Bitboard) : Bitboard := ⟨a.lo ||| b.lo, a.hi ||| b.hi⟩

def Bitboard.bxor (a b : Bitboard) : Bitboard := ⟨a.lo ^^^ b.lo, a.hi ^^^ b.hi⟩

/-- `!bb` = `bb ^ Bitboard::all()`. -/
def Bitboard.bnot (a : Bitboard) : Bitboard := a.bxor Bitboard.all

/-- `Bitboard::andnot` (`(!self) & rhs`, the NOT over all 128 bits). -/
def Bitboard.andnot (a b : Bitboard) : Bitboard :=
  ⟨(a.lo ^^^ (U64 - 1)) &&& b.lo, (a.hi ^^^ (U64 - 1)) &&& b.hi⟩

/-- `Bitboard::sub_parts` (per-part wrapping subtraction). -/
def Bitboard.sub_parts (a b : Bitboard) : Bitboard :=
  ⟨(a.lo + U64 - b.lo % U64) % U64, (a.hi + U64 - b.hi % U64) % U64⟩

/-- `Bitboard::logical_shift_left_parts::<N>`. -/
def Bitboard.shl (a : Bitboard) (n : Nat) : Bitboard :=
  ⟨m64 (a.lo <<< n), m64 (a.hi <<< n)⟩

/-- `Bitboard::logical_shift_right_parts::<N>`. -/
def Bitboard.shr (a : Bitboard) (n : Nat) : Bitboard :=
  ⟨a.lo >>> n, a.hi >>> n⟩

/-- `Bitboard::count_ones`. -/
def Bitboard.count_ones (a : Bitboard) : Nat :=
  ((List.range 64).filter (fun i => a.lo.testBit i)).length +
    ((List.range 64).filter (fun i => a.hi.testBit i)).length

/-- Bitboard of a single square (`bbs::square` / `Bitboard::from(sq)`):
`lo` bit `9*col+row` for files 1–7, `hi` bit `9*(col-7)+row` for files 8–9. -/
def Bitboard.ofSquare (sq : Square) : Bitboard :=
  if sq.val ≤ 62 then ⟨1 <<< sq.val, 0⟩ else ⟨0, 1 <<< (sq.val - 63)⟩

/-- `Bitboard::test_square`. -/
def Bitboard.test_square (a : Bitboard) (sq : Square) : Bool :=
  if sq.val ≤ 62 then a.lo.testBit sq.val else a.hi.testBit (sq.val - 63)

/-- The squares of a valid bitboard in ascending order
(`Bitboard::for_each_square` / `squares`: the `lo` part's set bits in
ascending order, then the `hi` part's). -/
def Bitboard.squaresList (a : Bitboard) : List Square :=
  (((List.range 63).filter (fun i => a.lo.testBit i)).map
      (fun i => (⟨i % 81, Nat.mod_lt _ (by norm_num)⟩ : Square))) ++
    (((List.range 18).filter (fun i => a.hi.testBit i)).map
      (fun i => (⟨(63 + i) % 81, Nat.mod_lt _ (by norm_num)⟩ : Square)))

/-- `Bitboard::get_least_square` (meaningful for valid nonzero bitboards). -/
def Bitboard.get_least_square (a : Bitboard) : Square :=
  (a.squaresList.headD 0)

/-- `u64` byte reversal (`_mm_shuffle_epi8` with reversed indices acts on
each 64-bit part as an 8-byte reversal). -/
def brev64 (x : Nat) : Nat :=
  (List.range 8).foldl (fun acc i => acc ||| (((x >>> (8 * i)) &&& 0xFF) <<< (8 * (7 - i)))) 0

/-- `Bitboard::byte_reverse` — reverses the 16 bytes of the 128-bit value,
i.e. swaps the parts and byte-reverses each. -/
def Bitboard.byte_reverse (a : Bitboard) : Bitboard :=
  ⟨brev64 a.hi, brev64 a.lo⟩

/-- `Bitboard::unpack_pair`. -/
def Bitboard.unpack_pair (a b : Bitboard) : Bitboard × Bitboard :=
  (⟨a.lo, b.lo⟩, ⟨a.hi, b.hi⟩)

/-- `Bitboard::decrement_unpacked_pair`: the two bitboards are viewed as
128-bit integers `(lo.lo, hi.lo)` and `(lo.hi, hi.hi)`; the high part is
decremented exactly when the low part is zero. -/
def Bitboard.decrement_unpacked_pair (a b : Bitboard) : Bitboard × Bitboard :=
  (⟨(a.lo + U64 - 1) % U64, (a.hi + U64 - 1) % U64⟩,
   ⟨if a.lo = 0 then (b.lo + U64 - 1) % U64 else b.lo,
    if a.hi = 0 then (b.hi + U64 - 1) % U64 else b.hi⟩)

/-- `Bitboard::square_is_part0`. -/
def Bitboard.square_is_part0 (sq : Square) : Bool := sq.val ≤ 62

structure Bitboard256 where
  b0 : Bitboard
  b1 : Bitboard
deriving DecidableEq, Repr

def Bitboard256.broadcast_bitboard (b : Bitboard) : Bitboard256 := ⟨b, b⟩

def Bitboard256.from_bitboards (lo hi : Bitboard) : Bitboard256 := ⟨lo, hi⟩

def Bitboard256.merge (a : Bitboard256) : Bitboard := a.b0.bor a.b1

def Bitboard256.band (a b : Bitboard256) : Bitboard256 :=
  ⟨a.b0.band b.b0, a.b1.band b.b1⟩

def Bitboard256.bor (a b : Bitboard256) : Bitboard256 :=
  ⟨a.b0.bor b.b0, a.b1.bor b.b1⟩

def Bitboard256.bxor (a b : Bitboard256) : Bitboard256 :=
  ⟨a.b0.bxor b.b0, a.b1.bxor b.b1⟩

def Bitboard256.byte_reverse (a : Bitboard256) : Bitboard256 :=
  ⟨a.b0.byte_reverse, a.b1.byte_reverse⟩

def Bitboard256.unpack_pair (a b : Bitboard256) : Bitboard256 × Bitboard256 :=
  (⟨⟨a.b0.lo, b.b0.lo⟩, ⟨a.b1.lo, b.b1.lo⟩⟩, ⟨⟨a.b0.hi, b.b0.hi⟩, ⟨a.b1.hi, b.b1.hi⟩⟩)

def Bitboard256.decrement_unpacked_pair (a b : Bitboard256) : Bitboard256 × Bitboard256 :=
  let (l0, h0) := Bitboard.decrement_unpacked_pair a.b0 b.b0
  let (l1, h1) := Bitboard.decrement_unpacked_pair a.b1 b.b1
  (⟨l0, l1⟩, ⟨h0, h1⟩)

/-! ## Effect tables (`bbs.rs`)

The `OnceCell` tables become functions computed by the translated `init_*`
bodies. -/

namespace bbs

/-- `init_col`: file `c` (0-based). -/
def colBB (c : Nat) : Bitboard :=
  if c ≤ 6 then ⟨0x1FF <<< (9 * c), 0⟩ else ⟨0, 0x1FF <<< (9 * (c - 7))⟩

/-- `init_row`: rank `r` (0-based). -/
def rowBB (r : Nat) : Bitboard := ⟨0x40201008040201 <<< r, 0x201 <<< r⟩

/-- `bbs::square`. -/
def square (sq : Square) : Bitboard := Bitboard.ofSquare sq

/-- `init_forward_rows`: the ranks strictly enemy-side of `row` for `side`. -/
def forward_rows (s : Side) (row : Nat) : Bitboard :=
  match s with
  | Side.hum => (List.range row).foldl (fun acc r => acc.bor (rowBB r)) Bitboard.zero
  | Side.com =>
      ((List.range 9).filter (fun r => row < r)).foldl
        (fun acc r => acc.bor (rowBB r)) Bitboard.zero

/-- `init_promotion_zone`. -/
def promotion_zone (s : Side) : Bitboard :=
  match s with
  | Side.hum => ((rowBB 0).bor (rowBB 1)).bor (rowBB 2)
  | Side.com => ((rowBB 8).bor (rowBB 7)).bor (rowBB 6)

/-- The squares strictly beyond `sq` in direction `d`, in walking order
(ray enumeration helper used by several `init_*` bodies). -/
def raySquares (sq : Square) (d : Nat) : List Square :=
  ((List.range 8).filterMap (fun k =>
    let delta := dirDelta d
    let p := (SqWW.ofSquare sq).add ⟨delta.dc * (k + 1), delta.dr * (k + 1)⟩
    if p.is_on_board then some p.toSquare else none))

/-- `init_qugiy_rook_mask`: `idx = 0` is the low unpacked half, `idx = 1`
the high one. -/
def qugiy_rook_mask (sq : Square) (idx : Nat) : Bitboard :=
  let left := (raySquares sq 6).foldl (fun acc q => acc.bor (Bitboard.ofSquare q))
    Bitboard.zero
  let right := (raySquares sq 1).foldl (fun acc q => acc.bor (Bitboard.ofSquare q))
    Bitboard.zero
  let (qlo, qhi) := Bitboard.unpack_pair left right.byte_reverse
  if idx = 0 then qlo else qhi

/-- `init_qugiy_bishop_mask` (directions LU, LD, RU, RD; the last two
byte-reversed; packed as two `Bitboard256`s). -/
def qugiy_bishop_mask (sq : Square) (idx : Nat) : Bitboard256 :=
  let eff := fun d => (raySquares sq d).foldl
    (fun acc q => acc.bor (Bitboard.ofSquare q)) Bitboard.zero
  let e0 := eff 5  -- LU
  let e1 := eff 7  -- LD
  let e2 := (eff 0).byte_reverse  -- RU
  let e3 := (eff 2).byte_reverse  -- RD
  if idx = 0 then
    Bitboard256.from_bitboards ⟨e0.lo, e2.lo⟩ ⟨e1.lo, e3.lo⟩
  else
    Bitboard256.from_bitboards ⟨e0.hi, e2.hi⟩ ⟨e1.hi, e3.hi⟩

/-- `init_pawn_effect`. -/
def pawn_effect (s : Side) (sq : Square) : Bitboard :=
  let p := (SqWW.ofSquare sq).add (if s = HUM then ⟨0, -1⟩ else ⟨0, 1⟩)
  if p.is_on_board then square p.toSquare else Bitboard.zero

/-- `init_lance_step_effect`. -/
def lance_step_effect (s : Side) (sq : Square) : Bitboard :=
  (colBB sq.col).band (forward_rows s sq.row)

/-- `lance_effect_hum`'s inner `effect` on a `u64`. -/
def lanceEffHumPart (step_eff occ : Nat) : Nat :=
  let mask := step_eff &&& occ
  let mask := mask ||| (mask >>> 1)
  let mask := mask ||| (mask >>> 2)
  let mask := mask ||| (mask >>> 4)
  let mask := mask >>> 1
  step_eff &&& (mask ^^^ (U64 - 1))

/-- `lance_effect_com`'s inner `effect` on a `u64`
(`(mask ^ (mask - 1)) & step_eff` with wrapping subtraction). -/
def lanceEffComPart (step_eff occ : Nat) : Nat :=
  let mask := step_eff &&& occ
  (mask ^^^ ((mask + U64 - 1) % U64)) &&& step_eff

/-- `lance_effect_hum`. -/
def lance_effect_hum (sq : Square) (occ : Bitboard) : Bitboard :=
  let step_eff := lance_step_effect HUM sq
  if Bitboard.square_is_part0 sq then
    ⟨lanceEffHumPart step_eff.lo occ.lo, 0⟩
  else
    ⟨0, lanceEffHumPart step_eff.hi occ.hi⟩

/-- `lance_effect_com`. -/
def lance_effect_com (sq : Square) (occ : Bitboard) : Bitboard :=
  let step_eff := lance_step_effect COM sq
  if Bitboard.square_is_part0 sq then
    ⟨lanceEffComPart step_eff.lo occ.lo, 0⟩
  else
    ⟨0, lanceEffComPart step_eff.hi occ.hi⟩

/-- `bbs::lance_effect`. -/
def lance_effect (s : Side) (sq : Square) (occ : Bitboard) : Bitboard :=
  if s = HUM then lance_effect_hum sq occ else lance_effect_com sq occ

/-- `rook_col_effect`. -/
def rook_col_effect (sq : Square) (occ : Bitboard) : Bitboard :=
  (lance_effect_hum sq occ).bor (lance_effect_com sq occ)

/-- `rook_row_effect` (Qugiy scheme). -/
def rook_row_effect (sq : Square) (occ : Bitboard) : Bitboard :=
  let qrm_lo := qugiy_rook_mask sq 0
  let qrm_hi := qugiy_rook_mask sq 1
  let occ_rev := occ.byte_reverse
  let (occ_unp_lo, occ_unp_hi) := Bitboard.unpack_pair occ occ_rev
  let mask_lo := qrm_lo.band occ_unp_lo
  let mask_hi := qrm_hi.band occ_unp_hi
  let (mask_lo_dec, mask_hi_dec) := Bitboard.decrement_unpacked_pair mask_lo mask_hi
  let eff_unp_lo := (mask_lo.bxor mask_lo_dec).band qrm_lo
  let eff_unp_hi := (mask_hi.bxor mask_hi_dec).band qrm_hi
  let (eff_left, eff_right_rev) := Bitboard.unpack_pair eff_unp_lo eff_unp_hi
  eff_left.bor eff_right_rev.byte_reverse

/-- `bbs::rook_effect`. -/
def rook_effect (sq : Square) (occ : Bitboard) : Bitboard :=
  (rook_col_effect sq occ).bor (rook_row_effect sq occ)

/-- `bbs::bishop_effect` (Qugiy scheme on `Bitboard256`). -/
def bishop_effect (sq : Square) (occ : Bitboard) : Bitboard :=
  let qbm_lo := qugiy_bishop_mask sq 0
  let qbm_hi := qugiy_bishop_mask sq 1
  let occ2 := Bitboard256.broadcast_bitboard occ
  let occ2_rev := Bitboard256.broadcast_bitboard occ.byte_reverse
  let (occ2_unp_lo, occ2_unp_hi) := Bitboard256.unpack_pair occ2 occ2_rev
  let mask_lo := qbm_lo.band occ2_unp_lo
  let mask_hi := qbm_hi.band occ2_unp_hi
  let (mask_lo_dec, mask_hi_dec) := Bitboard256.decrement_unpacked_pair mask_lo mask_hi
  let eff_unp_lo := (mask_lo.bxor mask_lo_dec).band qbm_lo
  let eff_unp_hi := (mask_hi.bxor mask_hi_dec).band qbm_hi
  let (eff_left, eff_right_rev) := Bitboard256.unpack_pair eff_unp_lo eff_unp_hi
  (eff_left.bor eff_right_rev.byte_reverse).merge

/-- `init_king_effect`. -/
def king_effect (sq : Square) : Bitboard :=
  (rook_effect sq Bitboard.all).bor (bishop_effect sq Bitboard.all)

/-- `init_rook_step_effect`. -/
def rook_step_effect (sq : Square) : Bitboard := rook_effect sq Bitboard.zero

/-- `init_bishop_step_effect`. -/
def bishop_step_effect (sq : Square) : Bitboard := bishop_effect sq Bitboard.zero

/-- `init_gold_effect`. -/
def gold_effect (s : Side) (sq : Square) : Bitboard :=
  let eff_enemy_pawn := lance_effect s.inv sq Bitboard.all
  let mask := if eff_enemy_pawn.is_zero then Bitboard.zero
    else rowBB (eff_enemy_pawn.get_least_square).row
  let eff_rook := rook_effect sq Bitboard.all
  let eff_bishop_fwd := (bishop_effect sq Bitboard.all).band mask.bnot
  eff_rook.bor eff_bishop_fwd

/-- `init_silver_effect`. -/
def silver_effect (s : Side) (sq : Square) : Bitboard :=
  (bishop_effect sq Bitboard.all).bor (lance_effect s sq Bitboard.all)

/-- `init_knight_effect`. -/
def knight_effect (s : Side) (sq : Square) : Bitboard :=
  let eff_pawn := lance_effect s sq Bitboard.all
  if eff_pawn.is_zero then Bitboard.zero
  else
    let sq2 := eff_pawn.get_least_square
    let eff2_pawn := lance_effect s sq2 Bitboard.all
    if eff2_pawn.is_zero then Bitboard.zero
    else (bishop_effect sq2 Bitboard.all).band (rowBB (eff2_pawn.get_least_square).row)

/-- `bbs::dragon_effect`. -/
def dragon_effect (sq : Square) (occ : Bitboard) : Bitboard :=
  (rook_effect sq occ).bor (king_effect sq)

/-- `bbs::horse_effect`. -/
def horse_effect (sq : Square) (occ : Bitboard) : Bitboard :=
  (bishop_effect sq occ).bor (king_effect sq)

/-- `bbs::axis_cross_effect`. -/
def axis_cross_effect (sq : Square) : Bitboard :=
  (rook_step_effect sq).band (king_effect sq)

/-- `bbs::diagonal_cross_effect`. -/
def diagonal_cross_effect (sq : Square) : Bitboard :=
  (bishop_step_effect sq).band (king_effect sq)

/-- `bbs::queen_effect`. -/
def queen_effect (sq : Square) (occ : Bitboard) : Bitboard :=
  (bishop_effect sq occ).bor (rook_effect sq occ)

/-- `init_around25`. -/
def around25 (sq : Square) : Bitboard :=
  ((List.range 5).foldl (fun acc i =>
    ((List.range 5).foldl (fun acc2 j =>
      let p : SqWW := ⟨(sq.col : Int) - 2 + i, (sq.row : Int) - 2 + j⟩
      if p.is_on_board then acc2.bor (Bitboard.ofSquare p.toSquare) else acc2) acc))
    Bitboard.zero)

/-- `bbs::effect` — the full attack set of piece `pc` on `sq` with
occupancy `occ`. -/
def effect (pc : Nat) (sq : Square) (occ : Bitboard) : Bitboard :=
  let pk := pcKind pc
  if pk = PAWN then pawn_effect (pcSide pc) sq
  else if pk = LANCE then lance_effect (pcSide pc) sq occ
  else if pk = KNIGHT then knight_effect (pcSide pc) sq
  else if pk = SILVER then silver_effect (pcSide pc) sq
  else if pk = GOLD ∨ pk = PRO_PAWN ∨ pk = PRO_LANCE ∨ pk = PRO_KNIGHT ∨ pk = PRO_SILVER then
    gold_effect (pcSide pc) sq
  else if pk = BISHOP then bishop_effect sq occ
  else if pk = ROOK then rook_effect sq occ
  else if pk = HORSE then horse_effect sq occ
  else if pk = DRAGON then dragon_effect sq occ
  else if pk = KING then king_effect sq
  else Bitboard.zero

/-- `bbs::effect_melee` — the melee part of the attack set. -/
def effect_melee (pc : Nat) (sq : Square) : Bitboard :=
  let pk := pcKind pc
  if pk = PAWN then pawn_effect (pcSide pc) sq
  else if pk = KNIGHT then knight_effect (pcSide pc) sq
  else if pk = SILVER then silver_effect (pcSide pc) sq
  else if pk = GOLD ∨ pk = PRO_PAWN ∨ pk = PRO_LANCE ∨ pk = PRO_KNIGHT ∨ pk = PRO_SILVER then
    gold_effect (pcSide pc) sq
  else if pk = HORSE then axis_cross_effect sq
  else if pk = DRAGON then diagonal_cross_effect sq
  else if pk = KING then king_effect sq
  else Bitboard.zero

/-- `bbs::pawn_bb_effect`. -/
def pawn_bb_effect (s : Side) (bb : Bitboard) : Bitboard :=
  if s = HUM then bb.shr 1 else bb.shl 1

/-- `bbs::pawn_drop_mask`. -/
def pawn_drop_mask (s : Side) (pawns : Bitboard) : Bitboard :=
  let left : Bitboard :=
    ⟨(1 <<< 8) ||| (1 <<< 17) ||| (1 <<< 26) ||| (1 <<< 35) ||| (1 <<< 44) |||
      (1 <<< 53) ||| (1 <<< 62),
     (1 <<< 8) ||| (1 <<< 17)⟩
  let t1 := left.sub_parts pawns
  if s = HUM then
    let t2 := (t1.band left).shr 7
    left.bxor (left.sub_parts t2)
  else
    let t2 := (t1.band left).shr 8
    left.andnot (left.sub_parts t2)

end bbs

instance : Fintype Square := inferInstanceAs (Fintype (Fin 81))

/-! ## Position (`position.rs`, `effect.rs`)

* `Board` is `Square → Nat` (piece values 0..30);
* `EffectCountBoard` entries are `Fin 256` (81 unsigned bytes, wrapping);
* `RangedEffectBoard` entries are `Nat` (`u16` direction-set pairs);
* `Hand` is `Fin 8 → Nat` (`u32` counts, which never wrap under the
  pseudo-legality preconditions);
* `ply` and `com_nonking_count` are `Nat` (`u32`). -/

def Board : Type := Square → Nat

def ECB : Type := Square → Fin 256

def RangedBoard : Type := Square → Nat

def Hand : Type := Fin 8 → Nat

instance : DecidableEq Board := inferInstanceAs (DecidableEq (Square → Nat))
instance : DecidableEq ECB := inferInstanceAs (DecidableEq (Square → Fin 256))
instance : DecidableEq RangedBoard := inferInstanceAs (DecidableEq (Square → Nat))
instance : DecidableEq Hand := inferInstanceAs (DecidableEq (Fin 8 → Nat))

/-- Index into the per-kind bitboard array. -/
def pkF (pk : Nat) : Fin 15 := ⟨pk % 15, Nat.mod_lt _ (by norm_num)⟩

/-- Index into a hand array. -/
def hndF (pk : Nat) : Fin 8 := ⟨pk % 8, Nat.mod_lt _ (by norm_num)⟩

structure Position where
  bb_occ : Bitboard
  bb_occ_side : SidePair Bitboard
  bb_pk : Fin 15 → Bitboard
  effect_counts : SidePair ECB
  ranged_effects : RangedBoard
  board : Board
  hands : SidePair Hand
  side_to_move : Side
  ply : Nat
  king_sq : SidePair Square
  com_nonking_count : Nat
deriving DecidableEq

namespace Position

def bb_occupied (p : Position) : Bitboard := p.bb_occ

def bb_occupied_side (p : Position) (s : Side) : Bitboard := p.bb_occ_side.get s

def bb_piece_kind (p : Position) (pk : Nat) : Bitboard := p.bb_pk (pkF pk)

def bb_piece (p : Position) (s : Side) (pk : Nat) : Bitboard :=
  (p.bb_occupied_side s).band (p.bb_piece_kind pk)

def bb_blank (p : Position) : Bitboard := p.bb_occ.bxor Bitboard.all

def effect_count (p : Position) (s : Side) (sq : Square) : Nat :=
  ((p.effect_counts.get s) sq).val

def hand (p : Position) (s : Side) : Hand := p.hands.get s

def king_square (p : Position) (s : Side) : Square := p.king_sq.get s

/-- `Position::is_checked`. -/
def is_checked (p : Position) (us : Side) : Bool :=
  0 < p.effect_count us.inv (p.king_square us)

/-- `xor_piece` — bitboard maintenance for `put_piece` / `remove_piece`. -/
def xor_piece (p : Position) (sq : Square) (pc : Nat) : Position :=
  { p with
    bb_occ := p.bb_occ.bxor (Bitboard.ofSquare sq)
    bb_occ_side := p.bb_occ_side.set (pcSide pc)
      ((p.bb_occ_side.get (pcSide pc)).bxor (Bitboard.ofSquare sq))
    bb_pk := Function.update p.bb_pk (pkF (pcKind pc))
      ((p.bb_pk (pkF (pcKind pc))).bxor (Bitboard.ofSquare sq)) }

/-- `put_piece` (the target square must be blank). -/
def put_piece (p : Position) (sq : Square) (pc : Nat) : Position :=
  xor_piece { p with board := Function.update p.board sq pc } sq pc

/-- `remove_piece` (the square must hold a real piece). -/
def remove_piece (p : Position) (sq : Square) : Position :=
  let pc := p.board sq
  xor_piece { p with board := Function.update p.board sq NO_PIECE } sq pc

/-- 8-bit wrapping add of a signed delta. -/
def wadd8 (x : Fin 256) (d : Int) : Fin 256 :=
  ⟨(((x.val : Int) + d) % 256).toNat, by
    have h1 : (0 : Int) ≤ ((x.val : Int) + d) % 256 := Int.emod_nonneg _ (by norm_num)
    have h2 : ((x.val : Int) + d) % 256 < 256 := Int.emod_lt_of_pos _ (by norm_num)
    omega⟩

/-- Add `d` (wrapping mod 256) to side `s`'s effect count at `q`. -/
def bumpCount (p : Position) (s : Side) (q : Square) (d : Int) : Position :=
  let e := Function.update (p.effect_counts.get s) q (wadd8 ((p.effect_counts.get s) q) d)
  { p with effect_counts := p.effect_counts.set s e }

/-- XOR `m` into the ranged effects at `q`. -/
def xorRanged (p : Position) (q : Square) (m : Nat) : Position :=
  { p with ranged_effects := Function.update p.ranged_effects q (p.ranged_effects q ^^^ m) }

/-- A `for_each_square` loop adding `d` to side `s`'s counts over `bb`. -/
def addMelee (p : Position) (s : Side) (bb : Bitboard) (d : Int) : Position :=
  bb.squaresList.foldl (fun p q => p.bumpCount s q d) p

/-- A shadow-effect adjustment loop: for each direction in `dirs`, add `d`
at the square one step from `base` if it is on the board. -/
def addShadow (p : Position) (s : Side) (base : Square) (dirs : Nat) (d : Int) : Position :=
  (dirsToList dirs).foldl (fun p dir =>
    let q := (SqWW.ofSquare base).add (dirDelta dir)
    if q.is_on_board then p.bumpCount s q.toSquare d else p) p

/-- The inner `loop` of `update_effect_ranged`: walk from `cur` one step at a
time in `delta`, updating counts (`e_us`, `e_them`) and ranged effects
(`dspDir`) on every square until a piece or the board edge is hit; on a hit
piece apply the shadow-extension adjustment one square further.  `fuel = 9`
always suffices from an on-board start. -/
def walkRay (us them : Side) (e_us e_them : Int) (dspDir : Nat) (delta : Delta) :
    Nat → SqWW → Position → Position
  | 0, _, p => p
  | fuel + 1, cur, p =>
    let nxt := cur.add delta
    if nxt.is_on_board then
      let dst := nxt.toSquare
      let p1 := ((p.bumpCount us dst e_us).bumpCount them dst e_them).xorRanged dst dspDir
      let pc_dst := p1.board dst
      if pc_dst ≠ NO_PIECE then
        let nxt2 := nxt.add delta
        if nxt2.is_on_board then
          let dst2 := nxt2.toSquare
          let dirs_pc_dst := dirsFromPieceSupported pc_dst
          if pcSide pc_dst = us ∧ ¬ dirsIsDisjoint dirs_pc_dst (dspGet dspDir us) then
            p1.bumpCount us dst2 e_us
          else if pcSide pc_dst = them ∧ ¬ dirsIsDisjoint dirs_pc_dst (dspGet dspDir them) then
            p1.bumpCount them dst2 e_them
          else p1
        else p1
      else walkRay us them e_us e_them dspDir delta fuel nxt p1
    else p

/-- `Position::update_effect_ranged`. -/
def update_effect_ranged (p : Position) (sq : Square) (dsp_us dsp_others : Nat)
    (put : Bool) : Position :=
  let us := p.side_to_move
  let them := us.inv
  let e_sign : Int := if put then 1 else -1
  let dsp := dsp_us ^^^ dsp_others
  (dspPopList 17 dsp).foldl (fun p pr =>
    let dspDir := pr.2
    let e_us : Int :=
      if dspGet dspDir us = 0 then 0
      else if dsp_us &&& dspDir = 0 then -e_sign else e_sign
    let e_them : Int := if dspGet dspDir them = 0 then 0 else -e_sign
    walkRay us them e_us e_them dspDir (dirDelta pr.1) 9 (SqWW.ofSquare sq) p) p

/-- The `dsp_mask` computed at a walk's origin: all directions, except that
for an 8-direction move the direction opposite to the movement is masked
out. -/
def originDspMask (src dst : Square) : Nat :=
  let mv_dirs := dirsFromSquares src dst
  if mv_dirs = 0 then dspAll
  else
    let mv_dirs_inv := 1 <<< (7 - dirsGetLeast mv_dirs)
    dspNot (dspNew mv_dirs_inv mv_dirs_inv)

/-- `update_effect_by_drop`. -/
def update_effect_by_drop (p : Position) (pk : Nat) (dst : Square) : Position :=
  let us := p.side_to_move
  let pc := pcNew us pk
  let p := p.addMelee us (bbs.effect_melee pc dst) 1
  let p := p.addShadow us dst (dirsFromPieceSupported pc &&& dspGet (p.ranged_effects dst) us) 1
  p.update_effect_ranged dst (dspFromPieceRanged pc) (p.ranged_effects dst) true

/-- `do_move_drop`. -/
def do_move_drop (p : Position) (pk : Nat) (dst : Square) : UndoableMove × Position :=
  let us := p.side_to_move
  let h' := Function.update (p.hands.get us) (hndF pk) ((p.hands.get us) (hndF pk) - 1)
  let p := { p with hands := p.hands.set us h' }
  let p := p.put_piece dst (pcNew us pk)
  let p := p.update_effect_by_drop pk dst
  (UndoableMove.drop pk dst, p)

/-- The melee part shared by the capture / non-capture walk updates: remove
the source piece's melee effects and add the destination piece's, masking
out the overlap. -/
def walkMelee (p : Position) (us : Side) (src dst : Square) (pc_src pc_dst : Nat)
    (d : Int) : Position :=
  let bb_dec := bbs.effect_melee pc_src src
  let bb_inc := bbs.effect_melee pc_dst dst
  let bb_intersect := bb_dec.band bb_inc
  let bb_dec := bb_dec.bxor bb_intersect
  let bb_inc := bb_inc.bxor bb_intersect
  (p.addMelee us bb_dec (-d)).addMelee us bb_inc d

/-- `update_effect_by_noncapture`. -/
def update_effect_by_noncapture (p : Position) (src dst : Square)
    (pc_src pc_dst : Nat) : Position :=
  let us := p.side_to_move
  let p := p.walkMelee us src dst pc_src pc_dst 1
  let p := p.addShadow us src
    (dirsFromPieceSupported pc_src &&& dspGet (p.ranged_effects src) us) (-1)
  let p :=
    let dsp_mask := originDspMask src dst
    let dsp_us := dspFromPieceRanged pc_src &&& dsp_mask
    let dsp_others := p.ranged_effects src &&& dsp_mask
    p.update_effect_ranged src dsp_us dsp_others false
  let p := p.addShadow us dst
    (dirsFromPieceSupported pc_dst &&& dspGet (p.ranged_effects dst) us) 1
  let dsp_us := dspFromPieceRanged pc_dst
  let dsp_others := p.ranged_effects dst
  let pc_src_orig := p.board src
  let p := { p with board := Function.update p.board src H_KNIGHT }
  let p := p.update_effect_ranged dst dsp_us dsp_others true
  { p with board := Function.update p.board src pc_src_orig }

/-- `update_effect_by_capture`. -/
def update_effect_by_capture (p : Position) (src dst : Square)
    (pc_src pc_dst pc_captured : Nat) : Position :=
  let us := p.side_to_move
  let them := us.inv
  let p := p.walkMelee us src dst pc_src pc_dst 1
  let p := p.addMelee them (bbs.effect_melee pc_captured dst) (-1)
  let p := p.addShadow us src
    (dirsFromPieceSupported pc_src &&& dspGet (p.ranged_effects src) us) (-1)
  let p := p.addShadow them dst
    (dirsFromPieceSupported pc_captured &&& dspGet (p.ranged_effects dst) them) (-1)
  let p :=
    let dsp_mask := originDspMask src dst
    let dsp_us := dspFromPieceRanged pc_src &&& dsp_mask
    let dsp_others := p.ranged_effects src &&& dsp_mask
    let pc_captured_orig := p.board dst
    let p := { p with board := Function.update p.board dst H_KNIGHT }
    let p := p.update_effect_ranged src dsp_us dsp_others false
    { p with board := Function.update p.board dst pc_captured_orig }
  let p := p.addShadow us dst
    (dirsFromPieceSupported pc_dst &&& dspGet (p.ranged_effects dst) us) 1
  let dsp_us := dspFromPieceRanged pc_dst
  let dsp_others := dspFromPieceRanged pc_captured
  let pc_src_orig := p.board src
  let p := { p with board := Function.update p.board src H_KNIGHT }
  let p := p.update_effect_ranged dst dsp_us dsp_others true
  { p with board := Function.update p.board src pc_src_orig }

/-- `do_move_walk`. -/
def do_move_walk (p : Position) (src dst : Square) (promo : Bool) :
    UndoableMove × Position :=
  let us := p.side_to_move
  let pc_src := p.board src
  let pc_captured := p.board dst
  let pc_dst := if promo then pcToPromoted pc_src else pc_src
  let p :=
    if pc_captured = NO_PIECE then
      p.update_effect_by_noncapture src dst pc_src pc_dst
    else
      let p := p.update_effect_by_capture src dst pc_src pc_dst pc_captured
      let pr := pcToRawKind pc_captured
      let h' := Function.update (p.hands.get us) (hndF pr) ((p.hands.get us) (hndF pr) + 1)
      let p := { p with hands := p.hands.set us h' }
      let p := p.remove_piece dst
      { p with com_nonking_count :=
          if us = HUM then p.com_nonking_count - 1 else p.com_nonking_count + 1 }
  let p := p.remove_piece src
  let p := p.put_piece dst pc_dst
  let p := if pcKind pc_src = KING then { p with king_sq := p.king_sq.set us dst } else p
  (UndoableMove.walk src dst promo pc_src pc_captured, p)

/-- `Position::do_move`. -/
def do_move (p : Position) (mv : Move) : UndoableMove × Position :=
  let (umv, p) :=
    match mv with
    | Move.drop pk dst => p.do_move_drop pk dst
    | Move.walk src dst promo => p.do_move_walk src dst promo
  (umv, { p with side_to_move := p.side_to_move.inv, ply := p.ply + 1 })

/-- `revert_effect_by_drop`. -/
def revert_effect_by_drop (p : Position) (pk : Nat) (dst : Square) : Position :=
  let us := p.side_to_move
  let pc := pcNew us pk
  let p := p.addMelee us (bbs.effect_melee pc dst) (-1)
  let p :=
    let dsp_us := dspFromPieceRanged pc
    let dsp_others := p.ranged_effects dst
    p.update_effect_ranged dst dsp_us dsp_others false
  p.addShadow us dst (dirsFromPieceSupported pc &&& dspGet (p.ranged_effects dst) us) (-1)

/-- `undo_move_drop`. -/
def undo_move_drop (p : Position) (pk : Nat) (dst : Square) : Position :=
  let us := p.side_to_move
  let p := p.remove_piece dst
  let h' := Function.update (p.hands.get us) (hndF pk) ((p.hands.get us) (hndF pk) + 1)
  let p := { p with hands := p.hands.set us h' }
  p.revert_effect_by_drop pk dst

/-- `revert_effect_by_noncapture`. -/
def revert_effect_by_noncapture (p : Position) (src dst : Square)
    (pc_src pc_dst : Nat) : Position :=
  let us := p.side_to_move
  let p := p.walkMelee us src dst pc_src pc_dst (-1)
  let p :=
    let dsp_us := dspFromPieceRanged pc_dst
    let dsp_others := p.ranged_effects dst
    let pc_src_orig := p.board src
    let p := { p with board := Function.update p.board src H_KNIGHT }
    let p := p.update_effect_ranged dst dsp_us dsp_others false
    { p with board := Function.update p.board src pc_src_orig }
  let p := p.addShadow us dst
    (dirsFromPieceSupported pc_dst &&& dspGet (p.ranged_effects dst) us) (-1)
  let p :=
    let dsp_mask := originDspMask src dst
    let dsp_us := dspFromPieceRanged pc_src &&& dsp_mask
    let dsp_others := p.ranged_effects src &&& dsp_mask
    p.update_effect_ranged src dsp_us dsp_others true
  p.addShadow us src
    (dirsFromPieceSupported pc_src &&& dspGet (p.ranged_effects src) us) 1

/-- `revert_effect_by_capture`. -/
def revert_effect_by_capture (p : Position) (src dst : Square)
    (pc_src pc_dst pc_captured : Nat) : Position :=
  let us := p.side_to_move
  let them := us.inv
  let p := p.walkMelee us src dst pc_src pc_dst (-1)
  let p := p.addMelee them (bbs.effect_melee pc_captured dst) 1
  let p :=
    let dsp_us := dspFromPieceRanged pc_dst
    let dsp_others := dspFromPieceRanged pc_captured
    let pc_src_orig := p.board src
    let p := { p with board := Function.update p.board src H_KNIGHT }
    let p := p.update_effect_ranged dst dsp_us dsp_others false
    { p with board := Function.update p.board src pc_src_orig }
  let p := p.addShadow us dst
    (dirsFromPieceSupported pc_dst &&& dspGet (p.ranged_effects dst) us) (-1)
  let p :=
    let dsp_mask := originDspMask src dst
    let dsp_us := dspFromPieceRanged pc_src &&& dsp_mask
    let dsp_others := p.ranged_effects src &&& dsp_mask
    let pc_captured_orig := p.board dst
    let p := { p with board := Function.update p.board dst H_KNIGHT }
    let p := p.update_effect_ranged src dsp_us dsp_others true
    { p with board := Function.update p.board dst pc_captured_orig }
  let p := p.addShadow us src
    (dirsFromPieceSupported pc_src &&& dspGet (p.ranged_effects src) us) 1
  p.addShadow them dst
    (dirsFromPieceSupported pc_captured &&& dspGet (p.ranged_effects dst) them) 1

/-- `undo_move_walk`. -/
def undo_move_walk (p : Position) (src dst : Square) (_promo : Bool)
    (pc_src pc_dst pc_captured : Nat) : Position :=
  let us := p.side_to_move
  let p := p.remove_piece dst
  let p := p.put_piece src pc_src
  let p :=
    if pc_captured = NO_PIECE then
      p.revert_effect_by_noncapture src dst pc_src pc_dst
    else
      let p := p.put_piece dst pc_captured
      let pr := pcToRawKind pc_captured
      let h' := Function.update (p.hands.get us) (hndF pr) ((p.hands.get us) (hndF pr) - 1)
      let p := { p with hands := p.hands.set us h' }
      let p := p.revert_effect_by_capture src dst pc_src pc_dst pc_captured
      { p with com_nonking_count :=
          if us = HUM then p.com_nonking_count + 1 else p.com_nonking_count - 1 }
  if pcKind pc_src = KING then { p with king_sq := p.king_sq.set us src } else p

/-- `Position::undo_move`. -/
def undo_move (p : Position) (umv : UndoableMove) : Position :=
  let p := { p with side_to_move := p.side_to_move.inv, ply := p.ply - 1 }
  match umv with
  | UndoableMove.drop pk dst => p.undo_move_drop pk dst
  | UndoableMove.walk src dst promo pc_src pc_captured =>
    p.undo_move_walk src dst promo pc_src
      (if promo then pcToPromoted pc_src else pc_src) pc_captured

end Position

/-- `calc_effect` — full from-scratch computation of the effect counts and
ranged effects of a position (used by `Position::new`). -/
def calc_effect (p : Position) : SidePair ECB × RangedBoard :=
  p.bb_occupied.squaresList.foldl
    (fun (st : SidePair ECB × RangedBoard) src =>
      let (effect_counts, ranged_effects) := st
      let pc := p.board src
      let side := pcSide pc
      let eff := bbs.effect pc src p.bb_occupied
      let eff_melee :=
        if pc = H_LANCE ∨ pc = C_LANCE ∨ pc = H_BISHOP ∨ pc = C_BISHOP ∨
            pc = H_ROOK ∨ pc = C_ROOK then Bitboard.zero
        else if pc = H_HORSE ∨ pc = C_HORSE then bbs.axis_cross_effect src
        else if pc = H_DRAGON ∨ pc = C_DRAGON then bbs.diagonal_cross_effect src
        else eff
      let effect_counts := eff_melee.squaresList.foldl
        (fun (ec : SidePair ECB) dst =>
          ec.set side (Function.update (ec.get side) dst
            (Position.wadd8 ((ec.get side) dst) 1)))
        effect_counts
      if pc = H_LANCE ∨ pc = C_LANCE ∨ pc = H_BISHOP ∨ pc = C_BISHOP ∨
          pc = H_ROOK ∨ pc = C_ROOK ∨ pc = H_HORSE ∨ pc = C_HORSE ∨
          pc = H_DRAGON ∨ pc = C_DRAGON then
        let eff_ranged :=
          if pc = H_HORSE ∨ pc = C_HORSE then
            (bbs.axis_cross_effect src).andnot eff
          else if pc = H_DRAGON ∨ pc = C_DRAGON then
            (bbs.diagonal_cross_effect src).andnot eff
          else eff
        let st := eff_ranged.squaresList.foldl
          (fun (st : SidePair ECB × RangedBoard) dst =>
            let (ec, re) := st
            let dirs := dirsFromSquares src dst
            let dsp := dspFromPart side dirs
            (ec.set side (Function.update (ec.get side) dst
               (Position.wadd8 ((ec.get side) dst) 1)),
             Function.update re dst (re dst ^^^ dsp)))
          (effect_counts, ranged_effects)
        let (effect_counts, ranged_effects) := st
        let bb_support := (p.bb_piece_kind KNIGHT).andnot
          ((p.bb_piece_kind KING).andnot (eff_ranged.band (p.bb_occupied_side side)))
        let effect_counts := bb_support.squaresList.foldl
          (fun (ec : SidePair ECB) dst =>
            let pc_dst := p.board dst
            let dirs_eff := dirsFromSquares src dst
            let dirs_pc_dst := dirsFromPieceSupported pc_dst
            if ¬ dirsIsDisjoint dirs_eff dirs_pc_dst then
              let q := (SqWW.ofSquare dst).add (dirDelta (dirsGetLeast dirs_eff))
              if q.is_on_board then
                ec.set side (Function.update (ec.get side) q.toSquare
                  (Position.wadd8 ((ec.get side) q.toSquare) 1))
              else ec
            else ec)
          effect_counts
        (effect_counts, ranged_effects)
      else
        (effect_counts, ranged_effects))
    (⟨fun _ => 0, fun _ => 0⟩, fun _ => 0)

/-- `Position::new` — build a position from side to move, board and hands;
no legality checks; `ply` starts at 1. -/
def Position.new (side_to_move : Side) (board : Board) (hands : SidePair Hand) :
    Position :=
  let bbst := squaresAsc.foldl
    (fun (st : Bitboard × SidePair Bitboard × (Fin 15 → Bitboard) × SidePair Square) sq =>
      let (bb_occ, bb_occ_side, bb_pk, king_sq) := st
      let pc := board sq
      if pcIsPiece pc then
        let bb_occ := bb_occ.bor (Bitboard.ofSquare sq)
        let bb_occ_side := bb_occ_side.set (pcSide pc)
          ((bb_occ_side.get (pcSide pc)).bor (Bitboard.ofSquare sq))
        let bb_pk := Function.update bb_pk (pkF (pcKind pc))
          ((bb_pk (pkF (pcKind pc))).bor (Bitboard.ofSquare sq))
        let king_sq := if pcKind pc = KING then king_sq.set (pcSide pc) sq else king_sq
        (bb_occ, bb_occ_side, bb_pk, king_sq)
      else st)
    (Bitboard.zero, ⟨Bitboard.zero, Bitboard.zero⟩, fun _ => Bitboard.zero, ⟨0, 0⟩)
  let (bb_occ, bb_occ_side, bb_pk, king_sq) := bbst
  let com_nonking_count := ((bb_occ_side.get COM).count_ones - 1) +
    pieceKindsHand.foldl (fun acc pk => acc + (hands.get COM) (hndF pk)) 0
  let p : Position :=
    { bb_occ := bb_occ
      bb_occ_side := bb_occ_side
      bb_pk := bb_pk
      effect_counts := ⟨fun _ => 0, fun _ => 0⟩
      ranged_effects := fun _ => 0
      board := board
      hands := hands
      side_to_move := side_to_move
      ply := 1
      king_sq := king_sq
      com_nonking_count := com_nonking_count }
  let (effect_counts, ranged_effects) := calc_effect p
  { p with effect_counts := effect_counts, ranged_effects := ranged_effects }

/-! ## Original-program constants (`naitou.rs`) -/

/-- `naitou_squares` — all squares in the original scan order
(`SQ_91, SQ_81, …, SQ_19`): rank-major, files 9 down to 1. -/
def naitou_squares : List Square :=
  (List.range 9).flatMap (fun row =>
    (List.range 9).map (fun i =>
      (⟨(9 * (8 - i) + row) % 81, Nat.mod_lt _ (by norm_num)⟩ : Square)))

/-- `naitou_square_to_value`: the table entry for the square with 1-based
file `f` and rank `r` is `11 * r + (10 - f)`. -/
def naitou_square_to_value (sq : Square) : Nat :=
  11 * (sq.row + 1) + (10 - (sq.col + 1))

/-- `naitou_square_distance` — Chebyshev distance, with a missing first
square treated as file 10, rank 9. -/
def naitou_square_distance (sq1 : Option Square) (sq2 : Square) : Nat :=
  match sq1 with
  | some sq1 => sq1.distance sq2
  | none =>
    let dx := 1 + 8 - sq2.col
    let dy := 8 - sq2.row
    if dx < dy then dy else dx

/-- `naitou_piece_price_a`. -/
def naitou_piece_price_a (pk : Nat) : Nat :=
  [255, 1, 4, 4, 8, 16, 17, 8, 40, 2, 5, 6, 8, 20, 22].getD pk 255

/-- `naitou_piece_price_b`. -/
def naitou_piece_price_b (pk : Nat) : Nat :=
  [255, 1, 4, 4, 8, 16, 17, 8, 40, 8, 8, 8, 8, 22, 22].getD pk 255

/-- `naitou_piece_price_c`. -/
def naitou_piece_price_c (pk : Nat) : Nat :=
  [255, 1, 4, 4, 8, 16, 17, 8, 40, 2, 8, 8, 8, 22, 22].getD pk 255

/-- `naitou_piece_price_d`. -/
def naitou_piece_price_d (pk : Nat) : Nat :=
  [255, 1, 4, 4, 8, 16, 17, 8, 40, 1, 4, 4, 8, 20, 22].getD pk 255

/-- `naitou_attacker` — the smallest-priced (table A; ties broken by the
original square value) piece kind of side `us` attacking `sq`. -/
def naitou_attacker (p : Position) (us : Side) (sq : Square) : Nat :=
  let them := us.inv
  let current := pieceKindsAll.foldl
    (fun (current : Nat × Square) pk =>
      let bb := (bbs.effect (pcNew them pk) sq p.bb_occupied).band (p.bb_piece us pk)
      bb.squaresList.foldl
        (fun (current : Nat × Square) sq_attacker =>
          -- `min_by_key` on `(price_a, naitou square value)`, keeping the
          -- current value on ties (lexicographic tuple comparison)
          let pNew := naitou_piece_price_a pk
          let pCur := naitou_piece_price_a current.1
          let vNew := naitou_square_to_value sq_attacker
          let vCur := naitou_square_to_value current.2
          if pNew < pCur ∨ (pNew = pCur ∧ vNew < vCur) then (pk, sq_attacker)
          else current)
        current)
    (NO_PIECE_KIND, (0 : Square))
  current.1

/-! ## COM move generation (`movegen/com.rs`) -/

/-- `movegen/com.rs` `effect_melee` — per-kind melee direction deltas, in
the original order. -/
def comEffMeleeDirs (pk : Nat) : List Delta :=
  let dRD : Delta := ⟨-1, 1⟩
  let dD : Delta := ⟨0, 1⟩
  let dLD : Delta := ⟨1, 1⟩
  let dR : Delta := ⟨-1, 0⟩
  let dL : Delta := ⟨1, 0⟩
  let dRU : Delta := ⟨-1, -1⟩
  let dU : Delta := ⟨0, -1⟩
  let dLU : Delta := ⟨1, -1⟩
  let effPawn := [dD]
  let effKnight := [⟨-1, 2⟩, ⟨1, 2⟩]
  let effSilver := [dRD, dD, dLD, dRU, dLU]
  let effGold := [dRD, dD, dLD, dR, dL, dU]
  let effKing := [dRD, dD, dLD, dR, dL, dRU, dU, dLU]
  let effHorse := [dD, dR, dL, dU]
  let effDragon := [dRD, dLD, dRU, dLU]
  [([] : List Delta), effPawn, [], effKnight, effSilver, [], [], effGold, effKing,
    effGold, effGold, effGold, effGold, effHorse, effDragon].getD pk []

/-- `movegen/com.rs` `effect_ranged` — per-kind ranged direction deltas, in
the original order. -/
def comEffRangedDirs (pk : Nat) : List Delta :=
  let effLance := [(⟨0, 1⟩ : Delta)]
  let effBishop := [(⟨1, -1⟩ : Delta), ⟨-1, -1⟩, ⟨1, 1⟩, ⟨-1, 1⟩]  -- LU, RU, LD, RD
  let effRook := [(⟨0, -1⟩ : Delta), ⟨0, 1⟩, ⟨1, 0⟩, ⟨-1, 0⟩]      -- U, D, L, R
  [([] : List Delta), [], effLance, [], [], effBishop, effRook, [], [],
    [], [], [], [], effBishop, effRook].getD pk []

/-- `generate_walk_helper` — emit the walk, always promoting when possible. -/
def generate_walk_helper (pk : Nat) (src dst : Square) : Move :=
  let promo := pkIsPromotable pk &&
    (src.is_promotion_zone COM || dst.is_promotion_zone COM)
  Move.walk src dst promo

/-- The ranged-walk inner loop of `generate_moves_com_walk`. -/
def comWalkRanged (p : Position) (pk : Nat) (src : Square) (bb_target : Bitboard)
    (delta : Delta) : Nat → SqWW → List Move
  | 0, _ => []
  | fuel + 1, cur =>
    let nxt := cur.add delta
    if nxt.is_on_board && bb_target.test_square nxt.toSquare then
      let dst := nxt.toSquare
      let mv := generate_walk_helper pk src dst
      if p.board dst ≠ NO_PIECE then [mv]
      else mv :: comWalkRanged p pk src bb_target delta fuel nxt
    else []

/-- `generate_moves_com_walk`. -/
def generate_moves_com_walk (p : Position) (src : Square) (pk : Nat)
    (bb_target : Bitboard) : List Move :=
  let src_ww := SqWW.ofSquare src
  let ranged := (comEffRangedDirs pk).flatMap (fun delta =>
    comWalkRanged p pk src bb_target delta 9 src_ww)
  let melee := (comEffMeleeDirs pk).filterMap (fun delta =>
    let dst_ww := src_ww.add delta
    if dst_ww.is_on_board && bb_target.test_square dst_ww.toSquare then
      some (generate_walk_helper pk src dst_ww.toSquare)
    else none)
  ranged ++ melee

/-- `generate_moves_com_drop` — drops at `dst` in the order pawn, lance,
knight, silver, gold, bishop, rook. -/
def generate_moves_com_drop (p : Position) (dst : Square) (bb_pawn_drop : Bitboard) :
    List Move :=
  let hand := p.hand p.side_to_move
  (if 0 < hand (hndF PAWN) && bb_pawn_drop.test_square dst then
    [Move.drop PAWN dst] else []) ++
  (if 0 < hand (hndF LANCE) && dst.row ≠ 8 then [Move.drop LANCE dst] else []) ++
  (if 0 < hand (hndF KNIGHT) && dst.row ≤ 6 then [Move.drop KNIGHT dst] else []) ++
  (if 0 < hand (hndF SILVER) then [Move.drop SILVER dst] else []) ++
  (if 0 < hand (hndF GOLD) then [Move.drop GOLD dst] else []) ++
  (if 0 < hand (hndF BISHOP) then [Move.drop BISHOP dst] else []) ++
  (if 0 < hand (hndF ROOK) then [Move.drop ROOK dst] else [])

/-- `generate_moves_com` — all COM pseudo-legal moves, in the original
console order. -/
def generate_moves_com (p : Position) : List Move :=
  let bb_walk_target := (p.bb_occupied_side COM).bnot
  let bb_pawn_drop := bbs.pawn_drop_mask COM (p.bb_piece COM PAWN)
  naitou_squares.foldl (fun mvs sq =>
    let pc := p.board sq
    if pc = NO_PIECE then mvs ++ generate_moves_com_drop p sq bb_pawn_drop
    else if pcSide pc = COM then
      mvs ++ generate_moves_com_walk p sq (pcKind pc) bb_walk_target
    else mvs) []

/-! ## General move generation and the checkmate probe (`movegen/general.rs`) -/

/-- `generate_moves_walk_pawn`. -/
def generate_moves_walk_pawn (p : Position) (bb_target : Bitboard) : List Move :=
  let us := p.side_to_move
  let bb_pawn := p.bb_piece us PAWN
  let bb_eff := bbs.pawn_bb_effect us bb_pawn
  let bb_dst := bb_target.band bb_eff
  let row_deadend := if us = HUM then 0 else 8
  bb_dst.squaresList.flatMap (fun dst =>
    let src : Square :=
      if us = HUM then ⟨(dst.val + 1) % 81, Nat.mod_lt _ (by norm_num)⟩
      else ⟨(dst.val + 80) % 81, Nat.mod_lt _ (by norm_num)⟩
    if dst.is_promotion_zone us then
      Move.walk src dst true ::
        (if dst.row ≠ row_deadend then [Move.walk src dst false] else [])
    else [Move.walk src dst false])

/-- `generate_moves_walk_helper_lance`. -/
def generate_moves_walk_helper_lance (us : Side) (src : Square) (bb_dst : Bitboard) :
    List Move :=
  let bb_dst_promo := bb_dst.band (bbs.promotion_zone us)
  let bb_mask_nonpromo :=
    if us = HUM then bbs.forward_rows COM 0 else bbs.forward_rows HUM 8
  let bb_dst_nonpromo := bb_dst.band bb_mask_nonpromo
  bb_dst_promo.squaresList.map (fun dst => Move.walk src dst true) ++
    bb_dst_nonpromo.squaresList.map (fun dst => Move.walk src dst false)

/-- `generate_moves_walk_helper_knight`. -/
def generate_moves_walk_helper_knight (us : Side) (src : Square) (bb_dst : Bitboard) :
    List Move :=
  bb_dst.squaresList.flatMap (fun dst =>
    if dst.is_promotion_zone us then
      let row_nonpromo := if us = HUM then 2 else 6
      Move.walk src dst true ::
        (if dst.row = row_nonpromo then [Move.walk src dst false] else [])
    else [Move.walk src dst false])

/-- `generate_moves_walk_helper_promotable`. -/
def generate_moves_walk_helper_promotable (us : Side) (src : Square)
    (bb_dst : Bitboard) : List Move :=
  if src.is_promotion_zone us then
    bb_dst.squaresList.flatMap (fun dst => [Move.walk src dst true, Move.walk src dst false])
  else
    let bb_dst_promo := bb_dst.band (bbs.promotion_zone us)
    let bb_dst_nonpromo := (bbs.promotion_zone us).andnot bb_dst
    bb_dst_promo.squaresList.flatMap
        (fun dst => [Move.walk src dst true, Move.walk src dst false]) ++
      bb_dst_nonpromo.squaresList.map (fun dst => Move.walk src dst false)

/-- `generate_moves_walk_helper_unpromotable`. -/
def generate_moves_walk_helper_unpromotable (src : Square) (bb_dst : Bitboard) :
    List Move :=
  bb_dst.squaresList.map (fun dst => Move.walk src dst false)

/-- `generate_moves_walk` for a non-pawn kind. -/
def generate_moves_walk (p : Position) (bb_target : Bitboard) (pk : Nat) : List Move :=
  let us := p.side_to_move
  let bb_occ := p.bb_occupied
  let bb_pc := p.bb_piece us pk
  bb_pc.squaresList.flatMap (fun src =>
    let bb_dst := bb_target.band (bbs.effect (pcNew us pk) src bb_occ)
    if pk = LANCE then generate_moves_walk_helper_lance us src bb_dst
    else if pk = KNIGHT then generate_moves_walk_helper_knight us src bb_dst
    else if pk = SILVER ∨ pk = BISHOP ∨ pk = ROOK then
      generate_moves_walk_helper_promotable us src bb_dst
    else generate_moves_walk_helper_unpromotable src bb_dst)

/-- `generate_moves_drop_pawn`. -/
def generate_moves_drop_pawn (p : Position) (bb_target : Bitboard) : List Move :=
  let us := p.side_to_move
  let bb_dst := bb_target.band (bbs.pawn_drop_mask us (p.bb_piece us PAWN))
  bb_dst.squaresList.map (fun dst => Move.drop PAWN dst)

/-- `generate_moves_drop_lance`. -/
def generate_moves_drop_lance (us : Side) (bb_target : Bitboard) : List Move :=
  let bb_mask := if us = HUM then bbs.forward_rows COM 0 else bbs.forward_rows HUM 8
  (bb_target.band bb_mask).squaresList.map (fun dst => Move.drop LANCE dst)

/-- `generate_moves_drop_knight`. -/
def generate_moves_drop_knight (us : Side) (bb_target : Bitboard) : List Move :=
  let bb_mask := if us = HUM then bbs.forward_rows COM 1 else bbs.forward_rows HUM 7
  (bb_target.band bb_mask).squaresList.map (fun dst => Move.drop KNIGHT dst)

/-- `generate_moves_drop`. -/
def generate_moves_drop (p : Position) (bb_target : Bitboard) : List Move :=
  let us := p.side_to_move
  let hand := p.hand us
  (if 0 < hand (hndF PAWN) then generate_moves_drop_pawn p bb_target else []) ++
  (if 0 < hand (hndF LANCE) then generate_moves_drop_lance us bb_target else []) ++
  (if 0 < hand (hndF KNIGHT) then generate_moves_drop_knight us bb_target else []) ++
  ([SILVER, GOLD, BISHOP, ROOK].flatMap (fun pk =>
    if 0 < hand (hndF pk) then
      bb_target.squaresList.map (fun dst => Move.drop pk dst)
    else []))

/-- `try_evade_helper` — whether the move escapes check (probed with a
`do_move`/`undo_move` pair in the source; the pure embedding just inspects
the resulting position). -/
def try_evade_helper (p : Position) (mv : Move) : Bool :=
  let us := p.side_to_move
  ¬ ((p.do_move mv).2.is_checked us)

/-- `evade_by_king`. -/
def evade_by_king (p : Position) : Bool :=
  let us := p.side_to_move
  let them := us.inv
  let sq_king := p.king_square us
  let bb_dst := ((p.bb_occupied_side us).bnot).band (bbs.king_effect sq_king)
  bb_dst.squaresList.any (fun dst =>
    if 0 < p.effect_count them dst then false
    else try_evade_helper p (Move.walk sq_king dst false))

/-- `evade_by_nonking`. -/
def evade_by_nonking (p : Position) (bb_drop_target : Bitboard) : Bool :=
  let us := p.side_to_move
  let them := us.inv
  let sq_king := p.king_square us
  let bb_knight := (p.bb_piece them KNIGHT).band (bbs.knight_effect us sq_king)
  let bb_target :=
    if bb_knight.is_zero then
      ((p.bb_occupied_side us).bnot).band (bbs.queen_effect sq_king p.bb_occupied)
    else bb_knight
  (generate_moves_walk_pawn p bb_target).any (try_evade_helper p) ||
  (generate_moves_walk p bb_target LANCE).any (try_evade_helper p) ||
  (generate_moves_walk p bb_target KNIGHT).any (try_evade_helper p) ||
  (generate_moves_walk p bb_target SILVER).any (try_evade_helper p) ||
  (generate_moves_walk p bb_target BISHOP).any (try_evade_helper p) ||
  (generate_moves_walk p bb_target ROOK).any (try_evade_helper p) ||
  (generate_moves_walk p bb_target GOLD).any (try_evade_helper p) ||
  (generate_moves_walk p bb_target PRO_PAWN).any (try_evade_helper p) ||
  (generate_moves_walk p bb_target PRO_LANCE).any (try_evade_helper p) ||
  (generate_moves_walk p bb_target PRO_KNIGHT).any (try_evade_helper p) ||
  (generate_moves_walk p bb_target PRO_SILVER).any (try_evade_helper p) ||
  (generate_moves_walk p bb_target HORSE).any (try_evade_helper p) ||
  (generate_moves_walk p bb_target DRAGON).any (try_evade_helper p) ||
  (generate_moves_drop p (bb_target.band bb_drop_target)).any (try_evade_helper p)

/-- `position_is_checkmated_impl`. -/
def position_is_checkmated_impl (p : Position) (bb_drop_target : Bitboard) : Bool :=
  ¬ (evade_by_king p || evade_by_nonking p bb_drop_target)

/-- `position_is_checkmated`. -/
def position_is_checkmated (p : Position) : Bool :=
  position_is_checkmated_impl p p.bb_blank

/-- `position_is_checkmated_naitou` — drops restricted to the HUM king's
8-neighborhood. -/
def position_is_checkmated_naitou (p : Position) : Bool :=
  position_is_checkmated_impl p
    (p.bb_blank.band (bbs.king_effect (p.king_square HUM)))

/-- `naitou_com_drop_src_value`. -/
def naitou_com_drop_src_value (pk : Nat) : Nat :=
  if pk = PAWN then 201
  else if pk = LANCE then 202
  else if pk = KNIGHT then 203
  else if pk = SILVER then 204
  else if pk = GOLD then 205
  else if pk = BISHOP then 206
  else 207

/-! ## Opening book (`book.rs`) -/

/-- Square literal helper: `SQn f r` is the square on (1-based) file `f`,
rank `r` (the source's `SQ_fr` constants). -/
def SQn (f r : Nat) : Square :=
  ⟨(9 * (f - 1) + (r - 1)) % 81, Nat.mod_lt _ (by norm_num)⟩

inductive Formation where
  | Nakabisha
  | Sikenbisha
  | Kakugawari
  | Sujichigai
  | HumHishaochi
  | HumNimaiochi
  | ComHishaochi
  | ComNimaiochi
  | Nothing
deriving DecidableEq, Repr

inductive BookBranchEntry where
  /-- `BookBranchEntry::new_move`: if HUM piece `pk` sits on `sq`, answer
  with the walk `src → dst`. -/
  | mv (sq : Square) (pk : Nat) (src dst : Square)
  /-- `BookBranchEntry::new_change_formation`: if HUM piece `pk` sits on
  `sq` and `progress_ply ≤ ply`, switch formation. -/
  | change (sq : Square) (pk : Nat) (formation : Formation) (ply : Nat)
deriving DecidableEq, Repr

structure BookMovesEntry where
  src : Square
  dst : Square
deriving DecidableEq, Repr

def BOOK_BRANCH_NAKABISHA : List BookBranchEntry :=
  [BookBranchEntry.change (SQn 2 2) BISHOP Formation.Kakugawari 5,
   BookBranchEntry.change (SQn 2 2) HORSE Formation.Kakugawari 5,
   BookBranchEntry.mv (SQn 5 5) BISHOP (SQn 5 3) (SQn 5 4),
   BookBranchEntry.mv (SQn 4 6) BISHOP (SQn 4 4) (SQn 4 5),
   BookBranchEntry.mv (SQn 4 6) SILVER (SQn 4 4) (SQn 4 5),
   BookBranchEntry.mv (SQn 2 6) SILVER (SQn 4 1) (SQn 3 2),
   BookBranchEntry.mv (SQn 4 6) PAWN (SQn 2 2) (SQn 3 3),
   BookBranchEntry.mv (SQn 9 6) PAWN (SQn 9 3) (SQn 9 4),
   BookBranchEntry.mv (SQn 2 5) PAWN (SQn 2 2) (SQn 3 3),
   BookBranchEntry.mv (SQn 3 5) SILVER (SQn 4 4) (SQn 4 5)]

def BOOK_BRANCH_SIKENBISHA : List BookBranchEntry :=
  [BookBranchEntry.change (SQn 2 2) BISHOP Formation.Kakugawari 5,
   BookBranchEntry.change (SQn 2 2) HORSE Formation.Kakugawari 5,
   BookBranchEntry.mv (SQn 5 5) BISHOP (SQn 5 3) (SQn 5 4),
   BookBranchEntry.mv (SQn 4 6) BISHOP (SQn 4 4) (SQn 4 5),
   BookBranchEntry.mv (SQn 4 6) SILVER (SQn 4 4) (SQn 4 5),
   BookBranchEntry.mv (SQn 2 6) SILVER (SQn 4 2) (SQn 3 2),
   BookBranchEntry.mv (SQn 4 6) PAWN (SQn 2 2) (SQn 3 3),
   BookBranchEntry.mv (SQn 9 6) PAWN (SQn 9 3) (SQn 9 4),
   BookBranchEntry.mv (SQn 2 5) PAWN (SQn 2 2) (SQn 3 3),
   BookBranchEntry.mv (SQn 3 5) SILVER (SQn 4 4) (SQn 4 5)]

def BOOK_BRANCH_KAKUGAWARI : List BookBranchEntry :=
  [BookBranchEntry.change (SQn 4 5) BISHOP Formation.Sujichigai 5,
   BookBranchEntry.change (SQn 5 6) BISHOP Formation.Sujichigai 5,
   BookBranchEntry.mv (SQn 9 6) PAWN (SQn 9 3) (SQn 9 4)]

def BOOK_BRANCH_SUJICHIGAI : List BookBranchEntry :=
  [BookBranchEntry.mv (SQn 9 6) PAWN (SQn 9 3) (SQn 9 4),
   BookBranchEntry.mv (SQn 1 6) PAWN (SQn 1 3) (SQn 1 4)]

def BOOK_BRANCH_HUM_HISHAOCHI : List BookBranchEntry :=
  [BookBranchEntry.mv (SQn 1 6) PAWN (SQn 1 3) (SQn 1 4),
   BookBranchEntry.mv (SQn 9 6) PAWN (SQn 9 3) (SQn 9 4),
   BookBranchEntry.mv (SQn 2 2) BISHOP (SQn 3 1) (SQn 2 2),
   BookBranchEntry.mv (SQn 2 2) HORSE (SQn 3 1) (SQn 2 2)]

def BOOK_BRANCH_HUM_NIMAIOCHI : List BookBranchEntry :=
  [BookBranchEntry.mv (SQn 5 6) PAWN (SQn 5 3) (SQn 5 4)]

def BOOK_BRANCH_COM_HISHAOCHI : List BookBranchEntry :=
  [BookBranchEntry.mv (SQn 2 5) PAWN (SQn 2 2) (SQn 3 3),
   BookBranchEntry.mv (SQn 9 6) PAWN (SQn 9 3) (SQn 9 4),
   BookBranchEntry.mv (SQn 1 6) PAWN (SQn 1 3) (SQn 1 4)]

def BOOK_BRANCH_COM_NIMAIOCHI : List BookBranchEntry :=
  [BookBranchEntry.mv (SQn 1 6) PAWN (SQn 1 3) (SQn 1 4),
   BookBranchEntry.mv (SQn 9 6) PAWN (SQn 9 3) (SQn 9 4),
   BookBranchEntry.mv (SQn 5 6) PAWN (SQn 5 3) (SQn 5 4),
   BookBranchEntry.mv (SQn 3 5) PAWN (SQn 3 1) (SQn 2 2)]

def BOOK_MOVES_NAKABISHA : List BookMovesEntry :=
  [⟨SQn 3 3, SQn 3 4⟩, ⟨SQn 4 3, SQn 4 4⟩, ⟨SQn 3 1, SQn 4 2⟩, ⟨SQn 8 2, SQn 5 2⟩,
   ⟨SQn 4 2, SQn 4 3⟩, ⟨SQn 5 1, SQn 6 2⟩, ⟨SQn 6 2, SQn 7 2⟩, ⟨SQn 7 1, SQn 6 2⟩,
   ⟨SQn 2 2, SQn 3 3⟩, ⟨SQn 5 3, SQn 5 4⟩, ⟨SQn 6 3, SQn 6 4⟩, ⟨SQn 6 2, SQn 6 3⟩,
   ⟨SQn 6 1, SQn 6 2⟩, ⟨SQn 4 1, SQn 4 2⟩, ⟨SQn 4 2, SQn 5 3⟩, ⟨SQn 5 2, SQn 2 2⟩,
   ⟨SQn 2 3, SQn 2 4⟩, ⟨SQn 2 4, SQn 2 5⟩, ⟨SQn 4 4, SQn 4 5⟩]

def BOOK_MOVES_SIKENBISHA : List BookMovesEntry :=
  [⟨SQn 3 3, SQn 3 4⟩, ⟨SQn 4 3, SQn 4 4⟩, ⟨SQn 3 1, SQn 3 2⟩, ⟨SQn 8 2, SQn 4 2⟩,
   ⟨SQn 3 2, SQn 4 3⟩, ⟨SQn 5 1, SQn 6 2⟩, ⟨SQn 6 2, SQn 7 2⟩, ⟨SQn 7 2, SQn 8 2⟩,
   ⟨SQn 7 1, SQn 7 2⟩, ⟨SQn 4 1, SQn 5 2⟩, ⟨SQn 2 2, SQn 3 3⟩, ⟨SQn 6 3, SQn 6 4⟩,
   ⟨SQn 5 2, SQn 6 3⟩, ⟨SQn 7 3, SQn 7 4⟩, ⟨SQn 4 2, SQn 4 1⟩, ⟨SQn 9 3, SQn 9 4⟩,
   ⟨SQn 4 4, SQn 4 5⟩]

def BOOK_MOVES_KAKUGAWARI : List BookMovesEntry :=
  [⟨SQn 3 3, SQn 3 4⟩, ⟨SQn 3 1, SQn 2 2⟩, ⟨SQn 2 2, SQn 3 3⟩, ⟨SQn 7 1, SQn 6 2⟩,
   ⟨SQn 8 3, SQn 8 4⟩, ⟨SQn 4 1, SQn 3 2⟩, ⟨SQn 8 4, SQn 8 5⟩, ⟨SQn 6 1, SQn 5 2⟩,
   ⟨SQn 5 1, SQn 4 1⟩, ⟨SQn 6 3, SQn 6 4⟩, ⟨SQn 6 2, SQn 6 3⟩, ⟨SQn 7 3, SQn 7 4⟩,
   ⟨SQn 4 1, SQn 3 1⟩, ⟨SQn 3 1, SQn 2 2⟩, ⟨SQn 4 3, SQn 4 4⟩, ⟨SQn 5 2, SQn 4 3⟩,
   ⟨SQn 9 3, SQn 9 4⟩, ⟨SQn 8 1, SQn 7 3⟩, ⟨SQn 6 4, SQn 6 5⟩, ⟨SQn 6 3, SQn 5 4⟩]

def BOOK_MOVES_SUJICHIGAI : List BookMovesEntry :=
  [⟨SQn 3 3, SQn 3 4⟩, ⟨SQn 3 1, SQn 2 2⟩, ⟨SQn 6 1, SQn 5 2⟩, ⟨SQn 4 1, SQn 3 2⟩,
   ⟨SQn 2 2, SQn 3 3⟩, ⟨SQn 7 1, SQn 6 2⟩, ⟨SQn 8 3, SQn 8 4⟩, ⟨SQn 8 4, SQn 8 5⟩,
   ⟨SQn 5 1, SQn 4 1⟩, ⟨SQn 6 3, SQn 6 4⟩, ⟨SQn 6 2, SQn 6 3⟩, ⟨SQn 5 3, SQn 5 4⟩,
   ⟨SQn 7 3, SQn 7 4⟩, ⟨SQn 8 1, SQn 7 3⟩, ⟨SQn 9 3, SQn 9 4⟩, ⟨SQn 1 3, SQn 1 4⟩,
   ⟨SQn 3 3, SQn 4 4⟩, ⟨SQn 6 4, SQn 6 5⟩]

def BOOK_MOVES_HUM_HISHAOCHI : List BookMovesEntry :=
  [⟨SQn 3 3, SQn 3 4⟩, ⟨SQn 8 3, SQn 8 4⟩, ⟨SQn 8 4, SQn 8 5⟩, ⟨SQn 4 1, SQn 3 2⟩,
   ⟨SQn 7 1, SQn 6 2⟩, ⟨SQn 6 1, SQn 5 2⟩, ⟨SQn 5 1, SQn 4 1⟩, ⟨SQn 5 3, SQn 5 4⟩,
   ⟨SQn 7 3, SQn 7 4⟩, ⟨SQn 3 1, SQn 4 2⟩, ⟨SQn 6 3, SQn 6 4⟩, ⟨SQn 6 2, SQn 6 3⟩,
   ⟨SQn 8 1, SQn 7 3⟩, ⟨SQn 9 3, SQn 9 4⟩, ⟨SQn 1 3, SQn 1 4⟩, ⟨SQn 2 2, SQn 3 3⟩,
   ⟨SQn 6 4, SQn 6 5⟩]

def BOOK_MOVES_HUM_NIMAIOCHI : List BookMovesEntry :=
  [⟨SQn 3 3, SQn 3 4⟩, ⟨SQn 6 3, SQn 6 4⟩, ⟨SQn 6 4, SQn 6 5⟩, ⟨SQn 8 2, SQn 6 2⟩,
   ⟨SQn 7 3, SQn 7 4⟩, ⟨SQn 7 4, SQn 7 5⟩, ⟨SQn 7 1, SQn 7 2⟩, ⟨SQn 7 2, SQn 7 3⟩,
   ⟨SQn 4 1, SQn 3 2⟩, ⟨SQn 6 1, SQn 5 2⟩, ⟨SQn 5 1, SQn 4 1⟩, ⟨SQn 3 1, SQn 4 2⟩,
   ⟨SQn 5 3, SQn 5 4⟩, ⟨SQn 7 3, SQn 7 4⟩, ⟨SQn 8 1, SQn 7 3⟩, ⟨SQn 9 3, SQn 9 4⟩,
   ⟨SQn 1 3, SQn 1 4⟩, ⟨SQn 6 2, SQn 6 1⟩, ⟨SQn 7 5, SQn 7 6⟩]

def BOOK_MOVES_COM_HISHAOCHI : List BookMovesEntry :=
  [⟨SQn 3 3, SQn 3 4⟩, ⟨SQn 4 3, SQn 4 4⟩, ⟨SQn 4 1, SQn 3 2⟩, ⟨SQn 3 1, SQn 4 2⟩,
   ⟨SQn 4 2, SQn 4 3⟩, ⟨SQn 5 1, SQn 6 2⟩, ⟨SQn 6 2, SQn 7 2⟩, ⟨SQn 7 1, SQn 6 2⟩,
   ⟨SQn 5 3, SQn 5 4⟩, ⟨SQn 1 3, SQn 1 4⟩, ⟨SQn 9 3, SQn 9 4⟩, ⟨SQn 6 3, SQn 6 4⟩,
   ⟨SQn 6 2, SQn 6 3⟩, ⟨SQn 6 1, SQn 6 2⟩, ⟨SQn 7 3, SQn 7 4⟩, ⟨SQn 2 2, SQn 3 3⟩]

def BOOK_MOVES_COM_NIMAIOCHI : List BookMovesEntry :=
  [⟨SQn 4 1, SQn 3 2⟩, ⟨SQn 7 1, SQn 6 2⟩, ⟨SQn 5 3, SQn 5 4⟩, ⟨SQn 6 2, SQn 5 3⟩,
   ⟨SQn 6 1, SQn 6 2⟩, ⟨SQn 6 3, SQn 6 4⟩, ⟨SQn 6 2, SQn 6 3⟩, ⟨SQn 7 3, SQn 7 4⟩,
   ⟨SQn 5 1, SQn 6 2⟩, ⟨SQn 1 3, SQn 1 4⟩, ⟨SQn 9 3, SQn 9 4⟩, ⟨SQn 8 1, SQn 7 3⟩,
   ⟨SQn 3 1, SQn 4 2⟩, ⟨SQn 6 4, SQn 6 5⟩]

/-- `Formation::book_branch` (meaningful for formations other than
`Nothing`). -/
def Formation.book_branch : Formation → List BookBranchEntry
  | Formation.Nakabisha => BOOK_BRANCH_NAKABISHA
  | Formation.Sikenbisha => BOOK_BRANCH_SIKENBISHA
  | Formation.Kakugawari => BOOK_BRANCH_KAKUGAWARI
  | Formation.Sujichigai => BOOK_BRANCH_SUJICHIGAI
  | Formation.HumHishaochi => BOOK_BRANCH_HUM_HISHAOCHI
  | Formation.HumNimaiochi => BOOK_BRANCH_HUM_NIMAIOCHI
  | Formation.ComHishaochi => BOOK_BRANCH_COM_HISHAOCHI
  | Formation.ComNimaiochi => BOOK_BRANCH_COM_NIMAIOCHI
  | Formation.Nothing => []

/-- `Formation::book_moves` (meaningful for formations other than
`Nothing`). -/
def Formation.book_moves : Formation → List BookMovesEntry
  | Formation.Nakabisha => BOOK_MOVES_NAKABISHA
  | Formation.Sikenbisha => BOOK_MOVES_SIKENBISHA
  | Formation.Kakugawari => BOOK_MOVES_KAKUGAWARI
  | Formation.Sujichigai => BOOK_MOVES_SUJICHIGAI
  | Formation.HumHishaochi => BOOK_MOVES_HUM_HISHAOCHI
  | Formation.HumNimaiochi => BOOK_MOVES_HUM_NIMAIOCHI
  | Formation.ComHishaochi => BOOK_MOVES_COM_HISHAOCHI
  | Formation.ComNimaiochi => BOOK_MOVES_COM_NIMAIOCHI
  | Formation.Nothing => []

structure BookState where
  formation : Formation
  mask_unused_branch : Nat
  mask_unused_moves : Nat
deriving DecidableEq, Repr

/-- `BookState::change_formation`. -/
def BookState.change_formation (st : BookState) (f : Formation) : BookState :=
  { st with
    formation := f
    mask_unused_branch := (1 <<< f.book_branch.length) - 1
    mask_unused_moves := (1 <<< f.book_moves.length) - 1 }

/-- `BookState::new`. -/
def BookState.new (f : Formation) : BookState :=
  BookState.change_formation ⟨Formation.Nothing, 0, 0⟩ f

/-- `iter_ones_u32` — the set bits of a `u32`, ascending. -/
def iterOnes32 (x : Nat) : List Nat :=
  (List.range 32).filter (fun i => x.testBit i)

/-- `lsb_u32` (meaningful when `x` has a set bit below 32). -/
def lsb32 (x : Nat) : Nat :=
  ((List.range 32).find? (fun i => x.testBit i)).getD 0

/-- Bitwise complement on `u32`. -/
def not32 (x : Nat) : Nat := x ^^^ 0xFFFFFFFF

/-- Result of one scan of the unused branch entries: the first match is
either an answering move (with its entry index) or a formation switch; no
match falls through to the move list.  `none` models the out-of-bounds
table access the source would panic on. -/
inductive BranchScanResult where
  | mv (i : Nat) (m : Move)
  | switch (f : Formation)
  | noneMatched
deriving DecidableEq, Repr

/-- The `for i in iter_ones_u32(mask)` branch scan of `BookState::next_move`. -/
def branchScanGo (tbl : List BookBranchEntry) (board : Board) (ply : Nat) :
    List Nat → Option BranchScanResult
  | [] => some BranchScanResult.noneMatched
  | i :: rest =>
    match tbl.get? i with
    | none => none
    | some (BookBranchEntry.mv sq pk src dst) =>
      if board sq = pcNew HUM pk then
        some (BranchScanResult.mv i (Move.walk src dst false))
      else branchScanGo tbl board ply rest
    | some (BookBranchEntry.change sq pk f' plyLim) =>
      if board sq = pcNew HUM pk ∧ ply ≤ plyLim then
        some (BranchScanResult.switch f')
      else branchScanGo tbl board ply rest

/-- Which entry `next_move` picked. -/
inductive BookPick where
  | branch (i : Nat)
  | moves (i : Nat)
deriving DecidableEq, Repr

/-- The outcome of `BookState::next_move`, with the book state as it stood
when the final scan ran (`preState`), the picked entry, and the resulting
state.  `pick = none` means the book was exhausted. -/
structure NextMoveOutcome where
  preState : BookState
  pick : Option (BookPick × Move)
  post : BookState
deriving DecidableEq, Repr

/-- `BookState::next_move` with the picked entry exposed.  The outer
recursion retries after a formation switch (`continue 'book_branch`); in
the shipped tables a switch chain has length at most 2, so `fuel = 3`
always suffices.  `none` models fuel exhaustion or an out-of-bounds table
access. -/
def BookState.next_move_aux (board : Board) (progress_ply : Nat) :
    Nat → BookState → Option NextMoveOutcome
  | 0, _ => none
  | fuel + 1, st =>
    match branchScanGo st.formation.book_branch board progress_ply
        (iterOnes32 st.mask_unused_branch) with
    | none => none
    | some (BranchScanResult.switch f') =>
      BookState.next_move_aux board progress_ply fuel (st.change_formation f')
    | some (BranchScanResult.mv i m) =>
      let st' :=
        if progress_ply ≠ 0 then
          { st with mask_unused_branch := st.mask_unused_branch &&& not32 (1 <<< i) }
        else st
      some ⟨st, some (BookPick.branch i, m), st'⟩
    | some BranchScanResult.noneMatched =>
      if st.mask_unused_moves ≠ 0 then
        let i := lsb32 st.mask_unused_moves
        match st.formation.book_moves.get? i with
        | none => none
        | some e =>
          let st' :=
            if progress_ply ≠ 0 then
              { st with mask_unused_moves := st.mask_unused_moves &&& not32 (1 <<< i) }
            else st
          some ⟨st, some (BookPick.moves i, Move.walk e.src e.dst false), st'⟩
      else
        some ⟨st, none, { st with formation := Formation.Nothing }⟩

/-- `BookState::next_move` (`fuel = 3`): `some (some mv, st')` is a book
move, `some (none, st')` means the book is exhausted, `none` models a
panic/diverging state. -/
def BookState.next_move (st : BookState) (board : Board) (progress_ply : Nat) :
    Option (Option Move × BookState) :=
  (BookState.next_move_aux board progress_ply 3 st).map
    (fun o => (o.pick.map Prod.snd, o.post))

/-! ## Engine (`engine.rs`) -/

/-- Wrapping `u8` addition (`wrapping_add_assign`) on values kept below 256. -/
def w8add (x y : Nat) : Nat := (x + y) % 256

/-- Wrapping `u8` subtraction (`wrapping_sub_assign`) on a minuend kept
below 256. -/
def w8sub (x y : Nat) : Nat := (x + 256 - y % 256) % 256

structure EngineUndoInfo where
  umv_hum : UndoableMove
  progress_ply : Nat
  progress_level : Nat
  progress_level_sub : Nat
  book_state : BookState
  naitou_best_src_value : Nat
deriving DecidableEq, Repr

inductive EngineResponseRaw where
  | move (best_mv : Move) (quiet force_skip_book hum_is_checkmated : Bool)
  | humWin
  | humSuicide
deriving DecidableEq, Repr

structure RootEvaluation where
  adv_price : Nat
  disadv_price : Nat
  power_hum : Nat
  power_com : Nat
  rbp_com : Nat
  king_sq : SidePair Square
deriving DecidableEq, Repr

structure LeafEvaluation where
  capture_price : Nat
  adv_price : Nat
  adv_sq : Option Square
  disadv_price : Nat
  disadv_sq : Option Square
  score_posi : Nat
  score_nega : Nat
  hum_king_threat_around25 : Nat
  com_king_safety_around25 : Nat
  com_king_threat_around25 : Nat
  com_king_threat_around8 : Nat
  com_king_choke_count_around8 : Nat
  src_to_com_king : Nat
  dst_to_hum_king : Nat
  hum_hanging : Bool
  com_promo_count : Nat
  com_loose_count : Nat
  hum_is_checkmated : Bool
  is_suicide : Bool
deriving DecidableEq, Repr

/-- `LeafEvaluation::new`. -/
def LeafEvaluation.new : LeafEvaluation :=
  ⟨0, 0, none, 0, none, 0, 0, 0, 0, 0, 0, 0, 0, 0, false, 0, 0, false, false⟩

/-- `LeafEvaluation::worst`. -/
def LeafEvaluation.worst : LeafEvaluation :=
  ⟨0, 0, none, 99, none, 0, 99, 0, 0, 99, 99, 99, 0, 99, true, 0, 99, false, false⟩

structure Engine where
  pos : Position
  progress_ply : Nat
  progress_level : Nat
  progress_level_sub : Nat
  book_state : BookState
  naitou_best_src_value : Nat
deriving DecidableEq

/-- `Engine::iter_advantage_squares` (a method reading `self.pos` and
`self.progress_level`, taken here as explicit arguments), materialised as
the list it yields. -/
def iter_advantage_squares (p : Position) (progress_level : Nat) :
    List (Square × Nat) :=
  naitou_squares.filterMap (fun sq =>
    let pc := p.board sq
    if pc = NO_PIECE ∨ pcSide pc ≠ HUM then none
    else
      let pk := pcKind pc
      let eff_com := p.effect_count COM sq
      if eff_com = 0 then none
      else
        let eff_hum := p.effect_count HUM sq
        if eff_hum = 0 then some (sq, pk)
        else
          let atk_com := naitou_attacker p COM sq
          let price_pc_hum := naitou_piece_price_b pk
          let price_atk_com := naitou_piece_price_b atk_com
          if price_atk_com < price_pc_hum ∨
              (price_atk_com = price_pc_hum ∧ progress_level ≠ 0) then
            some (sq, pk)
          else none)

/-- One square of `Engine::iter_disadvantage_squares`: the optional yielded
item and the updated exchange flag. -/
def disadvStep (p : Position) (sq : Square) (exchange : Bool) :
    Option (Square × Nat × Bool) × Bool :=
  let pc := p.board sq
  if pc = NO_PIECE ∨ pcSide pc ≠ COM then (none, exchange)
  else
    let pk := pcKind pc
    let eff_hum := p.effect_count HUM sq
    if eff_hum = 0 then (none, exchange)
    else if pk = KING then (some (sq, pk, exchange), exchange)
    else
      let eff_com := p.effect_count COM sq
      if eff_com = 0 then (some (sq, pk, exchange), exchange)
      else
        let atk_hum := naitou_attacker p HUM sq
        let atk_com := naitou_attacker p COM sq
        let price_pc_com := naitou_piece_price_d pk
        let price_atk_hum := naitou_piece_price_c atk_hum
        let price_atk_com := naitou_piece_price_d atk_com
        if eff_com < eff_hum then
          if price_atk_hum ≤ price_pc_com + price_atk_com then
            (some (sq, pk, exchange), exchange)
          else (none, exchange)
        else
          if price_atk_hum < price_pc_com then (some (sq, pk, true), true)
          else (none, exchange)

/-- `Engine::iter_disadvantage_squares` (reads only `self.pos`),
materialised as the list it yields; the exchange flag is threaded through
the squares in scan order. -/
def iter_disadvantage_squares (p : Position) : List (Square × Nat × Bool) :=
  (naitou_squares.foldl
    (fun (acc : List (Square × Nat × Bool) × Bool) sq =>
      let r := disadvStep p sq acc.2
      (acc.1 ++ r.1.toList, r.2))
    ([], false)).1

/-- The promoted-piece bitboard `PRO_PAWN | PRO_LANCE | PRO_KNIGHT |
PRO_SILVER | HORSE | DRAGON` used by `evaluate_root` and `evaluate_leaf`. -/
def bbPromos (p : Position) : Bitboard :=
  (((((p.bb_piece_kind PRO_PAWN).bor (p.bb_piece_kind PRO_LANCE)).bor
    (p.bb_piece_kind PRO_KNIGHT)).bor (p.bb_piece_kind PRO_SILVER)).bor
    (p.bb_piece_kind HORSE)).bor (p.bb_piece_kind DRAGON)

/-- The `disadv_price` accumulation shared by `evaluate_root` and
`evaluate_book_move`: `chmax` with price table D, minus one on each
exchange-flagged square. -/
def disadvPriceOf (items : List (Square × Nat × Bool)) : Nat :=
  items.foldl
    (fun d x =>
      let d := max d (naitou_piece_price_d x.2.1)
      if x.2.2 then d - 1 else d) 0

/-- `Engine::evaluate_root`. -/
def evaluate_root (e : Engine) : RootEvaluation :=
  let adv_price := ((iter_advantage_squares e.pos e.progress_level).map
    (fun x => naitou_piece_price_b x.2)).foldl max 0
  let disadv_price := disadvPriceOf (iter_disadvantage_squares e.pos)
  let bb_promo := bbPromos e.pos
  let hum_promo_count := (bb_promo.band (e.pos.bb_occupied_side HUM)).count_ones
  let com_promo_count := (bb_promo.band (e.pos.bb_occupied_side COM)).count_ones
  let hand_hum := e.pos.hand HUM
  let hand_com := e.pos.hand COM
  let pf := e.progress_ply / 11
  let ply_factor := if pf ≥ 7 then 2 * pf else pf
  let power_hum := (8 * (hum_promo_count + hand_hum (hndF ROOK) + hand_hum (hndF BISHOP))
    + 4 * (hand_hum (hndF GOLD) + hand_hum (hndF SILVER))
    + 2 * (hand_hum (hndF KNIGHT) + hand_hum (hndF LANCE))
    + hand_hum (hndF PAWN) + ply_factor) % 256
  let rbp_com := (com_promo_count + hand_com (hndF ROOK) + hand_com (hndF BISHOP)) % 256
  let power_com := (8 * rbp_com
    + 4 * (hand_com (hndF GOLD) + hand_com (hndF SILVER))
    + 2 * (hand_com (hndF KNIGHT) + hand_com (hndF LANCE))
    + hand_com (hndF PAWN) + ply_factor) % 256
  { adv_price := adv_price
    disadv_price := disadv_price
    power_hum := power_hum
    power_com := power_com
    rbp_com := rbp_com
    king_sq := ⟨e.pos.king_square HUM, e.pos.king_square COM⟩ }

/-- `Engine::evaluate_leaf` (called with `self.pos` holding the position
after the candidate move).  Returns `none` when the candidate is rejected
(pawn-drop mate, or a sacrifice that neither answers a check nor mates). -/
def evaluate_leaf (e : Engine) (root_eval : RootEvaluation) (umv : UndoableMove) :
    Option LeafEvaluation :=
  let p := e.pos
  let hum_king_sq := root_eval.king_sq.get HUM
  let com_king_sq := root_eval.king_sq.get COM
  let capture_price :=
    if umv.piece_captured = NO_PIECE then 0
    else naitou_piece_price_a (pcKind umv.piece_captured)
  let adv := (iter_advantage_squares p e.progress_level).foldl
    (fun (a : Nat × Nat × Option Square) x =>
      let price := naitou_piece_price_b x.2
      let posi := w8add a.1 price
      if a.2.1 < price then (posi, price, some x.1) else (posi, a.2.1, a.2.2))
    (0, 0, none)
  let score_posi := adv.1
  let adv_price := adv.2.1
  let adv_sq := adv.2.2
  let dis := (iter_disadvantage_squares p).foldl
    (fun (a : Nat × Nat × Option Square × Bool) x =>
      let sacrifice := a.2.2.2 ∨ (umv.dst = x.1 ∧ capture_price = 0)
      let price := naitou_piece_price_d x.2.1
      let nega := w8add a.1 price
      let dp := if a.2.1 < price then (price, some x.1) else (a.2.1, a.2.2.1)
      if x.2.2 then (w8sub nega 1, w8sub dp.1 1, dp.2, sacrifice)
      else (nega, dp.1, dp.2, sacrifice))
    (0, 0, none, false)
  let score_nega := dis.1
  let disadv_price := dis.2.1
  let disadv_sq := dis.2.2.1
  let sacrifice := dis.2.2.2
  let hum_is_checkmated :=
    decide (disadv_price < 30 ∧ 30 ≤ adv_price ∧ umv.dst.distance hum_king_sq < 3) &&
      position_is_checkmated_naitou p
  if hum_is_checkmated ∧ umv.is_drop ∧ umv.dropped_piece_kind = PAWN then none
  else
    let adv_price := if hum_is_checkmated then 60 else adv_price
    let capture_price := if hum_is_checkmated then 60 else capture_price
    let disadv_price := if hum_is_checkmated then 0 else disadv_price
    if sacrifice ∧ root_eval.disadv_price < 30 ∧ ¬hum_is_checkmated then none
    else
      let hum_king_threat_around25 := (bbs.around25 hum_king_sq).squaresList.foldl
        (fun acc sq => w8add acc (p.effect_count COM sq)) 0
      let com_king_safety_around25 := (bbs.around25 com_king_sq).squaresList.foldl
        (fun acc sq => w8add acc (p.effect_count COM sq)) 0
      let com_king_threat_around25 := (bbs.around25 com_king_sq).squaresList.foldl
        (fun acc sq => w8add acc (p.effect_count HUM sq)) 0
      let ck8 := (bbs.king_effect com_king_sq).squaresList.foldl
        (fun (a : Nat × Nat) sq =>
          let eff_hum := p.effect_count HUM sq
          let eff_com := p.effect_count COM sq
          (w8add a.1 eff_hum, if eff_com ≤ eff_hum then a.2 + 1 else a.2)) (0, 0)
      let src_to_com_king :=
        if umv.is_drop then umv.dst.distance com_king_sq
        else umv.src.distance com_king_sq
      let dst_to_hum_king := umv.dst.distance hum_king_sq
      let bb_pawn_lance := ((bbs.forward_rows HUM 4).band (p.bb_occupied_side HUM)).band
        ((p.bb_piece_kind PAWN).bor (p.bb_piece_kind LANCE))
      let hum_hanging := (bb_pawn_lance.shr 1).squaresList.any
        (fun sq => p.effect_count COM sq < p.effect_count HUM sq)
      let bb_loose := ((((p.bb_piece_kind PAWN).bor (p.bb_piece_kind LANCE)).bor
        (p.bb_piece_kind KNIGHT)).bor (p.bb_piece_kind KING)).andnot
        (p.bb_occupied_side COM)
      let com_loose_count := bb_loose.squaresList.countP
        (fun sq => p.effect_count COM sq = 0)
      let com_promo_count := ((p.bb_occupied_side COM).band (bbPromos p)).count_ones % 256
      some
        { capture_price := capture_price
          adv_price := adv_price
          adv_sq := adv_sq
          disadv_price := disadv_price
          disadv_sq := disadv_sq
          score_posi := score_posi
          score_nega := score_nega
          hum_king_threat_around25 := hum_king_threat_around25
          com_king_safety_around25 := com_king_safety_around25
          com_king_threat_around25 := com_king_threat_around25
          com_king_threat_around8 := ck8.1
          com_king_choke_count_around8 := ck8.2
          src_to_com_king := src_to_com_king
          dst_to_hum_king := dst_to_hum_king
          hum_hanging := hum_hanging
          com_promo_count := com_promo_count
          com_loose_count := com_loose_count
          hum_is_checkmated := hum_is_checkmated
          is_suicide := p.is_checked COM }

/-- The destination piece kind used throughout `revise_leaf_evaluation`:
the dropped kind for drops, the kind of the arriving piece otherwise. -/
def umvPkDst (umv : UndoableMove) : Nat :=
  if umv.is_drop then umv.dropped_piece_kind else pcKind umv.piece_dst

/-- Revision "capture_by_pawn": favour pawn captures while COM's
king/dragon/horse are safe. -/
def revise_capture_by_pawn (umv : UndoableMove) (le : LeafEvaluation) :
    LeafEvaluation :=
  if le.disadv_price < 20 ∧ 0 < le.capture_price ∧ umvPkDst umv = PAWN then
    { le with score_nega := w8sub le.score_nega 1 }
  else le

/-- Revision "hum_hanging": penalise positions with a HUM hanging
pawn/lance. -/
def revise_hum_hanging (le : LeafEvaluation) : LeafEvaluation :=
  if le.hum_hanging then { le with score_nega := w8add le.score_nega 4 }
  else le

/-- Revision "midgame_attacked_pawn": past the opening, losing a piece far
from COM's king is discounted when `score_nega` is small. -/
def revise_midgame_attacked_pawn (root_eval : RootEvaluation)
    (le : LeafEvaluation) : LeafEvaluation :=
  if (15 ≤ root_eval.power_hum ∨ 15 ≤ root_eval.power_com) ∧ le.score_nega < 3 then
    match le.disadv_sq with
    | some disadv_sq =>
      if 4 ≤ (root_eval.king_sq.get COM).distance disadv_sq then
        { le with score_nega := w8sub le.score_nega le.disadv_price }
      else le
    | none => le
  else le

/-- The endgame revision block (gated on `power_hum >= 25 || power_com >= 25`):
discounts gain/loss squares far from both kings and adjusts
`capture_price` by proximity to the HUM king. -/
def revise_endgame (root_eval : RootEvaluation) (umv : UndoableMove)
    (le : LeafEvaluation) : LeafEvaluation :=
  if 25 ≤ root_eval.power_hum ∨ 25 ≤ root_eval.power_com then
    let hum_king_sq := root_eval.king_sq.get HUM
    let com_king_sq := root_eval.king_sq.get COM
    let dst_to_com_king := umv.dst.distance com_king_sq
    let le :=
      match le.adv_sq with
      | some adv_sq =>
        if 4 ≤ hum_king_sq.distance adv_sq ∧ 3 ≤ com_king_sq.distance adv_sq then
          { le with score_posi := w8sub le.score_posi le.adv_price }
        else le
      | none => le
    let le :=
      match le.disadv_sq with
      | some disadv_sq =>
        if le.disadv_price < 7 ∧ 3 ≤ hum_king_sq.distance disadv_sq ∧
            3 ≤ com_king_sq.distance disadv_sq then
          { le with score_nega := w8sub le.score_nega le.disadv_price }
        else le
      | none => le
    if 0 < le.capture_price then
      if le.dst_to_hum_king ≤ 2 then
        { le with capture_price := w8add le.capture_price 2 }
      else if 4 ≤ le.dst_to_hum_king ∧ 4 ≤ dst_to_com_king then
        { le with capture_price := w8sub le.capture_price 3 }
      else le
    else le
  else le

/-- Revision "useless_check": discourage checks that cannot lead to an
attack, unless the check also forks a piece. -/
def revise_useless_check (root_eval : RootEvaluation) (le : LeafEvaluation) :
    LeafEvaluation :=
  if 30 ≤ le.adv_price ∧ le.hum_king_threat_around25 < 12 ∧
      root_eval.rbp_com < 4 ∧ root_eval.power_com < 35 ∧
      w8sub le.score_posi le.adv_price < 3 then
    { le with score_posi := w8sub le.score_posi le.adv_price }
  else le

/-- Revision "useless_drop": penalise dropping a valuable piece
(`SILVER <= pk_dst && pk_dst <= GOLD`) on COM's own half far from both
kings, except as an interposition against a check. -/
def revise_useless_drop (root_eval : RootEvaluation) (umv : UndoableMove)
    (le : LeafEvaluation) : LeafEvaluation :=
  let dst_to_com_king := umv.dst.distance (root_eval.king_sq.get COM)
  let pk_dst := umvPkDst umv
  if umv.is_drop ∧ (SILVER ≤ pk_dst ∧ pk_dst ≤ GOLD) ∧ umv.dst.row ≤ 4 ∧
      root_eval.disadv_price < 30 ∧ 3 ≤ le.dst_to_hum_king ∧
      3 ≤ dst_to_com_king then
    { le with score_nega := w8add le.score_nega 2 }
  else le

/-- Revision "increase_capture_price". -/
def revise_increase_capture_price (root_eval : RootEvaluation)
    (le : LeafEvaluation) : LeafEvaluation :=
  if 27 ≤ root_eval.power_com then
    if 6 ≤ le.score_posi then
      { le with capture_price := w8add le.capture_price 4 }
    else if 3 ≤ le.score_posi then
      { le with capture_price := w8add le.capture_price 1 }
    else le
  else le

/-- Revision "good/bad_rook_bishop_drop": rook/bishop drops score better
deeper in HUM territory (no penalty for an interposition). -/
def revise_rook_bishop_drop (root_eval : RootEvaluation) (umv : UndoableMove)
    (le : LeafEvaluation) : LeafEvaluation :=
  let pk_dst := umvPkDst umv
  if umv.is_drop ∧ (pk_dst = BISHOP ∨ pk_dst = ROOK) then
    let row := umv.dst.row
    if 7 ≤ row then
      { le with score_posi := w8add le.score_posi 2,
                score_nega := w8sub le.score_nega 2 }
    else if root_eval.disadv_price < 30 then
      let le := { le with score_posi := w8sub le.score_posi 2,
                          score_nega := w8add le.score_nega 2 }
      if row ≤ 3 then { le with score_nega := w8add le.score_nega 2 } else le
    else le
  else le

/-- Revision "capture_by_king": prefer recapturing with another piece. -/
def revise_capture_by_king (umv : UndoableMove) (le : LeafEvaluation) :
    LeafEvaluation :=
  if umvPkDst umv = KING then
    { le with capture_price := w8sub le.capture_price 1,
              score_posi := w8sub le.score_posi 2 }
  else le

/-- Revision "cheap_adv_sq_near_hum_king". -/
def revise_cheap_adv_sq_near_hum_king (root_eval : RootEvaluation)
    (le : LeafEvaluation) : LeafEvaluation :=
  if 31 ≤ root_eval.power_com ∧ le.adv_price < 4 ∧ le.disadv_price = 0 ∧
      7 ≤ le.hum_king_threat_around25 ∧
      naitou_square_distance le.adv_sq (root_eval.king_sq.get COM) ≤ 2 then
    let bonus := (le.hum_king_threat_around25 - 7) / 2
    { le with score_posi := w8add le.score_posi bonus }
  else le

/-- Revision "inhibit_bishop_exchange". -/
def revise_inhibit_bishop_exchange (umv : UndoableMove) (le : LeafEvaluation) :
    LeafEvaluation :=
  if le.adv_price = 16 ∧ umvPkDst umv = BISHOP then
    { le with score_posi := w8sub le.score_posi le.adv_price, adv_price := 0 }
  else le

/-- Revision "keep_rook_bishop_in_emergency". -/
def revise_keep_rook_bishop_in_emergency (root_eval : RootEvaluation)
    (umv : UndoableMove) (le : LeafEvaluation) : LeafEvaluation :=
  let pk_dst := umvPkDst umv
  if 27 ≤ root_eval.power_com ∧
      ¬(umv.is_drop ∧ (pk_dst = BISHOP ∨ pk_dst = ROOK)) then
    let penalty := (4 * le.com_king_choke_count_around8) % 256
    { le with score_posi := w8sub le.score_posi penalty,
              score_nega := w8add le.score_nega penalty }
  else le

/-- Revision "capture_near_hum_king". -/
def revise_capture_near_hum_king (root_eval : RootEvaluation)
    (umv : UndoableMove) (le : LeafEvaluation) : LeafEvaluation :=
  if 8 ≤ le.capture_price ∧
      (H_SILVER ≤ umv.piece_captured ∧ umv.piece_captured ≤ H_KING) ∧
      (30 ≤ le.adv_price ∨
        naitou_square_distance le.adv_sq (root_eval.king_sq.get HUM) < 3) ∧
      30 ≤ root_eval.power_com ∧ 7 ≤ le.hum_king_threat_around25 ∧
      4 ≤ root_eval.rbp_com then
    let le := { le with score_posi := w8add le.score_posi 2 }
    if 8 ≤ le.disadv_price ∧ le.disadv_price < 30 then
      { le with score_nega := 8, disadv_price := 8 }
    else le
  else le

/-- Revision "capture_by_king_in_emergency". -/
def revise_capture_by_king_in_emergency (umv : UndoableMove)
    (le : LeafEvaluation) : LeafEvaluation :=
  if 5 ≤ le.com_king_threat_around8 ∧ umvPkDst umv = KING then
    { le with capture_price := 0 }
  else le

/-- Revision "capturing_check". -/
def revise_capturing_check (root_eval : RootEvaluation) (le : LeafEvaluation) :
    LeafEvaluation :=
  if 35 ≤ root_eval.power_com ∧ 30 ≤ le.adv_price ∧ 2 ≤ le.capture_price then
    { le with score_nega := w8sub le.score_nega 2 }
  else le

/-- Revision "cheap_capture_price". -/
def revise_cheap_capture_price (root_eval : RootEvaluation)
    (le : LeafEvaluation) : LeafEvaluation :=
  if 20 ≤ root_eval.power_com ∧ le.capture_price < 2 then
    if 5 ≤ le.score_posi ∧ le.score_posi ≤ 9 then
      { le with capture_price := w8add le.capture_price 1 }
    else if 10 ≤ le.score_posi ∧ le.score_posi ≤ 19 then
      { le with capture_price := w8add le.capture_price 2 }
    else if 20 ≤ le.score_posi then
      { le with capture_price := w8add le.capture_price 3 }
    else le
  else le

/-- Revision "bad_rook_bishop_drop_2". -/
def revise_bad_rook_bishop_drop_2 (umv : UndoableMove) (le : LeafEvaluation) :
    LeafEvaluation :=
  let pk_dst := umvPkDst umv
  if umv.is_drop ∧ (pk_dst = BISHOP ∨ pk_dst = ROOK) ∧ umv.dst.row ≤ 5 then
    { le with score_posi := w8sub le.score_posi 3,
              score_nega := w8add le.score_nega 3 }
  else le

/-- Revision "promoted_walk": moving a promoted piece towards the HUM king
scores better. -/
def revise_promoted_walk (root_eval : RootEvaluation) (umv : UndoableMove)
    (le : LeafEvaluation) : LeafEvaluation :=
  if ¬umv.is_drop ∧ pkIsPromoted (pcKind umv.piece_src) then
    let hum_king_sq := root_eval.king_sq.get HUM
    let value := w8sub (umv.src.distance hum_king_sq) (umv.dst.distance hum_king_sq)
    { le with score_posi := w8add le.score_posi value }
  else le

/-- Revision "check_with_power". -/
def revise_check_with_power (root_eval : RootEvaluation) (le : LeafEvaluation) :
    LeafEvaluation :=
  if 25 ≤ root_eval.power_com ∧ 30 ≤ le.adv_price then
    { le with score_posi := w8add le.score_posi 4,
              capture_price := w8add le.capture_price 1,
              score_nega := w8sub le.score_nega 2 }
  else le

/-- Revision "good_capturing_check". -/
def revise_good_capturing_check (le : LeafEvaluation) : LeafEvaluation :=
  if 30 ≤ le.adv_price ∧ 8 ≤ le.capture_price then
    { le with score_nega := w8sub le.score_nega 4 }
  else le

/-- `saturate_negative`: a `u8` with bit 7 set is treated as negative and
clamped to 0. -/
def saturate_negative (x : Nat) : Nat := if x &&& 0x80 ≠ 0 then 0 else x

/-- `Engine::revise_leaf_evaluation`: the twenty revision blocks applied in
source order, then `capture_price`, `score_posi`, `score_nega` clamped. -/
def revise_leaf_evaluation (root_eval : RootEvaluation) (umv : UndoableMove)
    (le : LeafEvaluation) : LeafEvaluation :=
  let le := revise_capture_by_pawn umv le
  let le := revise_hum_hanging le
  let le := revise_midgame_attacked_pawn root_eval le
  let le := revise_endgame root_eval umv le
  let le := revise_useless_check root_eval le
  let le := revise_useless_drop root_eval umv le
  let le := revise_increase_capture_price root_eval le
  let le := revise_rook_bishop_drop root_eval umv le
  let le := revise_capture_by_king umv le
  let le := revise_cheap_adv_sq_near_hum_king root_eval le
  let le := revise_inhibit_bishop_exchange umv le
  let le := revise_keep_rook_bishop_in_emergency root_eval umv le
  let le := revise_capture_near_hum_king root_eval umv le
  let le := revise_capture_by_king_in_emergency umv le
  let le := revise_capturing_check root_eval le
  let le := revise_cheap_capture_price root_eval le
  let le := revise_bad_rook_bishop_drop_2 umv le
  let le := revise_promoted_walk root_eval umv le
  let le := revise_check_with_power root_eval le
  let le := revise_good_capturing_check le
  { le with capture_price := saturate_negative le.capture_price,
            score_posi := saturate_negative le.score_posi,
            score_nega := saturate_negative le.score_nega }

/-- The final tie-break chain of `Engine::can_improve_best` (reached only
when all earlier comparisons were exact ties). -/
def canImproveTieBreak (root_eval : RootEvaluation) (best leaf : LeafEvaluation)
    (umv : UndoableMove) (naitou_best_src_value : Nat) : Bool :=
  if best.com_promo_count < leaf.com_promo_count then true
  else if leaf.com_promo_count < best.com_promo_count then false
  else if best.score_posi < leaf.score_posi then true
  else if leaf.score_posi < best.score_posi then false
  else if best.adv_price < leaf.adv_price then true
  else if leaf.adv_price < best.adv_price then false
  else if umv.is_drop then
    if root_eval.disadv_price < 30 then false
    else naitou_com_drop_src_value umv.dropped_piece_kind < naitou_best_src_value
  else
    if best.hum_king_threat_around25 < leaf.hum_king_threat_around25 then true
    else if leaf.hum_king_threat_around25 < best.hum_king_threat_around25 then false
    else if best.com_king_safety_around25 < leaf.com_king_safety_around25 then true
    else if leaf.com_king_safety_around25 < best.com_king_safety_around25 then false
    else if leaf.com_king_threat_around25 < best.com_king_threat_around25 then true
    else if best.com_king_threat_around25 < leaf.com_king_threat_around25 then false
    else if leaf.com_loose_count < best.com_loose_count then true
    else if best.com_loose_count < leaf.com_loose_count then false
    else if 3 ≤ leaf.src_to_com_king then
      if leaf.dst_to_hum_king < best.dst_to_hum_king then true
      else if best.dst_to_hum_king < leaf.dst_to_hum_king then false
      else best.src_to_com_king < leaf.src_to_com_king
    else best.src_to_com_king < leaf.src_to_com_king

/-- `Engine::can_improve_best` (reads `self.naitou_best_src_value`, taken
here as an explicit argument). -/
def can_improve_best (root_eval : RootEvaluation) (best leaf : LeafEvaluation)
    (umv : UndoableMove) (naitou_best_src_value : Nat) : Bool :=
  if 40 ≤ leaf.disadv_price ∧ best.disadv_price < 40 then false
  else if leaf.disadv_price < 40 ∧ 40 ≤ best.disadv_price then true
  else if best.score_nega < leaf.score_nega then
    if leaf.capture_price < best.capture_price then false
    else if best.capture_price < leaf.capture_price then
      leaf.score_nega - best.score_nega ≤ leaf.capture_price - best.capture_price
    else
      if 18 ≤ root_eval.power_com ∧ leaf.capture_price = 0 ∧
          best.score_posi < leaf.score_posi then
        leaf.score_nega - best.score_nega < leaf.score_posi - best.score_posi
      else false
  else if leaf.score_nega < best.score_nega then
    if 30 ≤ best.score_nega ∧ best.score_nega < 80 then true
    else if best.capture_price < leaf.capture_price then true
    else if leaf.capture_price < best.capture_price then
      let dcapture := best.capture_price - leaf.capture_price
      let dnega := best.score_nega - leaf.score_nega
      if dcapture < dnega then true
      else if dnega < dcapture then false
      else canImproveTieBreak root_eval best leaf umv naitou_best_src_value
    else
      if 18 ≤ root_eval.power_com ∧ leaf.capture_price = 0 ∧
          leaf.score_posi < best.score_posi then
        let dposi := best.score_posi - leaf.score_posi
        let dnega := best.score_nega - leaf.score_nega
        if dposi < dnega then true
        else if dnega < dposi then false
        else canImproveTieBreak root_eval best leaf umv naitou_best_src_value
      else true
  else
    if best.capture_price < leaf.capture_price then true
    else if leaf.capture_price < best.capture_price then false
    else canImproveTieBreak root_eval best leaf umv naitou_best_src_value

/-- The loop state of `Engine::think_search`: engine (whose position is
mutated and restored around each candidate), current best move and its
evaluation, and the early-exit flag. -/
structure SearchState where
  e : Engine
  best_mv : Option Move
  best_eval : LeafEvaluation
  done : Bool
deriving DecidableEq

/-- One iteration of the candidate loop of `Engine::think_search`: do the
move, evaluate and revise, maybe update the best move and
`naitou_best_src_value`, undo the move. -/
def searchBodyCore (root_eval : RootEvaluation) (st : SearchState)
    (mv : Move) (r : UndoableMove × Position) :
    Option LeafEvaluation → SearchState
  | none => { st with e := { st.e with pos := r.2.undo_move r.1 } }
  | some le0 =>
    let umv := r.1
    let e1 := { st.e with pos := r.2 }
    let le := revise_leaf_evaluation root_eval umv le0
    let hic := le.hum_is_checkmated
    let improved := hic ∨
      can_improve_best root_eval st.best_eval le umv e1.naitou_best_src_value
    let bm := if improved then some mv else st.best_mv
    let be := if improved then le else st.best_eval
    let nbsv :=
      if improved then
        if umv.is_drop then naitou_com_drop_src_value umv.dropped_piece_kind else 0
      else e1.naitou_best_src_value
    { e := { e1 with pos := r.2.undo_move umv, naitou_best_src_value := nbsv }
      best_mv := bm
      best_eval := be
      done := hic }

def searchBody (root_eval : RootEvaluation) (st : SearchState) (mv : Move) :
    SearchState :=
  let r := st.e.pos.do_move mv
  searchBodyCore root_eval st mv r
    (evaluate_leaf { st.e with pos := r.2 } root_eval r.1)

/-- The candidate loop of `Engine::think_search`, breaking once a mate has
been found. -/
def searchLoop (root_eval : RootEvaluation) :
    List Move → SearchState → SearchState
  | [], st => st
  | mv :: rest, st =>
    let st' := searchBody root_eval st mv
    if st'.done then st' else searchLoop root_eval rest st'

/-- `Engine::think_search`.  `none` models the
`expect("at least 1 move should be accepted")` panic. -/
def think_search (e : Engine) (root_eval : RootEvaluation) :
    Option (EngineResponseRaw × Engine) :=
  if 30 ≤ root_eval.adv_price then some (EngineResponseRaw.humSuicide, e)
  else
    let st := searchLoop root_eval (generate_moves_com e.pos)
      ⟨e, none, LeafEvaluation.worst, false⟩
    if 31 ≤ st.best_eval.disadv_price ∨ st.best_eval.is_suicide then
      some (EngineResponseRaw.humWin, st.e)
    else
      match st.best_mv with
      | none => none
      | some best_mv =>
        let quiet := decide (root_eval.adv_price = 0 ∧ root_eval.disadv_price = 0 ∧
          st.best_eval.capture_price = 0)
        let force_skip_book := decide (st.best_eval.score_posi ≠ st.best_eval.adv_price ∧
          8 ≤ st.best_eval.score_posi)
        some (EngineResponseRaw.move best_mv quiet force_skip_book
          st.best_eval.hum_is_checkmated, st.e)

/-- `Engine::book_move_is_legal`. -/
def book_move_is_legal (p : Position) (mv : Move) : Bool :=
  let pc_dst := p.board mv.dst
  if pc_dst ≠ NO_PIECE ∧ pcSide pc_dst = COM then false
  else
    let pc_src := p.board mv.src
    if pc_src = NO_PIECE ∨ pcSide pc_src ≠ COM then false
    else if ¬(bbs.effect pc_src mv.src p.bb_occupied).test_square mv.dst then false
    else if pc_src = C_KING ∧ p.effect_count HUM mv.dst ≠ 0 then false
    else true

/-- `Engine::evaluate_book_move`: play the book move, compute
`disadv_price` as in `evaluate_root`, undo the move.  Returns the price and
the position after the do/undo round trip. -/
def evaluate_book_move (p : Position) (mv : Move) : Nat × Position :=
  let r := p.do_move mv
  let disadv_price := disadvPriceOf (iter_disadvantage_squares r.2)
  (disadv_price, r.2.undo_move r.1)

/-- `Engine::think_book`: pull book moves until one passes the legality,
effect-superiority and no-loss checks (rejected moves stay consumed).  The
source's unbounded `loop` is fuelled; `none` models fuel exhaustion or a
panic inside `next_move`. -/
def think_book : Nat → Engine → Option Move → Option (Option Move × Engine)
  | 0, _, _ => none
  | fuel + 1, e, mv_hum =>
    match e.book_state.next_move e.pos.board e.progress_ply with
    | none => none
    | some (none, bs) => some (none, { e with book_state := bs })
    | some (some book_mv, bs) =>
      let e := { e with book_state := bs }
      if ¬book_move_is_legal e.pos book_mv then think_book fuel e mv_hum
      else if e.pos.effect_count COM book_mv.dst ≤ e.pos.effect_count HUM book_mv.dst then
        think_book fuel e mv_hum
      else
        let r := evaluate_book_move e.pos book_mv
        let e := { e with pos := r.2 }
        let hum_to_45 : Bool :=
          match mv_hum with | some mv => mv.dst = SQn 4 5 | none => false
        if 0 < r.1 ∧ ¬(e.progress_ply ≤ 6 ∧ hum_to_45 = true) then
          think_book fuel e mv_hum
        else some (some book_mv, e)

/-- Fuel for `think_book`: the book holds at most 30 entries per formation
and at most three formations are visited, so 200 pulls always exhaust it. -/
def THINK_BOOK_FUEL : Nat := 200

/-- The unconditional book zone of `Engine::think`: for an early HUM move
to ２二/４五/５六 at progress level 0, a book answer (if any) preempts the
search result.  `Sum.inl` is an early return, `Sum.inr` falls through with
the updated engine. -/
def thinkBookOverride (e : Engine) (mv_hum : Option Move) :
    Option (Sum (EngineResponseRaw × Engine) Engine) :=
  match mv_hum with
  | some mv =>
    if e.progress_ply ≤ 6 ∧
        (mv.dst = SQn 2 2 ∨ mv.dst = SQn 4 5 ∨ mv.dst = SQn 5 6) ∧
        e.progress_level = 0 then
      match think_book THINK_BOOK_FUEL e (some mv) with
      | none => none
      | some (some book_mv, e') =>
        some (Sum.inl (EngineResponseRaw.move book_mv false false false, e'))
      | some (none, e') => some (Sum.inr { e' with progress_level := 1 })
    else some (Sum.inr e)
  | none => some (Sum.inr e)

/-- The post-search book consultation of `Engine::think`: bump the
sub-progress on non-quiet moves, and at progress level 0 try a book move
for quiet, non-skipped search results. -/
def thinkBookAfterSearch (e : Engine) (mv_hum : Option Move)
    (resp_raw : EngineResponseRaw) : Option (EngineResponseRaw × Engine) :=
  match resp_raw with
  | EngineResponseRaw.move _ quiet force_skip_book _ =>
    let e :=
      if e.progress_level = 0 ∧ quiet = false then
        let sub := e.progress_level_sub + 1
        { e with progress_level_sub := sub,
                 progress_level := if 5 ≤ sub then 1 else e.progress_level }
      else e
    if e.progress_level = 0 ∧ quiet = true ∧ force_skip_book = false then
      match think_book THINK_BOOK_FUEL e mv_hum with
      | none => none
      | some (some book_mv, e') =>
        some (EngineResponseRaw.move book_mv false false false, e')
      | some (none, e') => some (resp_raw, { e' with progress_level := 1 })
    else some (resp_raw, e)
  | _ => some (resp_raw, e)

/-- `Engine::think`: evaluate the root, search, then consult the book.
`none` models a panic/divergence in a subroutine. -/
def think (e : Engine) (mv_hum : Option Move) :
    Option (EngineResponseRaw × Engine) :=
  let root_eval := evaluate_root e
  match think_search e root_eval with
  | none => none
  | some (resp_raw, e) =>
    match thinkBookOverride e mv_hum with
    | none => none
    | some (Sum.inl r) => some r
    | some (Sum.inr e) => thinkBookAfterSearch e mv_hum resp_raw

/-- `Engine::increment_progress_ply`. -/
def increment_progress_ply (e : Engine) : Engine :=
  { e with progress_ply := min (e.progress_ply + 1) 100 }

/-- `Engine::do_move_hum`.  On a suicide move the source undoes the
position and returns an error: here the first component is `none` and the
returned engine is the restored one.  Otherwise the undo info is captured
and the progress counters are updated. -/
def do_move_hum (e : Engine) (mv : Move) : Option EngineUndoInfo × Engine :=
  let r := e.pos.do_move mv
  let umv_hum := r.1
  if r.2.is_checked HUM then
    (none, { e with pos := r.2.undo_move umv_hum })
  else
    let undo_info : EngineUndoInfo :=
      ⟨umv_hum, e.progress_ply, e.progress_level, e.progress_level_sub,
        e.book_state, e.naitou_best_src_value⟩
    let e := increment_progress_ply { e with pos := r.2 }
    let e := if 51 ≤ e.progress_ply then
        { e with progress_level := min (e.progress_level + 1) 2 }
      else e
    let e := if 71 ≤ e.progress_ply then { e with progress_level := 3 } else e
    (some undo_info, e)

/-- `Engine::do_move_com`. -/
def do_move_com (e : Engine) (mv : Move) : UndoableMove × Engine :=
  let r := e.pos.do_move mv
  (r.1, increment_progress_ply { e with pos := r.2 })

inductive EngineResponse where
  | move (umv_com : UndoableMove) (undo_info : EngineUndoInfo)
  | humWin (undo_info : EngineUndoInfo)
  | humSuicide (undo_info : EngineUndoInfo)
  | comWin (umv_com : UndoableMove) (undo_info : EngineUndoInfo)
deriving DecidableEq, Repr

/-- `EngineResponse::move_com`. -/
def EngineResponse.move_com : EngineResponse → Option UndoableMove
  | EngineResponse.move umv_com _ => some umv_com
  | EngineResponse.comWin umv_com _ => some umv_com
  | _ => none

/-- `EngineResponse::undo_info`. -/
def EngineResponse.undo_info : EngineResponse → EngineUndoInfo
  | EngineResponse.move _ ui => ui
  | EngineResponse.humWin ui => ui
  | EngineResponse.humSuicide ui => ui
  | EngineResponse.comWin _ ui => ui

/-- The outcome of `Engine::do_step`: either the `Err("suicide move")`
return (with the engine as the source leaves it) or a response plus the
stepped engine. -/
inductive DoStepResult where
  | suicideErr (e : Engine)
  | ok (resp : EngineResponse) (e : Engine)

/-- `Engine::do_step`.  `none` models a panic/divergence inside `think`. -/
def do_step (e : Engine) (mv_hum : Move) : Option DoStepResult :=
  match do_move_hum e mv_hum with
  | (none, e') => some (DoStepResult.suicideErr e')
  | (some undo_info, e1) =>
    match think e1 (some mv_hum) with
    | none => none
    | some (EngineResponseRaw.move best_mv _ _ hum_is_checkmated, e2) =>
      let r := do_move_com e2 best_mv
      if hum_is_checkmated then
        some (DoStepResult.ok (EngineResponse.comWin r.1 undo_info) r.2)
      else
        some (DoStepResult.ok (EngineResponse.move r.1 undo_info) r.2)
    | some (EngineResponseRaw.humWin, e2) =>
      some (DoStepResult.ok (EngineResponse.humWin undo_info) e2)
    | some (EngineResponseRaw.humSuicide, e2) =>
      some (DoStepResult.ok (EngineResponse.humSuicide undo_info) e2)

/-- `Engine::undo_step`: undo COM's move if the response holds one, then
undo HUM's move and restore every saved counter. -/
def undo_step (e : Engine) (resp : EngineResponse) : Engine :=
  let pos1 :=
    match resp.move_com with
    | some umv_com => e.pos.undo_move umv_com
    | none => e.pos
  let ui := resp.undo_info
  { pos := pos1.undo_move ui.umv_hum
    progress_ply := ui.progress_ply
    progress_level := ui.progress_level
    progress_level_sub := ui.progress_level_sub
    book_state := ui.book_state
    naitou_best_src_value := ui.naitou_best_src_value }

/-! ## Effect-delta calculus

The incremental effect updates of `position.rs` only ever touch the
effect-count boards through 8-bit wrapping adds and the ranged-effect board
through XORs.  To reason about `do_move`/`undo_move` round trips we
factor every update into an `ERDelta` — a pointwise signed count delta
plus a pointwise XOR mask — applied to the position.  The delta of each
update is a function of the board alone, which is what makes the
do/undo cancellation argument work. -/

structure ERDelta where
  de : Side → Square → Int
  dr : Square → Nat

def ERDelta.zero : ERDelta := ⟨fun _ _ => 0, fun _ => 0⟩

def ERDelta.add (a b : ERDelta) : ERDelta :=
  ⟨fun s q => a.de s q + b.de s q, fun q => a.dr q ^^^ b.dr q⟩

def ERDelta.neg (a : ERDelta) : ERDelta :=
  ⟨fun s q => -(a.de s q), a.dr⟩

/-- Apply a delta: wrapping-add the count deltas, XOR the ranged masks. -/
def Position.applyER (p : Position) (δ : ERDelta) : Position :=
  { p with
    effect_counts :=
      ⟨fun q => wadd8 (p.effect_counts.hum q) (δ.de HUM q),
       fun q => wadd8 (p.effect_counts.com q) (δ.de COM q)⟩
    ranged_effects := fun q => p.ranged_effects q ^^^ δ.dr q }

/-- Delta of a single `bumpCount`. -/
def bumpDelta (s : Side) (q : Square) (d : Int) : ERDelta :=
  ⟨fun s' q' => if s' = s ∧ q' = q then d else 0, fun _ => 0⟩

/-- Delta of a single `xorRanged`. -/
def xorDelta (q : Square) (m : Nat) : ERDelta :=
  ⟨fun _ _ => 0, fun q' => if q' = q then m else 0⟩

/-- Delta of `addMelee`. -/
def melDelta (s : Side) (bb : Bitboard) (d : Int) : ERDelta :=
  bb.squaresList.foldl (fun δ q => δ.add (bumpDelta s q d)) ERDelta.zero

/-- Delta of `addShadow`. -/
def shadowDelta (s : Side) (base : Square) (dirs : Nat) (d : Int) : ERDelta :=
  (dirsToList dirs).foldl (fun δ dir =>
    let q := (SqWW.ofSquare base).add (dirDelta dir)
    if q.is_on_board then δ.add (bumpDelta s q.toSquare d) else δ) ERDelta.zero

/-- Delta of `walkRay`, computed from the board alone by the same
recursion. -/
def walkDelta (b : Board) (us them : Side) (e_us e_them : Int) (dspDir : Nat)
    (delta : Delta) : Nat → SqWW → ERDelta
  | 0, _ => ERDelta.zero
  | fuel + 1, cur =>
    let nxt := cur.add delta
    if nxt.is_on_board then
      let dst := nxt.toSquare
      let δ1 := ((bumpDelta us dst e_us).add (bumpDelta them dst e_them)).add
        (xorDelta dst dspDir)
      let pc_dst := b dst
      if pc_dst ≠ NO_PIECE then
        let nxt2 := nxt.add delta
        if nxt2.is_on_board then
          let dst2 := nxt2.toSquare
          let dirs_pc_dst := dirsFromPieceSupported pc_dst
          if pcSide pc_dst = us ∧ ¬ dirsIsDisjoint dirs_pc_dst (dspGet dspDir us) then
            δ1.add (bumpDelta us dst2 e_us)
          else if pcSide pc_dst = them ∧ ¬ dirsIsDisjoint dirs_pc_dst (dspGet dspDir them) then
            δ1.add (bumpDelta them dst2 e_them)
          else δ1
        else δ1
      else δ1.add (walkDelta b us them e_us e_them dspDir delta fuel nxt)
    else ERDelta.zero

/-- Delta of `update_effect_ranged`, computed from the board alone. -/
def uerDelta (b : Board) (us them : Side) (sq : Square)
    (dsp_us dsp_others : Nat) (put : Bool) : ERDelta :=
  let e_sign : Int := if put then 1 else -1
  let dsp := dsp_us ^^^ dsp_others
  (dspPopList 17 dsp).foldl (fun δ pr =>
    let dspDir := pr.2
    let e_us : Int :=
      if dspGet dspDir us = 0 then 0
      else if dsp_us &&& dspDir = 0 then -e_sign else e_sign
    let e_them : Int := if dspGet dspDir them = 0 then 0 else -e_sign
    δ.add (walkDelta b us them e_us e_them dspDir (dirDelta pr.1) 9 (SqWW.ofSquare sq)))
    ERDelta.zero

/-- The precondition under which a move round-trips: the mechanical
well-formedness facts `do_move`/`undo_move` rely on (a pseudo-legal,
non-king-capturing move provides all of them). -/
def DoPre (p : Position) (mv : Move) : Prop :=
  match mv with
  | Move.drop pk dst =>
    p.board dst = NO_PIECE ∧ 0 < p.hands.get p.side_to_move (hndF pk)
  | Move.walk src dst _ =>
    src ≠ dst ∧
    pcKind (p.board dst) ≠ KING ∧
    (pcKind (p.board src) = KING → p.king_sq.get p.side_to_move = src) ∧
    (p.board dst ≠ NO_PIECE → p.side_to_move = HUM → 0 < p.com_nonking_count)

instance (p : Position) (mv : Move) : Decidable (DoPre p mv) := by
  unfold DoPre
  match mv with
  | Move.drop pk dst => exact inferInstance
  | Move.walk src dst promo => exact inferInstance

/-- Every move that can come out of a book table, across all eight
formations; used to state the precondition of the step round trip. -/
def allBookMoves : List Move :=
  let ofBranch := fun (l : List BookBranchEntry) =>
    l.filterMap (fun ent =>
      match ent with
      | BookBranchEntry.mv _ _ src dst => some (Move.walk src dst false)
      | BookBranchEntry.change _ _ _ _ => none)
  let ofMoves := fun (l : List BookMovesEntry) =>
    l.map (fun ent => Move.walk ent.src ent.dst false)
  ofBranch BOOK_BRANCH_NAKABISHA ++ ofBranch BOOK_BRANCH_SIKENBISHA ++
  ofBranch BOOK_BRANCH_KAKUGAWARI ++ ofBranch BOOK_BRANCH_SUJICHIGAI ++
  ofBranch BOOK_BRANCH_HUM_HISHAOCHI ++ ofBranch BOOK_BRANCH_HUM_NIMAIOCHI ++
  ofBranch BOOK_BRANCH_COM_HISHAOCHI ++ ofBranch BOOK_BRANCH_COM_NIMAIOCHI ++
  ofMoves BOOK_MOVES_NAKABISHA ++ ofMoves BOOK_MOVES_SIKENBISHA ++
  ofMoves BOOK_MOVES_KAKUGAWARI ++ ofMoves BOOK_MOVES_SUJICHIGAI ++
  ofMoves BOOK_MOVES_HUM_HISHAOCHI ++ ofMoves BOOK_MOVES_HUM_NIMAIOCHI ++
  ofMoves BOOK_MOVES_COM_HISHAOCHI ++ ofMoves BOOK_MOVES_COM_NIMAIOCHI

/-- Precondition of the `do_step`/`undo_step` round trip: the HUM move and
every move the engine may play with internally (search candidates and
book moves that pass the book legality check) round-trip on the position
after the HUM move. -/
def StepPre (e : Engine) (mv_hum : Move) : Prop :=
  DoPre e.pos mv_hum ∧
  (∀ mv ∈ generate_moves_com (e.pos.do_move mv_hum).2,
    DoPre (e.pos.do_move mv_hum).2 mv) ∧
  (∀ mv ∈ allBookMoves,
    book_move_is_legal (e.pos.do_move mv_hum).2 mv = true →
      DoPre (e.pos.do_move mv_hum).2 mv)

/-- The trigger of the unconditional book consultation in `Engine::think`. -/
def bookOverrideTrigger (e : Engine) (mv_hum : Option Move) : Prop :=
  match mv_hum with
  | some mv =>
    e.progress_ply ≤ 6 ∧
      (mv.dst = SQn 2 2 ∨ mv.dst = SQn 4 5 ∨ mv.dst = SQn 5 6) ∧
      e.progress_level = 0
  | none => False

instance (e : Engine) (mv_hum : Option Move) : Decidable (bookOverrideTrigger e mv_hum) := by
  unfold bookOverrideTrigger
  match mv_hum with
  | some mv => exact inferInstance
  | none => exact inferInstance

/-- Board built from an association list of squares and pieces; empty
squares hold `NO_PIECE`. Used to set up concrete test positions. -/
def boardFromList (l : List (Square × Nat)) : Board :=
  fun sq => (((l.find? (fun e => e.1 = sq)).map Prod.snd).getD NO_PIECE)

/-- A small engine around a three-piece position (kings on 59/51, HUM pawn
on 77), HUM to move, with the given progress counters and an exhausted
book; used to instantiate theorems on concrete inputs. -/
def sampleEngine (ply level : Nat) : Engine :=
  ⟨Position.new HUM (boardFromList
      [(SQn 5 9, H_KING), (SQn 5 1, C_KING), (SQn 7 7, H_PAWN)])
      ⟨fun _ => 0, fun _ => 0⟩,
    ply, level, 0, ⟨Formation.Nothing, 0, 0⟩, 0⟩

/-- A mating scenario: COM gold from 17 to 18 mates the HUM king on 19
(supported by the lance on 16); used to instantiate the mate-adoption
theorem on concrete inputs. -/
def matePosition : Position :=
  Position.new COM (boardFromList
    [(SQn 1 9, H_KING), (SQn 2 8, H_PAWN), (SQn 2 9, H_PAWN),
     (SQn 1 7, C_GOLD), (SQn 1 6, C_LANCE), (SQn 5 1, C_KING)])
    ⟨fun _ => 0, fun _ => 0⟩

def mateRoot : RootEvaluation := ⟨0, 0, 0, 0, 0, ⟨SQn 1 9, SQn 5 1⟩⟩

def mateState : SearchState :=
  ⟨⟨matePosition, 10, 0, 0, ⟨Formation.Nothing, 0, 0⟩, 0⟩, none,
    LeafEvaluation.worst, false⟩

def mateMove : Move := Move.walk (SQn 1 7) (SQn 1 8) false

/-- The leaf evaluation of `mateMove` from `matePosition` (already carrying
the `{adv, capture, disadv} = {60, 60, 0}` mate boost). -/
def mateLeaf : LeafEvaluation :=
  ⟨60, 60, some (SQn 1 9), 0, none, 40, 0, 7, 5, 0, 0, 0, 6, 1, false, 0, 0,
    true, false⟩

/-- A COM-to-move position in which HUM has just left the king en prise
(COM pawn on 58 attacks the HUM king on 59), with a COM pawn on 33 that
the Sikenbisha book can push; used to instantiate the think theorems. -/
def bookZonePos : Position :=
  Position.new COM (boardFromList
    [(SQn 5 9, H_KING), (SQn 5 8, C_PAWN), (SQn 3 3, C_PAWN),
     (SQn 5 1, C_KING)])
    ⟨fun _ => 0, fun _ => 0⟩

/-- An early-game engine (ply 2, level 0) on `bookZonePos` with a fresh
Sikenbisha book. -/
def bookZoneEngine : Engine :=
  ⟨bookZonePos, 2, 0, 0, BookState.new Formation.Sikenbisha, 0⟩

/-- A HUM move into ４五, one of the three squares of the unconditional
book zone. -/
def bookZoneMove : Option Move := some (Move.walk (SQn 4 6) (SQn 4 5) false)

/-- The move a branch-table entry answers with (if any) is listed in
`allBookMoves`. -/
def branchEntryMoveOk (ent : BookBranchEntry) : Prop :=
  match ent with
  | BookBranchEntry.mv _ _ src dst => Move.walk src dst false ∈ allBookMoves
  | BookBranchEntry.change _ _ _ _ => True

instance branchEntryMoveOk.dec : DecidablePred branchEntryMoveOk := fun ent => by
  unfold branchEntryMoveOk
  match ent with
  | BookBranchEntry.mv _ _ src dst => exact inferInstance
  | BookBranchEntry.change _ _ _ _ => exact inferInstance

/-! ## Theorems -/

@[simp] theorem Side.inv_inv (s : Side) : s.inv.inv = s := by cases s <;> rfl

@[simp] theorem Side.inv_ne (s : Side) : s.inv ≠ s := by cases s <;> decide

@[simp] theorem SidePair.get_set_same {α : Type} (p : SidePair α) (s : Side) (v : α) :
    (p.set s v).get s = v := by cases s <;> rfl

@[simp] theorem SidePair.get_set_other {α : Type} (p : SidePair α) (s t : Side) (v : α)
    (h : t ≠ s) : (p.set s v).get t = p.get t := by
  cases s <;> cases t <;> first | rfl | exact absurd rfl h

theorem SidePair.set_set_same {α : Type} (p : SidePair α) (s : Side) (v w : α) :
    (p.set s v).set s w = p.set s w := by cases s <;> rfl

theorem SidePair.ext_get {α : Type} {p q : SidePair α}
    (h : ∀ s, p.get s = q.get s) : p = q := by
  cases p; cases q
  have h1 := h Side.hum
  have h2 := h Side.com
  simp [SidePair.get] at h1 h2
  simp [h1, h2]

theorem dirDelta_ne_zero (d : Nat) : dirDelta d ≠ ⟨0, 0⟩ := by
  match d with
  | 0 | 1 | 2 | 3 | 4 | 5 | 6 => decide
  | n + 7 => simp [dirDelta]


/-! ### The effect-delta algebra -/

theorem wadd8_zero (x : Fin 256) : Position.wadd8 x 0 = x := by
  unfold Position.wadd8
  apply Fin.ext
  have hx := x.isLt
  simp only [Int.add_zero]
  omega

theorem wadd8_wadd8 (x : Fin 256) (a b : Int) :
    Position.wadd8 (Position.wadd8 x a) b = Position.wadd8 x (a + b) := by
  unfold Position.wadd8
  apply Fin.ext
  simp only
  omega

theorem applyER_board (p : Position) (δ : ERDelta) :
    (p.applyER δ).board = p.board := rfl

theorem applyER_side (p : Position) (δ : ERDelta) :
    (p.applyER δ).side_to_move = p.side_to_move := rfl

theorem applyER_get (p : Position) (δ : ERDelta) (s : Side) (q : Square) :
    (p.applyER δ).effect_counts.get s q =
      Position.wadd8 (p.effect_counts.get s q) (δ.de s q) := by
  cases s <;> rfl

theorem applyER_ranged (p : Position) (δ : ERDelta) (q : Square) :
    (p.applyER δ).ranged_effects q = p.ranged_effects q ^^^ δ.dr q := rfl

theorem applyER_applyER (p : Position) (δ1 δ2 : ERDelta) :
    (p.applyER δ1).applyER δ2 = p.applyER (δ1.add δ2) := by
  unfold Position.applyER ERDelta.add
  simp only [wadd8_wadd8, Nat.xor_assoc]

theorem applyER_pointwise_zero (p : Position) (δ : ERDelta)
    (hde : ∀ s q, δ.de s q = 0) (hdr : ∀ q, δ.dr q = 0) :
    p.applyER δ = p := by
  unfold Position.applyER
  have h1 : (fun q => Position.wadd8 (p.effect_counts.hum q) (δ.de HUM q)) = p.effect_counts.hum := by
    funext q; rw [hde, wadd8_zero]
  have h2 : (fun q => Position.wadd8 (p.effect_counts.com q) (δ.de COM q)) = p.effect_counts.com := by
    funext q; rw [hde, wadd8_zero]
  have h3 : (fun q => p.ranged_effects q ^^^ δ.dr q) = p.ranged_effects := by
    funext q; rw [hdr, Nat.xor_zero]
  rw [h1, h2, h3]

theorem applyER_zero (p : Position) : p.applyER ERDelta.zero = p :=
  applyER_pointwise_zero p ERDelta.zero (fun _ _ => rfl) (fun _ => rfl)

theorem ERDelta.add_de (a b : ERDelta) (s : Side) (q : Square) :
    (a.add b).de s q = a.de s q + b.de s q := rfl

theorem ERDelta.add_dr (a b : ERDelta) (q : Square) :
    (a.add b).dr q = a.dr q ^^^ b.dr q := rfl

theorem ERDelta.zero_add (a : ERDelta) : ERDelta.zero.add a = a := by
  unfold ERDelta.add ERDelta.zero
  simp only [Int.zero_add, Nat.zero_xor]

theorem ERDelta.add_zero (a : ERDelta) : a.add ERDelta.zero = a := by
  unfold ERDelta.add ERDelta.zero
  simp only [Int.add_zero, Nat.xor_zero]

theorem ERDelta.add_assoc (a b c : ERDelta) :
    (a.add b).add c = a.add (b.add c) := by
  unfold ERDelta.add
  simp only [Int.add_assoc, Nat.xor_assoc]

theorem ERDelta.neg_add (a b : ERDelta) :
    (a.add b).neg = a.neg.add b.neg := by
  unfold ERDelta.add ERDelta.neg
  simp only [Int.neg_add]

theorem ERDelta.neg_zero : ERDelta.zero.neg = ERDelta.zero := by
  unfold ERDelta.neg ERDelta.zero
  simp only [Int.neg_zero]

theorem bumpDelta_neg (s : Side) (q : Square) (d : Int) :
    bumpDelta s q (-d) = (bumpDelta s q d).neg := by
  unfold bumpDelta ERDelta.neg
  simp only [ERDelta.mk.injEq]
  constructor
  · funext s' q'
    by_cases h : s' = s ∧ q' = q <;> simp [h]
  · trivial

theorem Position.extParts (p q : Position)
    (h1 : p.bb_occ = q.bb_occ) (h2 : p.bb_occ_side = q.bb_occ_side)
    (h3 : p.bb_pk = q.bb_pk)
    (h4 : p.effect_counts.hum = q.effect_counts.hum)
    (h5 : p.effect_counts.com = q.effect_counts.com)
    (h6 : p.ranged_effects = q.ranged_effects) (h7 : p.board = q.board)
    (h8 : p.hands = q.hands) (h9 : p.side_to_move = q.side_to_move)
    (h10 : p.ply = q.ply) (h11 : p.king_sq = q.king_sq)
    (h12 : p.com_nonking_count = q.com_nonking_count) : p = q := by
  obtain ⟨o1, s1, k1, ⟨eh1, ec1⟩, r1, b1, hd1, st1, pl1, kg1, cn1⟩ := p
  obtain ⟨o2, s2, k2, ⟨eh2, ec2⟩, r2, b2, hd2, st2, pl2, kg2, cn2⟩ := q
  simp_all

theorem bumpCount_eq (p : Position) (s : Side) (q : Square) (d : Int) :
    p.bumpCount s q d = p.applyER (bumpDelta s q d) := by
  unfold Position.bumpCount Position.applyER bumpDelta
  cases s <;>
  · apply Position.extParts <;>
      simp only [SidePair.set, SidePair.get] <;>
      try rfl
    all_goals
      funext q'
      by_cases hq : q' = q <;>
        simp [Function.update, hq, wadd8_zero, HUM, COM]

theorem xorRanged_eq (p : Position) (q : Square) (m : Nat) :
    p.xorRanged q m = p.applyER (xorDelta q m) := by
  unfold Position.xorRanged Position.applyER xorDelta
  apply Position.extParts <;> try rfl
  · funext q'; simp [wadd8_zero]
  · funext q'; simp [wadd8_zero]
  · funext q'
    by_cases hq : q' = q <;> simp [Function.update, hq]

theorem foldl_add_shift {α : Type} (f : α → ERDelta) (t : List α) (δ0 : ERDelta) :
    t.foldl (fun δ a => δ.add (f a)) δ0 =
      δ0.add (t.foldl (fun δ a => δ.add (f a)) ERDelta.zero) := by
  induction t generalizing δ0 with
  | nil => simp only [List.foldl, ERDelta.add_zero]
  | cons a t ih =>
    simp only [List.foldl]
    rw [ih (δ0.add (f a)), ih (ERDelta.zero.add (f a)), ERDelta.zero_add,
      ERDelta.add_assoc]

theorem foldl_applyER_board {α : Type} (g : Board → α → ERDelta) (l : List α)
    (p : Position) :
    l.foldl (fun p a => p.applyER (g p.board a)) p =
      p.applyER (l.foldl (fun δ a => δ.add (g p.board a)) ERDelta.zero) := by
  induction l generalizing p with
  | nil => simp only [List.foldl, applyER_zero]
  | cons a t ih =>
    simp only [List.foldl]
    rw [ih (p.applyER (g p.board a))]
    simp only [applyER_board, applyER_applyER]
    congr 1
    rw [foldl_add_shift _ _ (ERDelta.zero.add (g p.board a)), ERDelta.zero_add]

theorem addMelee_eq (p : Position) (s : Side) (bb : Bitboard) (d : Int) :
    p.addMelee s bb d = p.applyER (melDelta s bb d) := by
  unfold Position.addMelee melDelta
  simp only [bumpCount_eq]
  exact foldl_applyER_board (fun _ q => bumpDelta s q d) bb.squaresList p

theorem addShadow_eq (p : Position) (s : Side) (base : Square) (dirs : Nat)
    (d : Int) :
    p.addShadow s base dirs d = p.applyER (shadowDelta s base dirs d) := by
  unfold Position.addShadow shadowDelta
  have hbody : ∀ (p : Position) (dir : Nat),
      (let q := (SqWW.ofSquare base).add (dirDelta dir)
       if q.is_on_board then p.bumpCount s q.toSquare d else p) =
        p.applyER
          (let q := (SqWW.ofSquare base).add (dirDelta dir)
           if q.is_on_board then bumpDelta s q.toSquare d else ERDelta.zero) := by
    intro p dir
    by_cases hob : ((SqWW.ofSquare base).add (dirDelta dir)).is_on_board <;>
      simp [hob, bumpCount_eq, applyER_zero]
  have hbody2 : ∀ (δ : ERDelta) (dir : Nat),
      (if ((SqWW.ofSquare base).add (dirDelta dir)).is_on_board then
        δ.add (bumpDelta s ((SqWW.ofSquare base).add (dirDelta dir)).toSquare d)
      else δ) =
      δ.add (if ((SqWW.ofSquare base).add (dirDelta dir)).is_on_board then
        bumpDelta s ((SqWW.ofSquare base).add (dirDelta dir)).toSquare d
      else ERDelta.zero) := by
    intro δ dir
    by_cases h : ((SqWW.ofSquare base).add (dirDelta dir)).is_on_board <;>
      simp [h, ERDelta.add_zero]
  simp only [hbody, hbody2]
  exact foldl_applyER_board
    (fun _ dir =>
      if ((SqWW.ofSquare base).add (dirDelta dir)).is_on_board then
        bumpDelta s ((SqWW.ofSquare base).add (dirDelta dir)).toSquare d
      else ERDelta.zero)
    (dirsToList dirs) p

theorem bumpCount_board (p : Position) (s : Side) (q : Square) (d : Int) :
    (p.bumpCount s q d).board = p.board := rfl

theorem xorRanged_board (p : Position) (q : Square) (m : Nat) :
    (p.xorRanged q m).board = p.board := rfl

theorem walkRay_eq (us them : Side) (e_us e_them : Int) (dspDir : Nat)
    (delta : Delta) :
    ∀ (fuel : Nat) (cur : SqWW) (p : Position),
      Position.walkRay us them e_us e_them dspDir delta fuel cur p =
        p.applyER (walkDelta p.board us them e_us e_them dspDir delta fuel cur) := by
  intro fuel
  induction fuel with
  | zero =>
    intro cur p
    simp only [Position.walkRay, walkDelta, applyER_zero]
  | succ n ih =>
    intro cur p
    simp only [Position.walkRay, walkDelta, bumpCount_board, xorRanged_board]
    by_cases h1 : (cur.add delta).is_on_board = true
    · simp only [if_pos h1]
      by_cases h2 : p.board (cur.add delta).toSquare ≠ NO_PIECE
      · simp only [if_pos h2]
        by_cases h3 : ((cur.add delta).add delta).is_on_board = true
        · simp only [if_pos h3]
          by_cases h4 : pcSide (p.board (cur.add delta).toSquare) = us ∧
              ¬ dirsIsDisjoint (dirsFromPieceSupported (p.board (cur.add delta).toSquare))
                (dspGet dspDir us) = true
          · simp only [if_pos h4, bumpCount_eq, xorRanged_eq, applyER_applyER]
          · simp only [if_neg h4]
            by_cases h5 : pcSide (p.board (cur.add delta).toSquare) = them ∧
                ¬ dirsIsDisjoint (dirsFromPieceSupported (p.board (cur.add delta).toSquare))
                  (dspGet dspDir them) = true
            · simp only [if_pos h5, bumpCount_eq, xorRanged_eq, applyER_applyER]
            · simp only [if_neg h5, bumpCount_eq, xorRanged_eq, applyER_applyER]
        · simp only [if_neg h3, bumpCount_eq, xorRanged_eq, applyER_applyER]
      · simp only [if_neg h2]
        rw [ih (cur.add delta)]
        simp only [bumpCount_board, xorRanged_board, bumpCount_eq, xorRanged_eq,
          applyER_applyER, applyER_board]
    · simp only [if_neg h1, applyER_zero]

theorem update_effect_ranged_eq (p : Position) (sq : Square)
    (dsp_us dsp_others : Nat) (put : Bool) :
    p.update_effect_ranged sq dsp_us dsp_others put =
      p.applyER (uerDelta p.board p.side_to_move p.side_to_move.inv sq
        dsp_us dsp_others put) := by
  unfold Position.update_effect_ranged uerDelta
  simp only [walkRay_eq]
  exact foldl_applyER_board
    (fun b pr =>
      walkDelta b p.side_to_move p.side_to_move.inv
        (if dspGet pr.2 p.side_to_move = 0 then 0
         else if dsp_us &&& pr.2 = 0 then -(if put then (1 : Int) else -1)
         else (if put then (1 : Int) else -1))
        (if dspGet pr.2 p.side_to_move.inv = 0 then 0
         else -(if put then (1 : Int) else -1))
        pr.2 (dirDelta pr.1) 9 (SqWW.ofSquare sq))
    (dspPopList 17 (dsp_us ^^^ dsp_others)) p

theorem ERDelta.neg_de (a : ERDelta) (s : Side) (q : Square) :
    a.neg.de s q = -(a.de s q) := rfl

theorem ERDelta.neg_dr (a : ERDelta) (q : Square) : a.neg.dr q = a.dr q := rfl

theorem xorDelta_neg (q : Square) (m : Nat) : (xorDelta q m).neg = xorDelta q m := by
  unfold xorDelta ERDelta.neg
  simp only [ERDelta.mk.injEq, Int.neg_zero, and_true]

theorem foldl_add_congr {α : Type} (f g : α → ERDelta) (l : List α)
    (h : ∀ a ∈ l, f a = g a) :
    l.foldl (fun δ a => δ.add (f a)) ERDelta.zero =
      l.foldl (fun δ a => δ.add (g a)) ERDelta.zero := by
  induction l with
  | nil => rfl
  | cons a t ih =>
    simp only [List.foldl]
    rw [foldl_add_shift f t, foldl_add_shift g t,
      h a (List.mem_cons_self a t),
      ih (fun a ha => h a (List.mem_cons_of_mem _ ha))]

theorem foldl_add_map_neg {α : Type} (f : α → ERDelta) (l : List α) :
    l.foldl (fun δ a => δ.add (f a).neg) ERDelta.zero =
      (l.foldl (fun δ a => δ.add (f a)) ERDelta.zero).neg := by
  induction l with
  | nil => exact ERDelta.neg_zero.symm
  | cons a t ih =>
    simp only [List.foldl]
    rw [foldl_add_shift (fun a => (f a).neg) t, foldl_add_shift f t, ih,
      ERDelta.zero_add, ERDelta.zero_add, ERDelta.neg_add]

theorem foldl_add_point_de {α : Type} (f : α → ERDelta) (l : List α)
    (s : Side) (q : Square) (h : ∀ a ∈ l, (f a).de s q = 0) :
    (l.foldl (fun δ a => δ.add (f a)) ERDelta.zero).de s q = 0 := by
  induction l with
  | nil => rfl
  | cons a t ih =>
    simp only [List.foldl]
    rw [foldl_add_shift f t, ERDelta.zero_add, ERDelta.add_de,
      h a (List.mem_cons_self a t),
      ih (fun a ha => h a (List.mem_cons_of_mem _ ha))]
    rfl

theorem foldl_add_point_dr {α : Type} (f : α → ERDelta) (l : List α)
    (q : Square) (h : ∀ a ∈ l, (f a).dr q = 0) :
    (l.foldl (fun δ a => δ.add (f a)) ERDelta.zero).dr q = 0 := by
  induction l with
  | nil => rfl
  | cons a t ih =>
    simp only [List.foldl]
    rw [foldl_add_shift f t, ERDelta.zero_add, ERDelta.add_dr,
      h a (List.mem_cons_self a t),
      ih (fun a ha => h a (List.mem_cons_of_mem _ ha))]
    rfl

theorem walkDelta_neg (b : Board) (us them : Side) (e_us e_them : Int)
    (dspDir : Nat) (delta : Delta) :
    ∀ (fuel : Nat) (cur : SqWW),
      walkDelta b us them (-e_us) (-e_them) dspDir delta fuel cur =
        (walkDelta b us them e_us e_them dspDir delta fuel cur).neg := by
  intro fuel
  induction fuel with
  | zero => intro cur; exact ERDelta.neg_zero.symm
  | succ n ih =>
    intro cur
    simp only [walkDelta]
    by_cases h1 : (cur.add delta).is_on_board = true
    · simp only [if_pos h1]
      by_cases h2 : b (cur.add delta).toSquare ≠ NO_PIECE
      · simp only [if_pos h2]
        by_cases h3 : ((cur.add delta).add delta).is_on_board = true
        · simp only [if_pos h3]
          by_cases h4 : pcSide (b (cur.add delta).toSquare) = us ∧
              ¬ dirsIsDisjoint (dirsFromPieceSupported (b (cur.add delta).toSquare))
                (dspGet dspDir us) = true
          · simp only [if_pos h4, bumpDelta_neg, xorDelta_neg, ERDelta.neg_add]
          · simp only [if_neg h4]
            by_cases h5 : pcSide (b (cur.add delta).toSquare) = them ∧
                ¬ dirsIsDisjoint (dirsFromPieceSupported (b (cur.add delta).toSquare))
                  (dspGet dspDir them) = true
            · simp only [if_pos h5, bumpDelta_neg, xorDelta_neg, ERDelta.neg_add]
            · simp only [if_neg h5, bumpDelta_neg, xorDelta_neg, ERDelta.neg_add]
        · simp only [if_neg h3, bumpDelta_neg, xorDelta_neg, ERDelta.neg_add]
      · simp only [if_neg h2]
        rw [ih (cur.add delta)]
        simp only [bumpDelta_neg, xorDelta_neg, ERDelta.neg_add]
    · simp only [if_neg h1]
      exact ERDelta.neg_zero.symm

theorem SqWW.ofSquare_toSquare (q : SqWW) (h : q.is_on_board = true) :
    SqWW.ofSquare q.toSquare = q := by
  unfold SqWW.is_on_board at h
  simp only [Bool.and_eq_true, decide_eq_true_eq] at h
  obtain ⟨⟨⟨h1, h2⟩, h3⟩, h4⟩ := h
  unfold SqWW.ofSquare SqWW.toSquare Square.col Square.row Square.val
  obtain ⟨c, r⟩ := q
  simp only at h1 h2 h3 h4 ⊢
  have hc : (9 * c + r).toNat = 9 * c.toNat + r.toNat := by omega
  have hlt : 9 * c.toNat + r.toNat < 81 := by omega
  simp only [SqWW.mk.injEq]
  rw [hc, Nat.mod_eq_of_lt hlt]
  constructor <;> omega

theorem bumpDelta_de_ne (s' : Side) (q' : Square) (d : Int) (s : Side)
    (q : Square) (h : q' ≠ q) : (bumpDelta s' q' d).de s q = 0 := by
  unfold bumpDelta
  simp only
  rw [if_neg]
  intro hcontra
  exact h hcontra.2.symm

theorem bumpDelta_dr (s' : Side) (q' : Square) (d : Int) (q : Square) :
    (bumpDelta s' q' d).dr q = 0 := rfl

theorem xorDelta_de (q' : Square) (m : Nat) (s : Side) (q : Square) :
    (xorDelta q' m).de s q = 0 := rfl

theorem xorDelta_dr_ne (q' : Square) (m : Nat) (q : Square) (h : q' ≠ q) :
    (xorDelta q' m).dr q = 0 := by
  unfold xorDelta
  simp only
  rw [if_neg]
  intro hcontra
  exact h hcontra.symm

/-- The walk from `cur` only updates squares strictly further along
`delta` than `cur`; in particular, starting from a square's own position
it never touches that square. -/
theorem walkDelta_avoid (b : Board) (us them : Side) (e_us e_them : Int)
    (dspDir : Nat) (delta : Delta) (sq : Square)
    (hd : 0 < delta.dc * delta.dc + delta.dr * delta.dr) :
    ∀ (fuel : Nat) (cur : SqWW),
      delta.dc * (SqWW.ofSquare sq).c + delta.dr * (SqWW.ofSquare sq).r ≤
        delta.dc * cur.c + delta.dr * cur.r →
      (∀ s, (walkDelta b us them e_us e_them dspDir delta fuel cur).de s sq = 0) ∧
        (walkDelta b us them e_us e_them dspDir delta fuel cur).dr sq = 0 := by
  intro fuel
  induction fuel with
  | zero => intro cur _; exact ⟨fun _ => rfl, rfl⟩
  | succ n ih =>
    intro cur hphi
    have hstep : ∀ (q : SqWW), q.is_on_board = true →
        delta.dc * (SqWW.ofSquare sq).c + delta.dr * (SqWW.ofSquare sq).r ≤
          delta.dc * q.c + delta.dr * q.r -
            (delta.dc * delta.dc + delta.dr * delta.dr) →
        q.toSquare ≠ sq := by
      intro q hob hlt heq
      have hq : SqWW.ofSquare q.toSquare = q := SqWW.ofSquare_toSquare q hob
      rw [heq] at hq
      rw [← hq] at hlt
      omega
    have hexp1 : delta.dc * (cur.add delta).c + delta.dr * (cur.add delta).r =
        delta.dc * cur.c + delta.dr * cur.r +
          (delta.dc * delta.dc + delta.dr * delta.dr) := by
      obtain ⟨dc, dr⟩ := delta
      obtain ⟨c, r⟩ := cur
      simp only [SqWW.add]
      ring
    have hexp2 : delta.dc * ((cur.add delta).add delta).c +
        delta.dr * ((cur.add delta).add delta).r =
        delta.dc * cur.c + delta.dr * cur.r +
          2 * (delta.dc * delta.dc + delta.dr * delta.dr) := by
      obtain ⟨dc, dr⟩ := delta
      obtain ⟨c, r⟩ := cur
      simp only [SqWW.add]
      ring
    simp only [walkDelta]
    by_cases h1 : (cur.add delta).is_on_board = true
    · simp only [if_pos h1]
      have hne1 : (cur.add delta).toSquare ≠ sq :=
        hstep _ h1 (by omega)
      by_cases h2 : b (cur.add delta).toSquare ≠ NO_PIECE
      · simp only [if_pos h2]
        by_cases h3 : ((cur.add delta).add delta).is_on_board = true
        · simp only [if_pos h3]
          have hne2 : ((cur.add delta).add delta).toSquare ≠ sq :=
            hstep _ h3 (by omega)
          constructor
          · intro s
            split
            · simp [ERDelta.add_de, bumpDelta_de_ne _ _ _ _ _ hne1,
                bumpDelta_de_ne _ _ _ _ _ hne2, xorDelta_de]
            · split
              · simp [ERDelta.add_de, bumpDelta_de_ne _ _ _ _ _ hne1,
                  bumpDelta_de_ne _ _ _ _ _ hne2, xorDelta_de]
              · simp [ERDelta.add_de, bumpDelta_de_ne _ _ _ _ _ hne1, xorDelta_de]
          · split
            · simp [ERDelta.add_dr, bumpDelta_dr, xorDelta_dr_ne _ _ _ hne1]
            · split
              · simp [ERDelta.add_dr, bumpDelta_dr, xorDelta_dr_ne _ _ _ hne1]
              · simp [ERDelta.add_dr, bumpDelta_dr, xorDelta_dr_ne _ _ _ hne1]
        · simp only [if_neg h3]
          constructor
          · intro s
            simp [ERDelta.add_de, bumpDelta_de_ne _ _ _ _ _ hne1, xorDelta_de]
          · simp [ERDelta.add_dr, bumpDelta_dr, xorDelta_dr_ne _ _ _ hne1]
      · simp only [if_neg h2]
        have hrec := ih (cur.add delta) (by omega)
        constructor
        · intro s
          simp [ERDelta.add_de, bumpDelta_de_ne _ _ _ _ _ hne1, xorDelta_de,
            hrec.1 s]
        · simp [ERDelta.add_dr, bumpDelta_dr, xorDelta_dr_ne _ _ _ hne1, hrec.2]
    · simp only [if_neg h1]
      exact ⟨fun _ => rfl, rfl⟩

theorem dirDelta_possq (d : Nat) :
    0 < (dirDelta d).dc * (dirDelta d).dc + (dirDelta d).dr * (dirDelta d).dr := by
  rcases d with _|_|_|_|_|_|_|n <;> simp [dirDelta]

/-- The walk from a square in any direction never changes that square's
counts or ranged effects. -/
theorem walkDelta_congr (b1 b2 : Board) (us them : Side) (e_us e_them : Int)
    (dspDir : Nat) (delta : Delta) (sq : Square)
    (hd : 0 < delta.dc * delta.dc + delta.dr * delta.dr)
    (hb : ∀ q, q ≠ sq → b1 q = b2 q) :
    ∀ (fuel : Nat) (cur : SqWW),
      delta.dc * (SqWW.ofSquare sq).c + delta.dr * (SqWW.ofSquare sq).r ≤
        delta.dc * cur.c + delta.dr * cur.r →
      walkDelta b1 us them e_us e_them dspDir delta fuel cur =
        walkDelta b2 us them e_us e_them dspDir delta fuel cur := by
  intro fuel
  induction fuel with
  | zero => intro cur _; rfl
  | succ n ih =>
    intro cur hphi
    have hstep : ∀ (q : SqWW), q.is_on_board = true →
        delta.dc * (SqWW.ofSquare sq).c + delta.dr * (SqWW.ofSquare sq).r ≤
          delta.dc * q.c + delta.dr * q.r -
            (delta.dc * delta.dc + delta.dr * delta.dr) →
        q.toSquare ≠ sq := by
      intro q hob hlt heq
      have hq : SqWW.ofSquare q.toSquare = q := SqWW.ofSquare_toSquare q hob
      rw [heq] at hq
      rw [← hq] at hlt
      omega
    have hexp1 : delta.dc * (cur.add delta).c + delta.dr * (cur.add delta).r =
        delta.dc * cur.c + delta.dr * cur.r +
          (delta.dc * delta.dc + delta.dr * delta.dr) := by
      obtain ⟨dc, dr⟩ := delta
      obtain ⟨c, r⟩ := cur
      simp only [SqWW.add]
      ring
    simp only [walkDelta]
    by_cases h1 : (cur.add delta).is_on_board = true
    · simp only [if_pos h1]
      have hne1 : (cur.add delta).toSquare ≠ sq :=
        hstep _ h1 (by omega)
      rw [hb _ hne1]
      by_cases h2 : b2 (cur.add delta).toSquare ≠ NO_PIECE
      · simp only [if_pos h2]
      · simp only [if_neg h2]
        rw [ih (cur.add delta) (by omega)]
    · simp only [if_neg h1]

theorem uerDelta_avoid (b : Board) (us them : Side) (sq : Square)
    (dsp_us dsp_others : Nat) (put : Bool) :
    (∀ s, (uerDelta b us them sq dsp_us dsp_others put).de s sq = 0) ∧
      (uerDelta b us them sq dsp_us dsp_others put).dr sq = 0 := by
  unfold uerDelta
  constructor
  · intro s
    apply foldl_add_point_de
    intro pr _
    exact (walkDelta_avoid b us them _ _ pr.2 (dirDelta pr.1) sq
      (dirDelta_possq pr.1) 9 (SqWW.ofSquare sq) (le_refl _)).1 s
  · apply foldl_add_point_dr
    intro pr _
    exact (walkDelta_avoid b us them _ _ pr.2 (dirDelta pr.1) sq
      (dirDelta_possq pr.1) 9 (SqWW.ofSquare sq) (le_refl _)).2

theorem uerDelta_congr (b1 b2 : Board) (us them : Side) (sq : Square)
    (dsp_us dsp_others : Nat) (put : Bool)
    (hb : ∀ q, q ≠ sq → b1 q = b2 q) :
    uerDelta b1 us them sq dsp_us dsp_others put =
      uerDelta b2 us them sq dsp_us dsp_others put := by
  unfold uerDelta
  apply foldl_add_congr
  intro pr _
  exact walkDelta_congr b1 b2 us them _ _ pr.2 (dirDelta pr.1) sq
    (dirDelta_possq pr.1) hb 9 (SqWW.ofSquare sq) (le_refl _)

theorem uerDelta_neg (b : Board) (us them : Side) (sq : Square)
    (dsp_us dsp_others : Nat) :
    uerDelta b us them sq dsp_us dsp_others false =
      (uerDelta b us them sq dsp_us dsp_others true).neg := by
  unfold uerDelta
  simp only [Bool.false_eq_true, if_false, if_true]
  have hmid :
      (dspPopList 17 (dsp_us ^^^ dsp_others)).foldl
        (fun δ pr =>
          δ.add
            (walkDelta b us them
              (if dspGet pr.2 us = 0 then 0
               else if dsp_us &&& pr.2 = 0 then -(-1 : Int) else (-1 : Int))
              (if dspGet pr.2 them = 0 then 0 else -(-1 : Int)) pr.2
              (dirDelta pr.1) 9 (SqWW.ofSquare sq))) ERDelta.zero =
      (dspPopList 17 (dsp_us ^^^ dsp_others)).foldl
        (fun δ pr =>
          δ.add
            (walkDelta b us them
              (if dspGet pr.2 us = 0 then 0
               else if dsp_us &&& pr.2 = 0 then -(1 : Int) else (1 : Int))
              (if dspGet pr.2 them = 0 then 0 else -(1 : Int)) pr.2
              (dirDelta pr.1) 9 (SqWW.ofSquare sq)).neg) ERDelta.zero := by
    apply foldl_add_congr
    intro pr _
    have h1 : (if dspGet pr.2 us = 0 then (0 : Int)
        else if dsp_us &&& pr.2 = 0 then -(-1 : Int) else (-1 : Int)) =
        -(if dspGet pr.2 us = 0 then (0 : Int)
          else if dsp_us &&& pr.2 = 0 then -(1 : Int) else (1 : Int)) := by
      split
      · norm_num
      · split <;> norm_num
    have h2 : (if dspGet pr.2 them = 0 then (0 : Int) else -(-1 : Int)) =
        -(if dspGet pr.2 them = 0 then (0 : Int) else -(1 : Int)) := by
      split <;> norm_num
    rw [h1, h2]
    exact walkDelta_neg b us them _ _ pr.2 (dirDelta pr.1) 9 (SqWW.ofSquare sq)
  rw [hmid]
  exact foldl_add_map_neg _ _

theorem melDelta_dr (s : Side) (bb : Bitboard) (d : Int) (q : Square) :
    (melDelta s bb d).dr q = 0 := by
  unfold melDelta
  exact foldl_add_point_dr _ _ _ (fun a _ => rfl)

theorem shadowDelta_unfold (s : Side) (base : Square) (dirs : Nat) (d : Int) :
    shadowDelta s base dirs d =
      (dirsToList dirs).foldl
        (fun δ dir =>
          δ.add
            (if ((SqWW.ofSquare base).add (dirDelta dir)).is_on_board then
              bumpDelta s ((SqWW.ofSquare base).add (dirDelta dir)).toSquare d
            else ERDelta.zero)) ERDelta.zero := by
  unfold shadowDelta
  have hb : ∀ (δ : ERDelta) (dir : Nat),
      (if ((SqWW.ofSquare base).add (dirDelta dir)).is_on_board then
        δ.add (bumpDelta s ((SqWW.ofSquare base).add (dirDelta dir)).toSquare d)
      else δ) =
      δ.add (if ((SqWW.ofSquare base).add (dirDelta dir)).is_on_board then
        bumpDelta s ((SqWW.ofSquare base).add (dirDelta dir)).toSquare d
      else ERDelta.zero) := by
    intro δ dir
    split <;> simp [ERDelta.add_zero]
  simp only [hb]

theorem shadowDelta_dr (s : Side) (base : Square) (dirs : Nat) (d : Int)
    (q : Square) : (shadowDelta s base dirs d).dr q = 0 := by
  rw [shadowDelta_unfold]
  apply foldl_add_point_dr
  intro a _
  split <;> rfl

theorem melDelta_neg (s : Side) (bb : Bitboard) (d : Int) :
    melDelta s bb (-d) = (melDelta s bb d).neg := by
  unfold melDelta
  rw [foldl_add_congr (fun q => bumpDelta s q (-d))
    (fun q => (bumpDelta s q d).neg) _ (fun a _ => bumpDelta_neg s a d)]
  exact foldl_add_map_neg _ _

theorem shadowDelta_neg (s : Side) (base : Square) (dirs : Nat) (d : Int) :
    shadowDelta s base dirs (-d) = (shadowDelta s base dirs d).neg := by
  rw [shadowDelta_unfold, shadowDelta_unfold]
  rw [foldl_add_congr _
    (fun dir =>
      ((if ((SqWW.ofSquare base).add (dirDelta dir)).is_on_board then
        bumpDelta s ((SqWW.ofSquare base).add (dirDelta dir)).toSquare d
      else ERDelta.zero)).neg) _ ?_]
  · exact foldl_add_map_neg _ _
  · intro a _
    simp only []
    by_cases hob : ((SqWW.ofSquare base).add (dirDelta a)).is_on_board = true
    · rw [if_pos hob, if_pos hob]
      exact bumpDelta_neg _ _ _
    · rw [if_neg hob, if_neg hob]
      exact ERDelta.neg_zero.symm

theorem uerDelta_dr_self (b : Board) (us them : Side) (sq : Square)
    (dsp_us dsp_others : Nat) (put : Bool) :
    (uerDelta b us them sq dsp_us dsp_others put).dr sq = 0 :=
  (uerDelta_avoid b us them sq dsp_us dsp_others put).2

theorem uerDelta_de_self (b : Board) (us them : Side) (sq : Square)
    (dsp_us dsp_others : Nat) (put : Bool) (s : Side) :
    (uerDelta b us them sq dsp_us dsp_others put).de s sq = 0 :=
  (uerDelta_avoid b us them sq dsp_us dsp_others put).1 s

theorem applyER_occ (p : Position) (δ : ERDelta) :
    (p.applyER δ).bb_occ = p.bb_occ := rfl

theorem applyER_occ_side (p : Position) (δ : ERDelta) :
    (p.applyER δ).bb_occ_side = p.bb_occ_side := rfl

theorem applyER_pk (p : Position) (δ : ERDelta) :
    (p.applyER δ).bb_pk = p.bb_pk := rfl

theorem applyER_hands (p : Position) (δ : ERDelta) :
    (p.applyER δ).hands = p.hands := rfl

theorem applyER_ply (p : Position) (δ : ERDelta) :
    (p.applyER δ).ply = p.ply := rfl

theorem applyER_king (p : Position) (δ : ERDelta) :
    (p.applyER δ).king_sq = p.king_sq := rfl

theorem applyER_cnk (p : Position) (δ : ERDelta) :
    (p.applyER δ).com_nonking_count = p.com_nonking_count := rfl

theorem update_effect_by_drop_eq (p : Position) (pk : Nat) (dst : Square) :
    p.update_effect_by_drop pk dst =
      p.applyER
        (((melDelta p.side_to_move (bbs.effect_melee (pcNew p.side_to_move pk) dst) 1).add
          (shadowDelta p.side_to_move dst
            (dirsFromPieceSupported (pcNew p.side_to_move pk) &&&
              dspGet (p.ranged_effects dst) p.side_to_move) 1)).add
          (uerDelta p.board p.side_to_move p.side_to_move.inv dst
            (dspFromPieceRanged (pcNew p.side_to_move pk)) (p.ranged_effects dst) true)) := by
  unfold Position.update_effect_by_drop
  simp only [addMelee_eq, addShadow_eq, update_effect_ranged_eq, applyER_applyER,
    applyER_board, applyER_side, applyER_ranged, ERDelta.add_dr, melDelta_dr,
    shadowDelta_dr, Nat.xor_zero]

theorem revert_effect_by_drop_eq (p : Position) (pk : Nat) (dst : Square) :
    p.revert_effect_by_drop pk dst =
      p.applyER
        (((melDelta p.side_to_move (bbs.effect_melee (pcNew p.side_to_move pk) dst) (-1)).add
          (uerDelta p.board p.side_to_move p.side_to_move.inv dst
            (dspFromPieceRanged (pcNew p.side_to_move pk)) (p.ranged_effects dst) false)).add
          (shadowDelta p.side_to_move dst
            (dirsFromPieceSupported (pcNew p.side_to_move pk) &&&
              dspGet (p.ranged_effects dst) p.side_to_move) (-1))) := by
  unfold Position.revert_effect_by_drop
  simp only [addMelee_eq, addShadow_eq, update_effect_ranged_eq, applyER_applyER,
    applyER_board, applyER_side, applyER_ranged, ERDelta.add_dr, melDelta_dr,
    shadowDelta_dr, uerDelta_dr_self, Nat.xor_zero]

theorem SidePair.set_get {α : Type} (p : SidePair α) (s : Side) :
    p.set s (p.get s) = p := by
  cases p
  cases s <;> rfl

theorem Bitboard.bxor_bxor (a m : Bitboard) : (a.bxor m).bxor m = a := by
  obtain ⟨lo, hi⟩ := a
  obtain ⟨mlo, mhi⟩ := m
  unfold Bitboard.bxor
  simp only [Bitboard.mk.injEq]
  constructor <;> rw [Nat.xor_assoc, Nat.xor_self, Nat.xor_zero]

theorem put_piece_board (p : Position) (sq : Square) (pc : Nat) :
    (p.put_piece sq pc).board = Function.update p.board sq pc := rfl

theorem put_piece_ranged (p : Position) (sq : Square) (pc : Nat) :
    (p.put_piece sq pc).ranged_effects = p.ranged_effects := rfl

theorem put_piece_counts (p : Position) (sq : Square) (pc : Nat) :
    (p.put_piece sq pc).effect_counts = p.effect_counts := rfl

theorem put_piece_side (p : Position) (sq : Square) (pc : Nat) :
    (p.put_piece sq pc).side_to_move = p.side_to_move := rfl

theorem put_piece_hands (p : Position) (sq : Square) (pc : Nat) :
    (p.put_piece sq pc).hands = p.hands := rfl

theorem put_piece_ply (p : Position) (sq : Square) (pc : Nat) :
    (p.put_piece sq pc).ply = p.ply := rfl

theorem put_piece_king (p : Position) (sq : Square) (pc : Nat) :
    (p.put_piece sq pc).king_sq = p.king_sq := rfl

theorem put_piece_cnk (p : Position) (sq : Square) (pc : Nat) :
    (p.put_piece sq pc).com_nonking_count = p.com_nonking_count := rfl

theorem put_piece_occ (p : Position) (sq : Square) (pc : Nat) :
    (p.put_piece sq pc).bb_occ = p.bb_occ.bxor (Bitboard.ofSquare sq) := rfl

theorem put_piece_occ_side (p : Position) (sq : Square) (pc : Nat) :
    (p.put_piece sq pc).bb_occ_side =
      p.bb_occ_side.set (pcSide pc)
        ((p.bb_occ_side.get (pcSide pc)).bxor (Bitboard.ofSquare sq)) := rfl

theorem put_piece_pk (p : Position) (sq : Square) (pc : Nat) :
    (p.put_piece sq pc).bb_pk =
      Function.update p.bb_pk (pkF (pcKind pc))
        ((p.bb_pk (pkF (pcKind pc))).bxor (Bitboard.ofSquare sq)) := rfl

theorem remove_piece_board (p : Position) (sq : Square) :
    (p.remove_piece sq).board = Function.update p.board sq NO_PIECE := rfl

theorem remove_piece_ranged (p : Position) (sq : Square) :
    (p.remove_piece sq).ranged_effects = p.ranged_effects := rfl

theorem remove_piece_counts (p : Position) (sq : Square) :
    (p.remove_piece sq).effect_counts = p.effect_counts := rfl

theorem remove_piece_side (p : Position) (sq : Square) :
    (p.remove_piece sq).side_to_move = p.side_to_move := rfl

theorem remove_piece_hands (p : Position) (sq : Square) :
    (p.remove_piece sq).hands = p.hands := rfl

theorem remove_piece_ply (p : Position) (sq : Square) :
    (p.remove_piece sq).ply = p.ply := rfl

theorem remove_piece_king (p : Position) (sq : Square) :
    (p.remove_piece sq).king_sq = p.king_sq := rfl

theorem remove_piece_cnk (p : Position) (sq : Square) :
    (p.remove_piece sq).com_nonking_count = p.com_nonking_count := rfl

theorem remove_piece_occ (p : Position) (sq : Square) :
    (p.remove_piece sq).bb_occ = p.bb_occ.bxor (Bitboard.ofSquare sq) := rfl

theorem remove_piece_occ_side (p : Position) (sq : Square) :
    (p.remove_piece sq).bb_occ_side =
      p.bb_occ_side.set (pcSide (p.board sq))
        ((p.bb_occ_side.get (pcSide (p.board sq))).bxor (Bitboard.ofSquare sq)) := rfl

theorem remove_piece_pk (p : Position) (sq : Square) :
    (p.remove_piece sq).bb_pk =
      Function.update p.bb_pk (pkF (pcKind (p.board sq)))
        ((p.bb_pk (pkF (pcKind (p.board sq)))).bxor (Bitboard.ofSquare sq)) := rfl

theorem applyER_counts_hum (p : Position) (δ : ERDelta) :
    (p.applyER δ).effect_counts.hum =
      fun q => Position.wadd8 (p.effect_counts.hum q) (δ.de HUM q) := rfl

theorem applyER_counts_com (p : Position) (δ : ERDelta) :
    (p.applyER δ).effect_counts.com =
      fun q => Position.wadd8 (p.effect_counts.com q) (δ.de COM q) := rfl

theorem applyER_ranged_fun (p : Position) (δ : ERDelta) :
    (p.applyER δ).ranged_effects =
      fun q => p.ranged_effects q ^^^ δ.dr q := rfl

/-- Round trip of a drop move: `do_move` then `undo_move` restores the
position exactly, given that the target square was empty and the hand held
the piece. -/
theorem roundtrip_drop (p : Position) (pk : Nat) (dst : Square)
    (h1 : p.board dst = NO_PIECE)
    (h2 : 0 < p.hands.get p.side_to_move (hndF pk)) :
    ((p.do_move (Move.drop pk dst)).2).undo_move (p.do_move (Move.drop pk dst)).1 = p := by
  have hboard : Function.update
      (Function.update p.board dst (pcNew p.side_to_move pk)) dst NO_PIECE =
      p.board := by
    rw [Function.update_idem, ← h1, Function.update_eq_self]
  have hcongr : ∀ d1 d2 : Nat,
      uerDelta p.board p.side_to_move p.side_to_move.inv dst d1 d2 false =
      uerDelta (Function.update p.board dst (pcNew p.side_to_move pk))
        p.side_to_move p.side_to_move.inv dst d1 d2 false := by
    intro d1 d2
    apply uerDelta_congr
    intro q hq
    exact (Function.update_noteq hq _ _).symm
  simp only [Position.do_move, Position.do_move_drop, Position.undo_move,
    Position.undo_move_drop, update_effect_by_drop_eq, revert_effect_by_drop_eq]
  simp only [put_piece_board, put_piece_ranged, put_piece_counts, put_piece_side,
    put_piece_hands, put_piece_ply, put_piece_king, put_piece_cnk, put_piece_occ,
    put_piece_occ_side, put_piece_pk, applyER_board, applyER_side, applyER_ranged,
    applyER_hands, applyER_ply, applyER_king, applyER_cnk, applyER_occ,
    applyER_occ_side, applyER_pk, remove_piece_board, remove_piece_ranged,
    remove_piece_counts, remove_piece_side, remove_piece_hands, remove_piece_ply,
    remove_piece_king, remove_piece_cnk, remove_piece_occ, remove_piece_occ_side,
    remove_piece_pk]
  simp only [Side.inv_inv, ERDelta.add_dr, melDelta_dr, shadowDelta_dr,
    uerDelta_dr_self, Nat.xor_zero, Nat.zero_xor, hboard]
  rw [Function.update_same dst (pcNew p.side_to_move pk) p.board]
  simp only [hcongr]
  have hh : p.hands.get p.side_to_move (hndF pk) - 1 + 1 =
      p.hands.get p.side_to_move (hndF pk) := by omega
  simp only [SidePair.get_set_same, Function.update_same, Bitboard.bxor_bxor,
    SidePair.set_set_same, Function.update_idem, Nat.add_sub_cancel, hh,
    Function.update_eq_self, SidePair.set_get]
  apply Position.extParts <;> try rfl
  · -- hum effect counts
    simp only [applyER_counts_hum, put_piece_counts]
    funext q
    rw [wadd8_wadd8]
    have hsum :
        ((((melDelta p.side_to_move (bbs.effect_melee (pcNew p.side_to_move pk) dst) 1).add
          (shadowDelta p.side_to_move dst
            (dirsFromPieceSupported (pcNew p.side_to_move pk) &&&
              dspGet (p.ranged_effects dst) p.side_to_move) 1)).add
          (uerDelta (Function.update p.board dst (pcNew p.side_to_move pk))
            p.side_to_move p.side_to_move.inv dst
            (dspFromPieceRanged (pcNew p.side_to_move pk)) (p.ranged_effects dst) true)).de HUM q) +
        ((((melDelta p.side_to_move (bbs.effect_melee (pcNew p.side_to_move pk) dst) (-1)).add
          (uerDelta (Function.update p.board dst (pcNew p.side_to_move pk))
            p.side_to_move p.side_to_move.inv dst
            (dspFromPieceRanged (pcNew p.side_to_move pk)) (p.ranged_effects dst) false)).add
          (shadowDelta p.side_to_move dst
            (dirsFromPieceSupported (pcNew p.side_to_move pk) &&&
              dspGet (p.ranged_effects dst) p.side_to_move) (-1))).de HUM q) = 0 := by
      rw [melDelta_neg, shadowDelta_neg, uerDelta_neg]
      simp only [ERDelta.add_de, ERDelta.neg_de]
      omega
    rw [hsum, wadd8_zero]
  · -- com effect counts
    simp only [applyER_counts_com, put_piece_counts]
    funext q
    rw [wadd8_wadd8]
    have hsum :
        ((((melDelta p.side_to_move (bbs.effect_melee (pcNew p.side_to_move pk) dst) 1).add
          (shadowDelta p.side_to_move dst
            (dirsFromPieceSupported (pcNew p.side_to_move pk) &&&
              dspGet (p.ranged_effects dst) p.side_to_move) 1)).add
          (uerDelta (Function.update p.board dst (pcNew p.side_to_move pk))
            p.side_to_move p.side_to_move.inv dst
            (dspFromPieceRanged (pcNew p.side_to_move pk)) (p.ranged_effects dst) true)).de COM q) +
        ((((melDelta p.side_to_move (bbs.effect_melee (pcNew p.side_to_move pk) dst) (-1)).add
          (uerDelta (Function.update p.board dst (pcNew p.side_to_move pk))
            p.side_to_move p.side_to_move.inv dst
            (dspFromPieceRanged (pcNew p.side_to_move pk)) (p.ranged_effects dst) false)).add
          (shadowDelta p.side_to_move dst
            (dirsFromPieceSupported (pcNew p.side_to_move pk) &&&
              dspGet (p.ranged_effects dst) p.side_to_move) (-1))).de COM q) = 0 := by
      rw [melDelta_neg, shadowDelta_neg, uerDelta_neg]
      simp only [ERDelta.add_de, ERDelta.neg_de]
      omega
    rw [hsum, wadd8_zero]
  · -- ranged effects
    simp only [applyER_ranged_fun, put_piece_ranged]
    funext q
    rw [uerDelta_neg]
    simp only [ERDelta.add_dr, ERDelta.neg_dr, melDelta_dr, shadowDelta_dr,
      Nat.xor_zero, Nat.zero_xor, Nat.xor_assoc, Nat.xor_self]

theorem wadd8_eq_self (x : Fin 256) (d : Int) (h : d = 0) :
    Position.wadd8 x d = x := by rw [h, wadd8_zero]

theorem xor_eq_self (x m : Nat) (h : m = 0) : x ^^^ m = x := by
  rw [h, Nat.xor_zero]

theorem xorCancelLeft (x y : Nat) : x ^^^ (x ^^^ y) = y := by
  rw [← Nat.xor_assoc, Nat.xor_self, Nat.zero_xor]

theorem walkMelee_eq (p : Position) (us : Side) (src dst : Square)
    (pc_src pc_dst : Nat) (d : Int) :
    p.walkMelee us src dst pc_src pc_dst d =
      p.applyER
        ((melDelta us
            ((bbs.effect_melee pc_src src).bxor
              ((bbs.effect_melee pc_src src).band (bbs.effect_melee pc_dst dst))) (-d)).add
          (melDelta us
            ((bbs.effect_melee pc_dst dst).bxor
              ((bbs.effect_melee pc_src src).band (bbs.effect_melee pc_dst dst))) d)) := by
  unfold Position.walkMelee
  simp only [addMelee_eq, applyER_applyER]

theorem update_effect_by_noncapture_eq (p : Position) (src dst : Square)
    (pc_src pc_dst : Nat) :
    p.update_effect_by_noncapture src dst pc_src pc_dst =
      p.applyER
        ((((((melDelta p.side_to_move
              ((bbs.effect_melee pc_src src).bxor
                ((bbs.effect_melee pc_src src).band (bbs.effect_melee pc_dst dst))) (-1)).add
            (melDelta p.side_to_move
              ((bbs.effect_melee pc_dst dst).bxor
                ((bbs.effect_melee pc_src src).band (bbs.effect_melee pc_dst dst))) 1)).add
          (shadowDelta p.side_to_move src
            (dirsFromPieceSupported pc_src &&&
              dspGet (p.ranged_effects src) p.side_to_move) (-1))).add
          (uerDelta p.board p.side_to_move p.side_to_move.inv src
            (dspFromPieceRanged pc_src &&& Position.originDspMask src dst)
            (p.ranged_effects src &&& Position.originDspMask src dst) false)).add
          (shadowDelta p.side_to_move dst
            (dirsFromPieceSupported pc_dst &&&
              dspGet (p.ranged_effects dst ^^^
                (uerDelta p.board p.side_to_move p.side_to_move.inv src
                  (dspFromPieceRanged pc_src &&& Position.originDspMask src dst)
                  (p.ranged_effects src &&& Position.originDspMask src dst) false).dr dst)
                p.side_to_move) 1)).add
          (uerDelta (Function.update p.board src H_KNIGHT) p.side_to_move
            p.side_to_move.inv dst (dspFromPieceRanged pc_dst)
            (p.ranged_effects dst ^^^
              (uerDelta p.board p.side_to_move p.side_to_move.inv src
                (dspFromPieceRanged pc_src &&& Position.originDspMask src dst)
                (p.ranged_effects src &&& Position.originDspMask src dst) false).dr dst) true)) := by
  have hb1 : Function.update (Function.update p.board src H_KNIGHT) src
      (p.board src) = p.board := by
    rw [Function.update_idem, Function.update_eq_self]
  unfold Position.update_effect_by_noncapture
  simp only [walkMelee_eq, addShadow_eq, update_effect_ranged_eq, applyER_applyER,
    applyER_board, applyER_side, applyER_ranged, ERDelta.add_dr, melDelta_dr,
    shadowDelta_dr, Nat.xor_zero, Nat.zero_xor]
  apply Position.extParts
  case h7 => exact hb1
  all_goals try rfl
  all_goals
    funext q
    simp only [applyER_counts_hum, applyER_counts_com, applyER_ranged_fun,
      wadd8_wadd8, ERDelta.add_de, ERDelta.add_dr]
  all_goals first | rfl | simp only [Nat.xor_assoc]

theorem revert_effect_by_noncapture_eq (p : Position) (src dst : Square)
    (pc_src pc_dst : Nat) :
    p.revert_effect_by_noncapture src dst pc_src pc_dst =
      p.applyER
        ((((((melDelta p.side_to_move
              ((bbs.effect_melee pc_src src).bxor
                ((bbs.effect_melee pc_src src).band (bbs.effect_melee pc_dst dst))) 1).add
            (melDelta p.side_to_move
              ((bbs.effect_melee pc_dst dst).bxor
                ((bbs.effect_melee pc_src src).band (bbs.effect_melee pc_dst dst))) (-1))).add
          (uerDelta (Function.update p.board src H_KNIGHT) p.side_to_move
            p.side_to_move.inv dst (dspFromPieceRanged pc_dst)
            (p.ranged_effects dst) false)).add
          (shadowDelta p.side_to_move dst
            (dirsFromPieceSupported pc_dst &&&
              dspGet (p.ranged_effects dst ^^^
                (uerDelta (Function.update p.board src H_KNIGHT) p.side_to_move
                  p.side_to_move.inv dst (dspFromPieceRanged pc_dst)
                  (p.ranged_effects dst) false).dr dst)
                p.side_to_move) (-1))).add
          (uerDelta p.board p.side_to_move p.side_to_move.inv src
            (dspFromPieceRanged pc_src &&& Position.originDspMask src dst)
            ((p.ranged_effects src ^^^
              (uerDelta (Function.update p.board src H_KNIGHT) p.side_to_move
                p.side_to_move.inv dst (dspFromPieceRanged pc_dst)
                (p.ranged_effects dst) false).dr src) &&&
              Position.originDspMask src dst) true)).add
          (shadowDelta p.side_to_move src
            (dirsFromPieceSupported pc_src &&&
              dspGet (p.ranged_effects src ^^^
                ((uerDelta (Function.update p.board src H_KNIGHT) p.side_to_move
                  p.side_to_move.inv dst (dspFromPieceRanged pc_dst)
                  (p.ranged_effects dst) false).dr src ^^^
                (uerDelta p.board p.side_to_move p.side_to_move.inv src
                  (dspFromPieceRanged pc_src &&& Position.originDspMask src dst)
                  ((p.ranged_effects src ^^^
                    (uerDelta (Function.update p.board src H_KNIGHT) p.side_to_move
                      p.side_to_move.inv dst (dspFromPieceRanged pc_dst)
                      (p.ranged_effects dst) false).dr src) &&&
                    Position.originDspMask src dst) true).dr src))
                p.side_to_move) 1)) := by
  have hb1 : Function.update (Function.update p.board src H_KNIGHT) src
      (p.board src) = p.board := by
    rw [Function.update_idem, Function.update_eq_self]
  unfold Position.revert_effect_by_noncapture
  simp only [walkMelee_eq, addShadow_eq, update_effect_ranged_eq, applyER_applyER,
    applyER_board, applyER_side, applyER_ranged, ERDelta.add_dr, melDelta_dr,
    shadowDelta_dr, Nat.xor_zero, Nat.zero_xor, neg_neg, hb1, Nat.xor_assoc]
  apply Position.extParts
  all_goals try rfl
  all_goals
    funext q
    simp only [applyER_counts_hum, applyER_counts_com, applyER_ranged_fun,
      wadd8_wadd8, ERDelta.add_de, ERDelta.add_dr]
  all_goals first | rfl | (apply congrArg; omega) | simp only [Nat.xor_assoc]

theorem update_effect_by_capture_eq (p : Position) (src dst : Square)
    (pc_src pc_dst pc_captured : Nat) :
    p.update_effect_by_capture src dst pc_src pc_dst pc_captured =
      p.applyER
        ((((((((melDelta p.side_to_move
              ((bbs.effect_melee pc_src src).bxor
                ((bbs.effect_melee pc_src src).band (bbs.effect_melee pc_dst dst))) (-1)).add
            (melDelta p.side_to_move
              ((bbs.effect_melee pc_dst dst).bxor
                ((bbs.effect_melee pc_src src).band (bbs.effect_melee pc_dst dst))) 1)).add
          (melDelta p.side_to_move.inv (bbs.effect_melee pc_captured dst) (-1))).add
          (shadowDelta p.side_to_move src
            (dirsFromPieceSupported pc_src &&&
              dspGet (p.ranged_effects src) p.side_to_move) (-1))).add
          (shadowDelta p.side_to_move.inv dst
            (dirsFromPieceSupported pc_captured &&&
              dspGet (p.ranged_effects dst) p.side_to_move.inv) (-1))).add
          (uerDelta (Function.update p.board dst H_KNIGHT) p.side_to_move
            p.side_to_move.inv src
            (dspFromPieceRanged pc_src &&& Position.originDspMask src dst)
            (p.ranged_effects src &&& Position.originDspMask src dst) false)).add
          (shadowDelta p.side_to_move dst
            (dirsFromPieceSupported pc_dst &&&
              dspGet (p.ranged_effects dst ^^^
                (uerDelta (Function.update p.board dst H_KNIGHT) p.side_to_move
                  p.side_to_move.inv src
                  (dspFromPieceRanged pc_src &&& Position.originDspMask src dst)
                  (p.ranged_effects src &&& Position.originDspMask src dst) false).dr dst)
                p.side_to_move) 1)).add
          (uerDelta (Function.update p.board src H_KNIGHT) p.side_to_move
            p.side_to_move.inv dst (dspFromPieceRanged pc_dst)
            (dspFromPieceRanged pc_captured) true)) := by
  have hbA : Function.update (Function.update p.board dst H_KNIGHT) dst
      (p.board dst) = p.board := by
    rw [Function.update_idem, Function.update_eq_self]
  have hbB : Function.update (Function.update p.board src H_KNIGHT) src
      (p.board src) = p.board := by
    rw [Function.update_idem, Function.update_eq_self]
  unfold Position.update_effect_by_capture
  simp only [walkMelee_eq, addMelee_eq, addShadow_eq, update_effect_ranged_eq,
    applyER_applyER, applyER_board, applyER_side, applyER_ranged, ERDelta.add_dr,
    melDelta_dr, shadowDelta_dr, Nat.xor_zero, Nat.zero_xor, hbA, hbB,
    Nat.xor_assoc]
  apply Position.extParts
  case h4 =>
    funext q
    simp only [applyER_counts_hum, wadd8_wadd8, ERDelta.add_de]
    try (apply congrArg; omega)
  case h5 =>
    funext q
    simp only [applyER_counts_com, wadd8_wadd8, ERDelta.add_de]
    try (apply congrArg; omega)
  case h6 =>
    funext q
    simp only [applyER_ranged_fun, ERDelta.add_dr]
    try simp only [Nat.xor_assoc]
  all_goals rfl

set_option maxHeartbeats 1600000 in
theorem revert_effect_by_capture_eq (p : Position) (src dst : Square)
    (pc_src pc_dst pc_captured : Nat) :
    p.revert_effect_by_capture src dst pc_src pc_dst pc_captured =
      p.applyER
        ((((((((melDelta p.side_to_move
              ((bbs.effect_melee pc_src src).bxor
                ((bbs.effect_melee pc_src src).band (bbs.effect_melee pc_dst dst))) 1).add
            (melDelta p.side_to_move
              ((bbs.effect_melee pc_dst dst).bxor
                ((bbs.effect_melee pc_src src).band (bbs.effect_melee pc_dst dst))) (-1))).add
          (melDelta p.side_to_move.inv (bbs.effect_melee pc_captured dst) 1)).add
          (uerDelta (Function.update p.board src H_KNIGHT) p.side_to_move
            p.side_to_move.inv dst (dspFromPieceRanged pc_dst)
            (dspFromPieceRanged pc_captured) false)).add
          (shadowDelta p.side_to_move dst
            (dirsFromPieceSupported pc_dst &&&
              dspGet (p.ranged_effects dst ^^^
                (uerDelta (Function.update p.board src H_KNIGHT) p.side_to_move
                  p.side_to_move.inv dst (dspFromPieceRanged pc_dst)
                  (dspFromPieceRanged pc_captured) false).dr dst)
                p.side_to_move) (-1))).add
          (uerDelta (Function.update p.board dst H_KNIGHT) p.side_to_move
            p.side_to_move.inv src
            (dspFromPieceRanged pc_src &&& Position.originDspMask src dst)
            ((p.ranged_effects src ^^^
              (uerDelta (Function.update p.board src H_KNIGHT) p.side_to_move
                p.side_to_move.inv dst (dspFromPieceRanged pc_dst)
                (dspFromPieceRanged pc_captured) false).dr src) &&&
              Position.originDspMask src dst) true)).add
          (shadowDelta p.side_to_move src
            (dirsFromPieceSupported pc_src &&&
              dspGet (p.ranged_effects src ^^^
                ((uerDelta (Function.update p.board src H_KNIGHT) p.side_to_move
                  p.side_to_move.inv dst (dspFromPieceRanged pc_dst)
                  (dspFromPieceRanged pc_captured) false).dr src ^^^
                (uerDelta (Function.update p.board dst H_KNIGHT) p.side_to_move
                  p.side_to_move.inv src
                  (dspFromPieceRanged pc_src &&& Position.originDspMask src dst)
                  ((p.ranged_effects src ^^^
                    (uerDelta (Function.update p.board src H_KNIGHT) p.side_to_move
                      p.side_to_move.inv dst (dspFromPieceRanged pc_dst)
                      (dspFromPieceRanged pc_captured) false).dr src) &&&
                    Position.originDspMask src dst) true).dr src))
                p.side_to_move) 1)).add
          (shadowDelta p.side_to_move.inv dst
            (dirsFromPieceSupported pc_captured &&&
              dspGet (p.ranged_effects dst ^^^
                ((uerDelta (Function.update p.board src H_KNIGHT) p.side_to_move
                  p.side_to_move.inv dst (dspFromPieceRanged pc_dst)
                  (dspFromPieceRanged pc_captured) false).dr dst ^^^
                (uerDelta (Function.update p.board dst H_KNIGHT) p.side_to_move
                  p.side_to_move.inv src
                  (dspFromPieceRanged pc_src &&& Position.originDspMask src dst)
                  ((p.ranged_effects src ^^^
                    (uerDelta (Function.update p.board src H_KNIGHT) p.side_to_move
                      p.side_to_move.inv dst (dspFromPieceRanged pc_dst)
                      (dspFromPieceRanged pc_captured) false).dr src) &&&
                    Position.originDspMask src dst) true).dr dst))
                p.side_to_move.inv) 1)) := by
  have hbA : Function.update (Function.update p.board dst H_KNIGHT) dst
      (p.board dst) = p.board := by
    rw [Function.update_idem, Function.update_eq_self]
  have hbB : Function.update (Function.update p.board src H_KNIGHT) src
      (p.board src) = p.board := by
    rw [Function.update_idem, Function.update_eq_self]
  unfold Position.revert_effect_by_capture
  simp only [walkMelee_eq, addMelee_eq, addShadow_eq, update_effect_ranged_eq,
    applyER_applyER, applyER_board, applyER_side, applyER_ranged, ERDelta.add_dr,
    melDelta_dr, shadowDelta_dr, Nat.xor_zero, Nat.zero_xor, neg_neg, hbA, hbB,
    Nat.xor_assoc]
  apply Position.extParts
  case h4 =>
    funext q
    simp only [applyER_counts_hum, wadd8_wadd8, ERDelta.add_de]
    try (apply congrArg; omega)
  case h5 =>
    funext q
    simp only [applyER_counts_com, wadd8_wadd8, ERDelta.add_de]
    try (apply congrArg; omega)
  case h6 =>
    funext q
    simp only [applyER_ranged_fun, ERDelta.add_dr]
    try simp only [Nat.xor_assoc]
  all_goals rfl

/-- Round trip of a non-capturing walk move: `do_move` then `undo_move`
restores the position exactly, given that the destination was empty, source
and destination differ, and (if the moving piece is the king) the recorded
king square agrees with the source. -/
theorem roundtrip_noncapture (p : Position) (src dst : Square) (promo : Bool)
    (hcap : p.board dst = NO_PIECE) (hsd : src ≠ dst)
    (hking : pcKind (p.board src) = KING → p.king_sq.get p.side_to_move = src) :
    ((p.do_move (Move.walk src dst promo)).2).undo_move
      (p.do_move (Move.walk src dst promo)).1 = p := by
  have hrd : Function.update (Function.update p.board src NO_PIECE) dst
      (if promo then pcToPromoted (p.board src) else p.board src) dst =
      (if promo then pcToPromoted (p.board src) else p.board src) :=
    Function.update_same _ _ _
  have hq2board : Function.update (Function.update (Function.update
      (Function.update p.board src NO_PIECE) dst
        (if promo then pcToPromoted (p.board src) else p.board src)) dst NO_PIECE)
      src (p.board src) = p.board := by
    funext q
    by_cases h1 : q = src
    · subst h1; rw [Function.update_same]
    · rw [Function.update_noteq h1]
      by_cases h2 : q = dst
      · subst h2
        rw [Function.update_same]
        exact hcap.symm
      · rw [Function.update_noteq h2, Function.update_noteq h2,
          Function.update_noteq h1]
  by_cases hk : pcKind (p.board src) = KING
  · have hkrest : (p.king_sq.set p.side_to_move dst).set p.side_to_move src =
        p.king_sq := by
      rw [SidePair.set_set_same, ← hking hk, SidePair.set_get]
    simp only [Position.do_move, Position.do_move_walk, Position.undo_move,
      Position.undo_move_walk, if_pos hcap, if_pos hk,
      update_effect_by_noncapture_eq, revert_effect_by_noncapture_eq]
    simp only [put_piece_board, put_piece_ranged, put_piece_counts, put_piece_side,
      put_piece_hands, put_piece_ply, put_piece_king, put_piece_cnk, put_piece_occ,
      put_piece_occ_side, put_piece_pk, applyER_board, applyER_side, applyER_ranged,
      applyER_hands, applyER_ply, applyER_king, applyER_cnk, applyER_occ,
      applyER_occ_side, applyER_pk, remove_piece_board, remove_piece_ranged,
      remove_piece_counts, remove_piece_side, remove_piece_hands, remove_piece_ply,
      remove_piece_king, remove_piece_cnk, remove_piece_occ, remove_piece_occ_side,
      remove_piece_pk]
    simp only [Side.inv_inv, hq2board]
    rw [hrd]
    simp only [SidePair.get_set_same, Function.update_same, Bitboard.bxor_bxor,
      SidePair.set_set_same, Function.update_idem, Nat.add_sub_cancel,
      Function.update_eq_self, SidePair.set_get, hkrest]
    apply Position.extParts
    case pos.h4 =>
      simp only [applyER_counts_hum, put_piece_counts, remove_piece_counts]
      funext q
      simp only [wadd8_wadd8, ERDelta.add_de, ERDelta.add_dr, melDelta_dr,
        shadowDelta_dr, uerDelta_dr_self, Nat.xor_zero, Nat.zero_xor]
      simp only [melDelta_neg, shadowDelta_neg, uerDelta_neg, ERDelta.neg_de,
        ERDelta.neg_dr]
      simp only [Nat.xor_assoc, xorCancelLeft, Nat.xor_self, Nat.xor_zero]
      apply wadd8_eq_self
      omega
    case pos.h5 =>
      simp only [applyER_counts_com, put_piece_counts, remove_piece_counts]
      funext q
      simp only [wadd8_wadd8, ERDelta.add_de, ERDelta.add_dr, melDelta_dr,
        shadowDelta_dr, uerDelta_dr_self, Nat.xor_zero, Nat.zero_xor]
      simp only [melDelta_neg, shadowDelta_neg, uerDelta_neg, ERDelta.neg_de,
        ERDelta.neg_dr]
      simp only [Nat.xor_assoc, xorCancelLeft, Nat.xor_self, Nat.xor_zero]
      apply wadd8_eq_self
      omega
    case pos.h6 =>
      simp only [applyER_ranged_fun, put_piece_ranged, remove_piece_ranged]
      funext q
      simp only [ERDelta.add_dr, melDelta_dr, shadowDelta_dr, uerDelta_dr_self,
        Nat.xor_zero, Nat.zero_xor]
      simp only [uerDelta_neg, ERDelta.neg_dr]
      simp only [Nat.xor_assoc, xorCancelLeft, Nat.xor_self, Nat.xor_zero]
    all_goals rfl
  · simp only [Position.do_move, Position.do_move_walk, Position.undo_move,
      Position.undo_move_walk, if_pos hcap, if_neg hk,
      update_effect_by_noncapture_eq, revert_effect_by_noncapture_eq]
    simp only [put_piece_board, put_piece_ranged, put_piece_counts, put_piece_side,
      put_piece_hands, put_piece_ply, put_piece_king, put_piece_cnk, put_piece_occ,
      put_piece_occ_side, put_piece_pk, applyER_board, applyER_side, applyER_ranged,
      applyER_hands, applyER_ply, applyER_king, applyER_cnk, applyER_occ,
      applyER_occ_side, applyER_pk, remove_piece_board, remove_piece_ranged,
      remove_piece_counts, remove_piece_side, remove_piece_hands, remove_piece_ply,
      remove_piece_king, remove_piece_cnk, remove_piece_occ, remove_piece_occ_side,
      remove_piece_pk]
    simp only [Side.inv_inv, hq2board]
    apply Position.extParts
    case neg.h1 =>
      simp only [applyER_occ, put_piece_occ, remove_piece_occ, Bitboard.bxor_bxor]
    case neg.h2 =>
      simp only [applyER_occ_side, put_piece_occ_side, remove_piece_occ_side,
        applyER_board, put_piece_board, remove_piece_board]
      rw [hrd]
      simp only [SidePair.get_set_same, SidePair.set_set_same, SidePair.set_get,
        Bitboard.bxor_bxor]
    case neg.h3 =>
      simp only [applyER_pk, put_piece_pk, remove_piece_pk,
        applyER_board, put_piece_board, remove_piece_board]
      rw [hrd]
      simp only [Function.update_same, Function.update_idem, Function.update_eq_self,
        Bitboard.bxor_bxor]
    case neg.h4 =>
      simp only [applyER_counts_hum, put_piece_counts, remove_piece_counts]
      funext q
      simp only [wadd8_wadd8, ERDelta.add_de, ERDelta.add_dr, melDelta_dr,
        shadowDelta_dr, uerDelta_dr_self, Nat.xor_zero, Nat.zero_xor]
      simp only [melDelta_neg, shadowDelta_neg, uerDelta_neg, ERDelta.neg_de,
        ERDelta.neg_dr]
      simp only [Nat.xor_assoc, xorCancelLeft, Nat.xor_self, Nat.xor_zero]
      apply wadd8_eq_self
      omega
    case neg.h5 =>
      simp only [applyER_counts_com, put_piece_counts, remove_piece_counts]
      funext q
      simp only [wadd8_wadd8, ERDelta.add_de, ERDelta.add_dr, melDelta_dr,
        shadowDelta_dr, uerDelta_dr_self, Nat.xor_zero, Nat.zero_xor]
      simp only [melDelta_neg, shadowDelta_neg, uerDelta_neg, ERDelta.neg_de,
        ERDelta.neg_dr]
      simp only [Nat.xor_assoc, xorCancelLeft, Nat.xor_self, Nat.xor_zero]
      apply wadd8_eq_self
      omega
    case neg.h6 =>
      simp only [applyER_ranged_fun, put_piece_ranged, remove_piece_ranged]
      funext q
      simp only [ERDelta.add_dr, melDelta_dr, shadowDelta_dr, uerDelta_dr_self,
        Nat.xor_zero, Nat.zero_xor]
      simp only [uerDelta_neg, ERDelta.neg_dr]
      simp only [Nat.xor_assoc, xorCancelLeft, Nat.xor_self, Nat.xor_zero]
    case neg.h7 =>
      simp only [applyER_board, put_piece_board, remove_piece_board]
      exact hq2board
    case neg.h10 =>
      simp only [applyER_ply, put_piece_ply, remove_piece_ply, Nat.add_sub_cancel]
    all_goals rfl

set_option maxHeartbeats 1600000 in
/-- Round trip of a capturing walk move: `do_move` then `undo_move` restores
the position exactly, given that the destination was occupied, source and
destination differ, (if the moving piece is the king) the recorded king
square agrees with the source, and (if HUM is to move) the COM non-king
count is positive. -/
theorem roundtrip_capture (p : Position) (src dst : Square) (promo : Bool)
    (hcap : ¬(p.board dst = NO_PIECE)) (hsd : src ≠ dst)
    (hking : pcKind (p.board src) = KING → p.king_sq.get p.side_to_move = src)
    (hcnk : p.side_to_move = HUM → 0 < p.com_nonking_count) :
    ((p.do_move (Move.walk src dst promo)).2).undo_move
      (p.do_move (Move.walk src dst promo)).1 = p := by
  have hbs : Function.update p.board dst NO_PIECE src = p.board src :=
    Function.update_noteq hsd _ _
  have hrdD : Function.update (Function.update (Function.update p.board dst
      NO_PIECE) src NO_PIECE) dst
      (if promo then pcToPromoted (p.board src) else p.board src) dst =
      (if promo then pcToPromoted (p.board src) else p.board src) :=
    Function.update_same _ _ _
  have hq3board : Function.update (Function.update (Function.update
      (Function.update (Function.update (Function.update p.board dst NO_PIECE)
        src NO_PIECE) dst
        (if promo then pcToPromoted (p.board src) else p.board src)) dst NO_PIECE)
      src (p.board src)) dst (p.board dst) = p.board := by
    funext q
    by_cases h2 : q = dst
    · subst h2; rw [Function.update_same]
    · rw [Function.update_noteq h2]
      by_cases h1 : q = src
      · subst h1; rw [Function.update_same]
      · rw [Function.update_noteq h1, Function.update_noteq h2,
          Function.update_noteq h2, Function.update_noteq h1,
          Function.update_noteq h2]
  have hcnkrt : (if p.side_to_move = HUM then
      (if p.side_to_move = HUM then p.com_nonking_count - 1
       else p.com_nonking_count + 1) + 1
    else
      (if p.side_to_move = HUM then p.com_nonking_count - 1
       else p.com_nonking_count + 1) - 1) = p.com_nonking_count := by
    by_cases hus : p.side_to_move = HUM
    · simp only [if_pos hus]
      have := hcnk hus
      omega
    · simp only [if_neg hus]
      omega
  by_cases hk : pcKind (p.board src) = KING
  · have hkrest : (p.king_sq.set p.side_to_move dst).set p.side_to_move src =
        p.king_sq := by
      rw [SidePair.set_set_same, ← hking hk, SidePair.set_get]
    simp only [Position.do_move, Position.do_move_walk, Position.undo_move,
      Position.undo_move_walk, if_neg hcap, if_pos hk,
      update_effect_by_capture_eq, revert_effect_by_capture_eq]
    simp only [put_piece_board, put_piece_ranged, put_piece_counts, put_piece_side,
      put_piece_hands, put_piece_ply, put_piece_king, put_piece_cnk, put_piece_occ,
      put_piece_occ_side, put_piece_pk, applyER_board, applyER_side, applyER_ranged,
      applyER_hands, applyER_ply, applyER_king, applyER_cnk, applyER_occ,
      applyER_occ_side, applyER_pk, remove_piece_board, remove_piece_ranged,
      remove_piece_counts, remove_piece_side, remove_piece_hands, remove_piece_ply,
      remove_piece_king, remove_piece_cnk, remove_piece_occ, remove_piece_occ_side,
      remove_piece_pk]
    simp only [Side.inv_inv, hq3board]
    rw [hbs, hrdD, hcnkrt]
    simp only [SidePair.get_set_same, Function.update_same, Bitboard.bxor_bxor,
      SidePair.set_set_same, Function.update_idem, Nat.add_sub_cancel,
      Function.update_eq_self, SidePair.set_get, hkrest]
    apply Position.extParts
    case pos.h4 =>
      simp only [applyER_counts_hum, put_piece_counts, remove_piece_counts]
      funext q
      simp only [wadd8_wadd8, ERDelta.add_de, ERDelta.add_dr, melDelta_dr,
        shadowDelta_dr, uerDelta_dr_self, Nat.xor_zero, Nat.zero_xor]
      simp only [melDelta_neg, shadowDelta_neg, uerDelta_neg, ERDelta.neg_de,
        ERDelta.neg_dr]
      simp only [Nat.xor_assoc, xorCancelLeft, Nat.xor_self, Nat.xor_zero]
      apply wadd8_eq_self
      omega
    case pos.h5 =>
      simp only [applyER_counts_com, put_piece_counts, remove_piece_counts]
      funext q
      simp only [wadd8_wadd8, ERDelta.add_de, ERDelta.add_dr, melDelta_dr,
        shadowDelta_dr, uerDelta_dr_self, Nat.xor_zero, Nat.zero_xor]
      simp only [melDelta_neg, shadowDelta_neg, uerDelta_neg, ERDelta.neg_de,
        ERDelta.neg_dr]
      simp only [Nat.xor_assoc, xorCancelLeft, Nat.xor_self, Nat.xor_zero]
      apply wadd8_eq_self
      omega
    case pos.h6 =>
      simp only [applyER_ranged_fun, put_piece_ranged, remove_piece_ranged]
      funext q
      simp only [ERDelta.add_dr, melDelta_dr, shadowDelta_dr, uerDelta_dr_self,
        Nat.xor_zero, Nat.zero_xor]
      simp only [uerDelta_neg, ERDelta.neg_dr]
      simp only [Nat.xor_assoc, xorCancelLeft, Nat.xor_self, Nat.xor_zero]
    all_goals rfl
  · simp only [Position.do_move, Position.do_move_walk, Position.undo_move,
      Position.undo_move_walk, if_neg hcap, if_neg hk,
      update_effect_by_capture_eq, revert_effect_by_capture_eq]
    simp only [put_piece_board, put_piece_ranged, put_piece_counts, put_piece_side,
      put_piece_hands, put_piece_ply, put_piece_king, put_piece_cnk, put_piece_occ,
      put_piece_occ_side, put_piece_pk, applyER_board, applyER_side, applyER_ranged,
      applyER_hands, applyER_ply, applyER_king, applyER_cnk, applyER_occ,
      applyER_occ_side, applyER_pk, remove_piece_board, remove_piece_ranged,
      remove_piece_counts, remove_piece_side, remove_piece_hands, remove_piece_ply,
      remove_piece_king, remove_piece_cnk, remove_piece_occ, remove_piece_occ_side,
      remove_piece_pk]
    simp only [Side.inv_inv, hq3board]
    rw [hbs, hrdD, hcnkrt]
    simp only [SidePair.get_set_same, Function.update_same, Bitboard.bxor_bxor,
      SidePair.set_set_same, Function.update_idem, Nat.add_sub_cancel,
      Function.update_eq_self, SidePair.set_get]
    apply Position.extParts
    case neg.h4 =>
      simp only [applyER_counts_hum, put_piece_counts, remove_piece_counts]
      funext q
      simp only [wadd8_wadd8, ERDelta.add_de, ERDelta.add_dr, melDelta_dr,
        shadowDelta_dr, uerDelta_dr_self, Nat.xor_zero, Nat.zero_xor]
      simp only [melDelta_neg, shadowDelta_neg, uerDelta_neg, ERDelta.neg_de,
        ERDelta.neg_dr]
      simp only [Nat.xor_assoc, xorCancelLeft, Nat.xor_self, Nat.xor_zero]
      apply wadd8_eq_self
      omega
    case neg.h5 =>
      simp only [applyER_counts_com, put_piece_counts, remove_piece_counts]
      funext q
      simp only [wadd8_wadd8, ERDelta.add_de, ERDelta.add_dr, melDelta_dr,
        shadowDelta_dr, uerDelta_dr_self, Nat.xor_zero, Nat.zero_xor]
      simp only [melDelta_neg, shadowDelta_neg, uerDelta_neg, ERDelta.neg_de,
        ERDelta.neg_dr]
      simp only [Nat.xor_assoc, xorCancelLeft, Nat.xor_self, Nat.xor_zero]
      apply wadd8_eq_self
      omega
    case neg.h6 =>
      simp only [applyER_ranged_fun, put_piece_ranged, remove_piece_ranged]
      funext q
      simp only [ERDelta.add_dr, melDelta_dr, shadowDelta_dr, uerDelta_dr_self,
        Nat.xor_zero, Nat.zero_xor]
      simp only [uerDelta_neg, ERDelta.neg_dr]
      simp only [Nat.xor_assoc, xorCancelLeft, Nat.xor_self, Nat.xor_zero]
    all_goals rfl

/-- Helper: `do_move` followed by `undo_move` restores the position, for any
move satisfying the `do_move` precondition. -/
theorem do_undo_roundtrip (p : Position) (mv : Move) (h : DoPre p mv) :
    ((p.do_move mv).2).undo_move (p.do_move mv).1 = p := by
  match mv with
  | Move.drop pk dst =>
    obtain ⟨h1, h2⟩ := h
    exact roundtrip_drop p pk dst h1 h2
  | Move.walk src dst promo =>
    obtain ⟨hsd, _, hking, hcnk⟩ := h
    by_cases hcap : p.board dst = NO_PIECE
    · exact roundtrip_noncapture p src dst promo hcap hsd hking
    · exact roundtrip_capture p src dst promo hcap hsd hking (hcnk hcap)

/-- C1: for every position and every pseudo-legal, non-king-capturing move
(captured by the `DoPre` precondition: a drop goes to an empty square with
the piece in hand; a walk has distinct source and destination, does not
capture a king, moves the king only from its recorded square, and a HUM
capture finds a positive COM non-king count), calling `do_move` and then
`undo_move` on the returned `UndoableMove` restores the `Position` to a
state identical to the pre-move state in every component. -/
theorem c1_do_move_undo_move_roundtrip (p : Position) (mv : Move)
    (h : DoPre p mv) :
    ((p.do_move mv).2).undo_move (p.do_move mv).1 = p :=
  do_undo_roundtrip p mv h

/-- Witness for C1 at a concrete position: HUM pawn walks 77 → 76 in a
three-piece position. -/
theorem c1_do_move_undo_move_roundtrip_witness :
    DoPre (Position.new HUM (boardFromList
        [(SQn 5 9, H_KING), (SQn 5 1, C_KING), (SQn 7 7, H_PAWN)])
        ⟨fun _ => 0, fun _ => 0⟩)
      (Move.walk (SQn 7 7) (SQn 7 6) false) ∧
    (((Position.new HUM (boardFromList
        [(SQn 5 9, H_KING), (SQn 5 1, C_KING), (SQn 7 7, H_PAWN)])
        ⟨fun _ => 0, fun _ => 0⟩).do_move
          (Move.walk (SQn 7 7) (SQn 7 6) false)).2).undo_move
      ((Position.new HUM (boardFromList
        [(SQn 5 9, H_KING), (SQn 5 1, C_KING), (SQn 7 7, H_PAWN)])
        ⟨fun _ => 0, fun _ => 0⟩).do_move
          (Move.walk (SQn 7 7) (SQn 7 6) false)).1 =
      Position.new HUM (boardFromList
        [(SQn 5 9, H_KING), (SQn 5 1, C_KING), (SQn 7 7, H_PAWN)])
        ⟨fun _ => 0, fun _ => 0⟩ :=
  ⟨by decide, c1_do_move_undo_move_roundtrip _ _ (by decide)⟩

/-- C4 (amended): on a successfully processed HUM move, `progress_ply`
becomes `min (old + 1) 100`; `progress_level` becomes 3 if the new counter
is at least 71, else `min (old + 1) 2` if it is at least 51 (so every ply
from 51 on bumps it, not only the ply that first reaches 51), else it is
unchanged.  In particular a counter of 70 with level 0 yields level 3, so
the level does not stay at most 1 for every counter strictly between
51 and 71. -/
theorem c4_progress_update (e : Engine) (mv : Move) :
    (do_move_hum e mv).1 = none ∨
      ((do_move_hum e mv).2.progress_ply = min (e.progress_ply + 1) 100 ∧
       (do_move_hum e mv).2.progress_level =
         (if 71 ≤ min (e.progress_ply + 1) 100 then 3
          else if 51 ≤ min (e.progress_ply + 1) 100 then
            min (e.progress_level + 1) 2
          else e.progress_level)) := by
  unfold do_move_hum increment_progress_ply
  by_cases hc : (e.pos.do_move mv).2.is_checked HUM = true
  · simp only [if_pos hc]
    exact Or.inl trivial
  · simp only [if_neg hc]
    right
    by_cases h51 : 51 ≤ min (e.progress_ply + 1) 100
    · simp only [if_pos h51]
      by_cases h71 : 71 ≤ min (e.progress_ply + 1) 100
      · simp only [if_pos h71]
        exact ⟨trivial, trivial⟩
      · simp only [if_neg h71]
        exact ⟨trivial, trivial⟩
    · simp only [if_neg h51]
      by_cases h71 : 71 ≤ min (e.progress_ply + 1) 100
      · omega
      · simp only [if_neg h71]
        exact ⟨trivial, trivial⟩

/-- C4 counterexample: with the progress counter at 70 — strictly between
51 and 71 — and progress level 0, one legal HUM pawn move (77 → 76) is
accepted and drives `progress_level` to 3, refuting "keeps progress_level
at most 1". -/
theorem c4_counterexample :
    ((do_move_hum (sampleEngine 70 0)
        (Move.walk (SQn 7 7) (SQn 7 6) false)).1 ≠ none) ∧
    (do_move_hum (sampleEngine 70 0)
        (Move.walk (SQn 7 7) (SQn 7 6) false)).2.progress_level = 3 := by
  constructor
  · decide
  · decide

/-- C5 (amended): revision step 9 (`revise_useless_drop`) wrap-increments
`score_nega` by 2 exactly when the candidate is a drop of a silver, bishop,
rook or gold (the contiguous kind range `SILVER ≤ pk ≤ GOLD`, which
includes bishop and rook, not silver/gold only) whose destination lies in
COM's own half, at Chebyshev distance ≥ 3 from both root king squares,
with root `disadv_price < 30`. -/
theorem c5_revise_useless_drop_eq (root_eval : RootEvaluation)
    (umv : UndoableMove) (le : LeafEvaluation) :
    revise_useless_drop root_eval umv le =
      if umv.is_drop ∧
          (umvPkDst umv = SILVER ∨ umvPkDst umv = BISHOP ∨
           umvPkDst umv = ROOK ∨ umvPkDst umv = GOLD) ∧
          umv.dst.row ≤ 4 ∧ root_eval.disadv_price < 30 ∧
          3 ≤ le.dst_to_hum_king ∧
          3 ≤ umv.dst.distance (root_eval.king_sq.get COM) then
        { le with score_nega := w8add le.score_nega 2 }
      else le := by
  simp only [revise_useless_drop]
  apply if_congr ?_ rfl rfl
  constructor
  · rintro ⟨h1, hrange, hrest⟩
    refine ⟨h1, ?_, hrest⟩
    simp only [SILVER, GOLD] at hrange
    simp only [SILVER, BISHOP, ROOK, GOLD]
    omega
  · rintro ⟨h1, hdisj, hrest⟩
    refine ⟨h1, ?_, hrest⟩
    simp only [SILVER, BISHOP, ROOK, GOLD] at hdisj
    simp only [SILVER, GOLD]
    omega

/-- C5 counterexample: a BISHOP drop (a kind that is neither silver nor
gold) far from both kings in COM's half with low root disadvantage gets
`score_nega` bumped from 0 to 2 by revision step 9. -/
theorem c5_counterexample :
    (revise_useless_drop ⟨0, 0, 0, 0, 0, ⟨SQn 5 9, SQn 5 1⟩⟩
        (UndoableMove.drop BISHOP (SQn 9 1))
        ⟨0, 0, none, 0, none, 0, 0, 0, 0, 0, 0, 0, 0, 3, false, 0, 0,
          false, false⟩).score_nega = 2 ∧
      BISHOP ≠ SILVER ∧ BISHOP ≠ GOLD := by
  decide

/-- C7: whenever `next_move_aux` (the body of `BookState::next_move`)
returns an outcome, a picked branch-table entry or move-list entry has its
unused bit cleared in the resulting state exactly when `progress_ply ≠ 0`
(the state is unchanged on the very first move), and when the book is
exhausted (`pick = none`) the move mask was zero, the formation is set to
`Nothing`, and no move is returned. -/
theorem c7_next_move_book_consumption (board : Board) (ply fuel : Nat)
    (st : BookState) (o : NextMoveOutcome)
    (h : BookState.next_move_aux board ply fuel st = some o) :
    (∀ i m, o.pick = some (BookPick.branch i, m) →
      o.post = (if ply ≠ 0 then
          { o.preState with mask_unused_branch :=
              o.preState.mask_unused_branch &&& not32 (1 <<< i) }
        else o.preState)) ∧
    (∀ i m, o.pick = some (BookPick.moves i, m) →
      o.post = (if ply ≠ 0 then
          { o.preState with mask_unused_moves :=
              o.preState.mask_unused_moves &&& not32 (1 <<< i) }
        else o.preState)) ∧
    (o.pick = none →
      o.preState.mask_unused_moves = 0 ∧
      o.post = { o.preState with formation := Formation.Nothing }) := by
  induction fuel generalizing st with
  | zero => simp [BookState.next_move_aux] at h
  | succ fuel ih =>
    unfold BookState.next_move_aux at h
    cases hbs : branchScanGo st.formation.book_branch board ply
        (iterOnes32 st.mask_unused_branch) with
    | none =>
      rw [hbs] at h
      simp at h
    | some res =>
      rw [hbs] at h
      cases res with
      | switch f' =>
        exact ih (st.change_formation f') h
      | mv i m =>
        simp only [Option.some.injEq] at h
        subst h
        refine ⟨?_, ?_, ?_⟩
        · intro i' m' hp
          simp only [Option.some.injEq, Prod.mk.injEq,
            BookPick.branch.injEq] at hp
          obtain ⟨hi, hm⟩ := hp
          subst hi
          rfl
        · intro i' m' hp
          simp at hp
        · intro hp
          simp at hp
      | noneMatched =>
        simp only [] at h
        by_cases hm : st.mask_unused_moves = 0
        · rw [if_neg (fun hc => hc hm)] at h
          simp only [Option.some.injEq] at h
          subst h
          refine ⟨?_, ?_, ?_⟩
          · intro i' m' hp
            simp at hp
          · intro i' m' hp
            simp at hp
          · intro hp
            exact ⟨hm, rfl⟩
        · rw [if_pos hm] at h
          cases hg : st.formation.book_moves.get? (lsb32 st.mask_unused_moves) with
          | none =>
            rw [hg] at h
            simp at h
          | some e =>
            rw [hg] at h
            simp only [Option.some.injEq] at h
            subst h
            refine ⟨?_, ?_, ?_⟩
            · intro i' m' hp
              simp at hp
            · intro i' m' hp
              simp only [Option.some.injEq, Prod.mk.injEq,
                BookPick.moves.injEq] at hp
              obtain ⟨hi, hmm⟩ := hp
              subst hi
              rfl
            · intro hp
              simp at hp

/-- Witness for C7: a book state with both masks empty on an empty board
is exhausted — the outcome records `pick = none`, a zero move mask, and a
formation reset to `Nothing`. -/
theorem c7_next_move_book_consumption_witness :
    (BookState.next_move_aux (boardFromList []) 1 3
        ⟨Formation.Sujichigai, 0, 0⟩ =
      some ⟨⟨Formation.Sujichigai, 0, 0⟩, none, ⟨Formation.Nothing, 0, 0⟩⟩) ∧
    ((⟨⟨Formation.Sujichigai, 0, 0⟩, none, ⟨Formation.Nothing, 0, 0⟩⟩ :
        NextMoveOutcome).pick = none →
      (⟨⟨Formation.Sujichigai, 0, 0⟩, none, ⟨Formation.Nothing, 0, 0⟩⟩ :
        NextMoveOutcome).preState.mask_unused_moves = 0 ∧
      (⟨⟨Formation.Sujichigai, 0, 0⟩, none, ⟨Formation.Nothing, 0, 0⟩⟩ :
        NextMoveOutcome).post =
        { (⟨⟨Formation.Sujichigai, 0, 0⟩, none, ⟨Formation.Nothing, 0, 0⟩⟩ :
            NextMoveOutcome).preState with formation := Formation.Nothing }) :=
  ⟨by decide,
    (c7_next_move_book_consumption (boardFromList []) 1 3
      ⟨Formation.Sujichigai, 0, 0⟩
      ⟨⟨Formation.Sujichigai, 0, 0⟩, none, ⟨Formation.Nothing, 0, 0⟩⟩
      (by decide)).2.2⟩

/-- `searchBody` keeps the invariant "no best move yet means the best
evaluation is still the sentinel worst". -/
theorem searchBodyCore_inv (root_eval : RootEvaluation) (st : SearchState)
    (mv : Move) (r : UndoableMove × Position) (oe : Option LeafEvaluation)
    (hinv : st.best_mv = none → st.best_eval = LeafEvaluation.worst) :
    (searchBodyCore root_eval st mv r oe).best_mv = none →
      (searchBodyCore root_eval st mv r oe).best_eval = LeafEvaluation.worst := by
  cases oe with
  | none =>
    intro h
    simp only [searchBodyCore] at h ⊢
    exact hinv h
  | some le0 =>
    intro h
    simp only [searchBodyCore] at h ⊢
    split at h
    · exact absurd h (by simp)
    · rename_i him
      rw [if_neg him]
      exact hinv h

theorem searchBody_eq_core (root_eval : RootEvaluation) (st : SearchState)
    (mv : Move) :
    searchBody root_eval st mv = searchBodyCore root_eval st mv
      (st.e.pos.do_move mv)
      (evaluate_leaf { st.e with pos := (st.e.pos.do_move mv).2 } root_eval
        (st.e.pos.do_move mv).1) := rfl

theorem searchBody_inv (root_eval : RootEvaluation) (st : SearchState)
    (mv : Move)
    (hinv : st.best_mv = none → st.best_eval = LeafEvaluation.worst) :
    (searchBody root_eval st mv).best_mv = none →
      (searchBody root_eval st mv).best_eval = LeafEvaluation.worst := by
  intro h
  rw [searchBody_eq_core] at h ⊢
  exact searchBodyCore_inv root_eval st mv _ _ hinv h

/-- `searchLoop` keeps the same invariant along the whole candidate list. -/
theorem searchLoop_inv (root_eval : RootEvaluation) :
    ∀ (l : List Move) (st : SearchState),
    (st.best_mv = none → st.best_eval = LeafEvaluation.worst) →
    (searchLoop root_eval l st).best_mv = none →
      (searchLoop root_eval l st).best_eval = LeafEvaluation.worst
  | [], st, hinv => hinv
  | mv :: rest, st, hinv => by
    simp only [searchLoop]
    by_cases hd : (searchBody root_eval st mv).done = true
    · rw [if_pos hd]
      exact searchBody_inv root_eval st mv hinv
    · rw [if_neg hd]
      exact searchLoop_inv root_eval rest (searchBody root_eval st mv)
        (searchBody_inv root_eval st mv hinv)

/-- C10: `think_search` is total — it always returns HumSuicide, HumWin or
a move, and the `expect("at least 1 move should be accepted")` unwrap
(modelled by `none`) is unreachable: when no candidate is ever accepted the
best evaluation is still `LeafEvaluation.worst`, whose `disadv_price` 99 is
at least 31, so the HumWin branch fires before the best move is
unwrapped. -/
theorem c10_think_search_total (e : Engine) (root_eval : RootEvaluation) :
    (think_search e root_eval).isSome = true := by
  unfold think_search
  by_cases h30 : 30 ≤ root_eval.adv_price
  · rw [if_pos h30]
    rfl
  · rw [if_neg h30]
    simp only []
    by_cases hwin : 31 ≤ (searchLoop root_eval (generate_moves_com e.pos)
          ⟨e, none, LeafEvaluation.worst, false⟩).best_eval.disadv_price ∨
        (searchLoop root_eval (generate_moves_com e.pos)
          ⟨e, none, LeafEvaluation.worst, false⟩).best_eval.is_suicide = true
    · rw [if_pos hwin]
      rfl
    · rw [if_neg hwin]
      cases hbm : (searchLoop root_eval (generate_moves_com e.pos)
          ⟨e, none, LeafEvaluation.worst, false⟩).best_mv with
      | some m =>
        simp only [hbm]
        rfl
      | none =>
        exfalso
        have hworst := searchLoop_inv root_eval (generate_moves_com e.pos)
          ⟨e, none, LeafEvaluation.worst, false⟩ (fun _ => rfl) hbm
        apply hwin
        left
        rw [hworst]
        decide

/-- C9: in the candidate loop of `think_search`, a candidate whose leaf
evaluation is accepted and whose revised evaluation has
`hum_is_checkmated = true` is adopted as the best move unconditionally
(the improvement test is short-circuited by the mate flag), its evaluation
becomes the best evaluation, the `done` flag is set, and the loop stops
there — the remaining candidates are never examined, so a mate-flagged
best move is never overwritten, regardless of any wrap-around in the
heuristic scores. -/
theorem c9_mate_adopted (root_eval : RootEvaluation) (st : SearchState)
    (mv : Move) (rest : List Move) (le0 : LeafEvaluation)
    (hev : evaluate_leaf { st.e with pos := (st.e.pos.do_move mv).2 }
      root_eval (st.e.pos.do_move mv).1 = some le0)
    (hmate : (revise_leaf_evaluation root_eval (st.e.pos.do_move mv).1
      le0).hum_is_checkmated = true) :
    searchLoop root_eval (mv :: rest) st = searchBody root_eval st mv ∧
    (searchBody root_eval st mv).best_mv = some mv ∧
    (searchBody root_eval st mv).best_eval =
      revise_leaf_evaluation root_eval (st.e.pos.do_move mv).1 le0 ∧
    (searchBody root_eval st mv).done = true := by
  have himp : (revise_leaf_evaluation root_eval (st.e.pos.do_move mv).1
        le0).hum_is_checkmated = true ∨
      can_improve_best root_eval st.best_eval
        (revise_leaf_evaluation root_eval (st.e.pos.do_move mv).1 le0)
        (st.e.pos.do_move mv).1 st.e.naitou_best_src_value = true :=
    Or.inl hmate
  have hmv : (searchBody root_eval st mv).best_mv = some mv := by
    rw [searchBody_eq_core, hev]
    simp only [searchBodyCore]
    rw [if_pos himp]
  have hbe : (searchBody root_eval st mv).best_eval =
      revise_leaf_evaluation root_eval (st.e.pos.do_move mv).1 le0 := by
    rw [searchBody_eq_core, hev]
    simp only [searchBodyCore]
    rw [if_pos himp]
  have hdone : (searchBody root_eval st mv).done = true := by
    rw [searchBody_eq_core, hev]
    simp only [searchBodyCore]
    exact hmate
  refine ⟨?_, hmv, hbe, hdone⟩
  simp only [searchLoop]
  rw [if_pos hdone]

set_option maxHeartbeats 4000000 in
/-- Witness for C9 at the concrete mating scenario: COM gold 17 → 18
mates; the evaluator accepts the move with the mate flag, and the loop
adopts it and stops. -/
theorem c9_mate_adopted_witness :
    (evaluate_leaf { mateState.e with
        pos := (mateState.e.pos.do_move mateMove).2 } mateRoot
      (mateState.e.pos.do_move mateMove).1 = some mateLeaf) ∧
    ((revise_leaf_evaluation mateRoot (mateState.e.pos.do_move mateMove).1
      mateLeaf).hum_is_checkmated = true) ∧
    (searchLoop mateRoot (mateMove :: []) mateState =
        searchBody mateRoot mateState mateMove ∧
      (searchBody mateRoot mateState mateMove).best_mv = some mateMove ∧
      (searchBody mateRoot mateState mateMove).best_eval =
        revise_leaf_evaluation mateRoot (mateState.e.pos.do_move mateMove).1
          mateLeaf ∧
      (searchBody mateRoot mateState mateMove).done = true) :=
  ⟨by decide, by decide,
    c9_mate_adopted mateRoot mateState mateMove [] mateLeaf (by decide)
      (by decide)⟩

/-- C6: for every engine state and pseudo-legal HUM move (`DoPre`),
`do_step` returns the "suicide move" error exactly when playing the move
leaves the HUM king attacked, and in that case the returned engine equals
the original engine in every component (the position having been undone by
the source before failing). -/
theorem c6_do_step_suicide (e : Engine) (mv : Move) (h : DoPre e.pos mv) :
    ((∃ e', do_step e mv = some (DoStepResult.suicideErr e')) ↔
      (e.pos.do_move mv).2.is_checked HUM = true) ∧
    (∀ e', do_step e mv = some (DoStepResult.suicideErr e') → e' = e) := by
  have hroundtrip :
      ((e.pos.do_move mv).2).undo_move (e.pos.do_move mv).1 = e.pos :=
    do_undo_roundtrip e.pos mv h
  by_cases hc : (e.pos.do_move mv).2.is_checked HUM = true
  · have hstep : do_step e mv = some (DoStepResult.suicideErr
        { e with
          pos := (((e.pos.do_move mv).2).undo_move (e.pos.do_move mv).1) }) := by
      simp only [do_step, do_move_hum]
      rw [if_pos hc]
    rw [hroundtrip] at hstep
    refine ⟨⟨fun _ => hc, fun _ => ⟨_, hstep⟩⟩, ?_⟩
    intro e' he
    rw [hstep] at he
    simp only [Option.some.injEq, DoStepResult.suicideErr.injEq] at he
    subst he
    rfl
  · have hnone : ∀ e', ¬(do_step e mv = some (DoStepResult.suicideErr e')) := by
      intro e' he
      simp only [do_step, do_move_hum] at he
      rw [if_neg hc] at he
      simp only [] at he
      split at he
      all_goals first
        | simp at he
        | (split at he <;> simp at he)
    refine ⟨⟨?_, fun hcc => absurd hcc hc⟩, fun e' he => absurd he (hnone e')⟩
    rintro ⟨e', he⟩
    exact absurd he (hnone e')

/-- Witness for C6 at a concrete engine: the pawn move 77 → 76 satisfies
the `do_move` precondition, so the error-iff-self-check equivalence and
the state-preservation property hold there. -/
theorem c6_do_step_suicide_witness :
    DoPre (sampleEngine 10 0).pos (Move.walk (SQn 7 7) (SQn 7 6) false) ∧
    (((∃ e', do_step (sampleEngine 10 0)
          (Move.walk (SQn 7 7) (SQn 7 6) false) =
          some (DoStepResult.suicideErr e')) ↔
        ((sampleEngine 10 0).pos.do_move
          (Move.walk (SQn 7 7) (SQn 7 6) false)).2.is_checked HUM = true) ∧
      (∀ e', do_step (sampleEngine 10 0)
          (Move.walk (SQn 7 7) (SQn 7 6) false) =
          some (DoStepResult.suicideErr e') → e' = sampleEngine 10 0)) :=
  ⟨by decide, c6_do_step_suicide _ _ (by decide)⟩

/-- C3 (amended): when the root evaluation has `adv_price ≥ 30` AND the
unconditional book zone does not trigger (it triggers when
`progress_ply ≤ 6`, HUM's last move went to ２二/４五/５六, and
`progress_level = 0`), `think` returns HumSuicide immediately with the
engine unchanged.  When the book zone does trigger, a book answer can
preempt the HumSuicide response (see the counterexample). -/
theorem c3_hum_suicide_response (e : Engine) (mv_hum : Option Move)
    (h30 : 30 ≤ (evaluate_root e).adv_price)
    (hbook : ¬ bookOverrideTrigger e mv_hum) :
    think e mv_hum = some (EngineResponseRaw.humSuicide, e) := by
  have hsearch : think_search e (evaluate_root e) =
      some (EngineResponseRaw.humSuicide, e) := by
    unfold think_search
    rw [if_pos h30]
  have hover : thinkBookOverride e mv_hum = some (Sum.inr e) := by
    cases mv_hum with
    | none => rfl
    | some mv =>
      simp only [thinkBookOverride]
      exact if_neg hbook
  simp only [think, hsearch, hover]
  rfl

/-- Witness for C3: on `bookZoneEngine` with no recorded HUM move the book
zone cannot trigger, and `think` answers HumSuicide. -/
theorem c3_hum_suicide_response_witness :
    30 ≤ (evaluate_root bookZoneEngine).adv_price ∧
    ¬ bookOverrideTrigger bookZoneEngine none ∧
    think bookZoneEngine none =
      some (EngineResponseRaw.humSuicide, bookZoneEngine) :=
  ⟨by decide, by decide,
    c3_hum_suicide_response bookZoneEngine none (by decide) (by decide)⟩

set_option maxHeartbeats 4000000 in
/-- C3 counterexample: on `bookZoneEngine` after the HUM move to ４五, the
root evaluation has `adv_price = 40 ≥ 30` and the book zone triggers
(ply 2 ≤ 6, level 0), yet `think` answers with the book move 33 → 34, not
HumSuicide — the claim does not hold for those book-zone states. -/
theorem c3_counterexample :
    30 ≤ (evaluate_root bookZoneEngine).adv_price ∧
    bookOverrideTrigger bookZoneEngine bookZoneMove ∧
    (think bookZoneEngine bookZoneMove).map Prod.fst =
      some (EngineResponseRaw.move (Move.walk (SQn 3 3) (SQn 3 4) false)
        false false false) := by
  refine ⟨by decide, by decide, by decide⟩

theorem formation_branch_mem (f : Formation) :
    ∀ ent ∈ f.book_branch, branchEntryMoveOk ent := by
  cases f <;> decide

theorem formation_moves_mem (f : Formation) :
    ∀ ent ∈ f.book_moves, Move.walk ent.src ent.dst false ∈ allBookMoves := by
  cases f <;> decide

theorem branchScanGo_mv (tbl : List BookBranchEntry) (board : Board)
    (ply : Nat) :
    ∀ (il : List Nat) (i : Nat) (m : Move),
    branchScanGo tbl board ply il = some (BranchScanResult.mv i m) →
    ∃ ent, tbl.get? i = some ent ∧ ∃ sq pk src dst,
      ent = BookBranchEntry.mv sq pk src dst ∧ m = Move.walk src dst false
  | [], i, m => by
    intro h
    simp [branchScanGo] at h
  | j :: rest, i, m => by
    intro h
    unfold branchScanGo at h
    cases hg : tbl.get? j with
    | none => rw [hg] at h; simp at h
    | some ent =>
      rw [hg] at h
      cases ent with
      | mv sq pk src dst =>
        simp only [] at h
        by_cases hb : board sq = pcNew HUM pk
        · rw [if_pos hb] at h
          simp only [Option.some.injEq, BranchScanResult.mv.injEq] at h
          obtain ⟨hi, hm⟩ := h
          subst hi
          exact ⟨_, hg, sq, pk, src, dst, rfl, hm.symm⟩
        · rw [if_neg hb] at h
          exact branchScanGo_mv tbl board ply rest i m h
      | change sq pk f' plyLim =>
        simp only [] at h
        by_cases hb : board sq = pcNew HUM pk ∧ ply ≤ plyLim
        · rw [if_pos hb] at h
          simp at h
        · rw [if_neg hb] at h
          exact branchScanGo_mv tbl board ply rest i m h

theorem next_move_aux_mem (board : Board) (ply : Nat) (o : NextMoveOutcome) :
    ∀ (fuel : Nat) (st : BookState),
    BookState.next_move_aux board ply fuel st = some o →
    ∀ pk m, o.pick = some (pk, m) → m ∈ allBookMoves := by
  intro fuel
  induction fuel with
  | zero => intro st h; simp [BookState.next_move_aux] at h
  | succ fuel ih =>
    intro st h
    unfold BookState.next_move_aux at h
    cases hbs : branchScanGo st.formation.book_branch board ply
        (iterOnes32 st.mask_unused_branch) with
    | none =>
      rw [hbs] at h
      simp at h
    | some res =>
      rw [hbs] at h
      cases res with
      | switch f' =>
        exact ih (st.change_formation f') h
      | mv i m0 =>
        simp only [Option.some.injEq] at h
        subst h
        intro pk m hp
        simp only [Option.some.injEq, Prod.mk.injEq] at hp
        obtain ⟨hpk, hm⟩ := hp
        subst hm
        obtain ⟨ent, hget, sq, pk', src, dst, hent, hm0⟩ :=
          branchScanGo_mv st.formation.book_branch board ply
            (iterOnes32 st.mask_unused_branch) i m0 hbs
        have hmem := formation_branch_mem st.formation ent (List.get?_mem hget)
        rw [hent] at hmem
        rw [hm0]
        exact hmem
      | noneMatched =>
        simp only [] at h
        by_cases hm : st.mask_unused_moves = 0
        · rw [if_neg (fun hc => hc hm)] at h
          simp only [Option.some.injEq] at h
          subst h
          intro pk m hp
          simp at hp
        · rw [if_pos hm] at h
          cases hg : st.formation.book_moves.get? (lsb32 st.mask_unused_moves) with
          | none =>
            rw [hg] at h
            simp at h
          | some ent =>
            rw [hg] at h
            simp only [Option.some.injEq] at h
            subst h
            intro pk m hp
            simp only [Option.some.injEq, Prod.mk.injEq] at hp
            obtain ⟨hpk, hmv⟩ := hp
            subst hmv
            exact formation_moves_mem st.formation ent (List.get?_mem hg)

theorem next_move_mem (st : BookState) (board : Board) (ply : Nat)
    (om : Option Move) (bs : BookState)
    (h : BookState.next_move st board ply = some (om, bs)) :
    ∀ m, om = some m → m ∈ allBookMoves := by
  intro m hm
  subst hm
  unfold BookState.next_move at h
  cases ha : BookState.next_move_aux board ply 3 st with
  | none => rw [ha] at h; simp at h
  | some o =>
    rw [ha] at h
    simp at h
    obtain ⟨hpick, hpost⟩ := h
    cases hp : o.pick with
    | none => rw [hp] at hpick; simp at hpick
    | some pr =>
      rw [hp] at hpick
      simp at hpick
      obtain ⟨a, hpr⟩ := hpick
      exact next_move_aux_mem board ply o 3 st ha a m
        (by rw [hp, hpr])

theorem evaluate_book_move_snd (p : Position) (mv : Move) (h : DoPre p mv) :
    (evaluate_book_move p mv).2 = p := by
  simp only [evaluate_book_move]
  exact do_undo_roundtrip p mv h

theorem think_book_succ (fuel : Nat) (e : Engine) (mv_hum : Option Move) :
    think_book (fuel + 1) e mv_hum =
      match e.book_state.next_move e.pos.board e.progress_ply with
      | none => none
      | some (none, bs) => some (none, { e with book_state := bs })
      | some (some book_mv, bs) =>
        let e := { e with book_state := bs }
        if ¬book_move_is_legal e.pos book_mv then think_book fuel e mv_hum
        else if e.pos.effect_count COM book_mv.dst ≤
            e.pos.effect_count HUM book_mv.dst then
          think_book fuel e mv_hum
        else
          let r := evaluate_book_move e.pos book_mv
          let e := { e with pos := r.2 }
          let hum_to_45 : Bool :=
            match mv_hum with | some mv => mv.dst = SQn 4 5 | none => false
          if 0 < r.1 ∧ ¬(e.progress_ply ≤ 6 ∧ hum_to_45 = true) then
            think_book fuel e mv_hum
          else some (some book_mv, e) := rfl

theorem think_book_props (p : Position) (mv_hum : Option Move)
    (Hbook : ∀ m ∈ allBookMoves, book_move_is_legal p m = true → DoPre p m) :
    ∀ (fuel : Nat) (e : Engine) (om : Option Move) (e' : Engine),
    e.pos = p → think_book fuel e mv_hum = some (om, e') →
    e'.pos = p ∧
      (∀ m, om = some m →
        m ∈ allBookMoves ∧ book_move_is_legal p m = true) := by
  intro fuel
  induction fuel with
  | zero =>
    intro e om e' hpos h
    exact Option.noConfusion h
  | succ fuel ih =>
    intro e om e' hpos h
    rw [think_book_succ] at h
    cases hnm : e.book_state.next_move e.pos.board e.progress_ply with
    | none => rw [hnm] at h; simp at h
    | some pr =>
      rw [hnm] at h
      obtain ⟨obm, bs⟩ := pr
      cases obm with
      | none =>
        simp only [Option.some.injEq, Prod.mk.injEq] at h
        obtain ⟨hom, he'⟩ := h
        subst hom
        subst he'
        refine ⟨hpos, ?_⟩
        intro m hm
        cases hm
      | some bm =>
        simp only [] at h
        have hmem : bm ∈ allBookMoves :=
          next_move_mem e.book_state e.pos.board e.progress_ply (some bm) bs
            hnm bm rfl
        by_cases hleg : book_move_is_legal e.pos bm = true
        · rw [if_neg (fun hc => hc hleg)] at h
          by_cases heff : e.pos.effect_count COM bm.dst ≤
              e.pos.effect_count HUM bm.dst
          · rw [if_pos heff] at h
            exact ih { e with book_state := bs } om e' hpos h
          · rw [if_neg heff] at h
            have hlegp : book_move_is_legal p bm = true := by
              rw [← hpos]
              exact hleg
            have hdp : DoPre e.pos bm := by
              rw [hpos]
              exact Hbook bm hmem hlegp
            have hr2 : (evaluate_book_move e.pos bm).2 = e.pos :=
              evaluate_book_move_snd e.pos bm hdp
            split at h
            · exact ih _ om e' (hr2.trans hpos) h
            · simp only [Option.some.injEq, Prod.mk.injEq] at h
              obtain ⟨hom, he'⟩ := h
              subst hom
              subst he'
              refine ⟨hr2.trans hpos, ?_⟩
              intro m hm
              simp only [Option.some.injEq] at hm
              subst hm
              exact ⟨hmem, hlegp⟩
        · rw [if_pos hleg] at h
          exact ih { e with book_state := bs } om e' hpos h

theorem searchBodyCore_pos (root_eval : RootEvaluation) (st : SearchState)
    (mv : Move) (r : UndoableMove × Position) (oe : Option LeafEvaluation) :
    (searchBodyCore root_eval st mv r oe).e.pos = (r.2).undo_move r.1 := by
  cases oe with
  | none => rfl
  | some le0 =>
    simp only [searchBodyCore]

theorem searchBody_pos (root_eval : RootEvaluation) (st : SearchState)
    (mv : Move) (h : DoPre st.e.pos mv) :
    (searchBody root_eval st mv).e.pos = st.e.pos := by
  rw [searchBody_eq_core, searchBodyCore_pos]
  exact do_undo_roundtrip st.e.pos mv h

theorem searchBodyCore_best (root_eval : RootEvaluation) (st : SearchState)
    (mv : Move) (r : UndoableMove × Position) (oe : Option LeafEvaluation) :
    ∀ m, (searchBodyCore root_eval st mv r oe).best_mv = some m →
      m = mv ∨ st.best_mv = some m := by
  cases oe with
  | none =>
    intro m hm
    exact Or.inr hm
  | some le0 =>
    intro m hm
    simp only [searchBodyCore] at hm
    split at hm
    · simp only [Option.some.injEq] at hm
      exact Or.inl hm.symm
    · exact Or.inr hm

theorem searchBody_best (root_eval : RootEvaluation) (st : SearchState)
    (mv : Move) :
    ∀ m, (searchBody root_eval st mv).best_mv = some m →
      m = mv ∨ st.best_mv = some m := by
  rw [searchBody_eq_core]
  exact searchBodyCore_best root_eval st mv _ _

theorem searchLoop_pos_best (root_eval : RootEvaluation) (p : Position) :
    ∀ (l : List Move) (st : SearchState),
    st.e.pos = p → (∀ mv ∈ l, DoPre p mv) →
    (∀ m, st.best_mv = some m → DoPre p m) →
    (searchLoop root_eval l st).e.pos = p ∧
      (∀ m, (searchLoop root_eval l st).best_mv = some m → DoPre p m)
  | [], st, hpos, _, hbm => ⟨hpos, hbm⟩
  | mv :: rest, st, hpos, hl, hbm => by
    have hdp : DoPre st.e.pos mv := by
      rw [hpos]
      exact hl mv (List.mem_cons_self mv rest)
    have hpos' : (searchBody root_eval st mv).e.pos = p :=
      (searchBody_pos root_eval st mv hdp).trans hpos
    have hbm' : ∀ m, (searchBody root_eval st mv).best_mv = some m →
        DoPre p m := by
      intro m hm
      rcases searchBody_best root_eval st mv m hm with hem | hold
      · subst hem
        rw [← hpos]
        exact hdp
      · exact hbm m hold
    simp only [searchLoop]
    by_cases hd : (searchBody root_eval st mv).done = true
    · rw [if_pos hd]
      exact ⟨hpos', hbm'⟩
    · rw [if_neg hd]
      exact searchLoop_pos_best root_eval p rest (searchBody root_eval st mv)
        hpos' (fun mv' hmv' => hl mv' (List.mem_cons_of_mem mv hmv')) hbm'

theorem think_search_props (e : Engine) (root_eval : RootEvaluation)
    (hgen : ∀ mv ∈ generate_moves_com e.pos, DoPre e.pos mv) :
    ∀ (raw : EngineResponseRaw) (e' : Engine),
    think_search e root_eval = some (raw, e') →
    e'.pos = e.pos ∧
      (∀ bm q f hic, raw = EngineResponseRaw.move bm q f hic →
        DoPre e.pos bm) := by
  intro raw e' h
  unfold think_search at h
  by_cases h30 : 30 ≤ root_eval.adv_price
  · rw [if_pos h30] at h
    simp only [Option.some.injEq, Prod.mk.injEq] at h
    obtain ⟨hraw, he⟩ := h
    subst he
    refine ⟨rfl, ?_⟩
    intro bm q f hic hmv
    rw [hmv] at hraw
    cases hraw
  · rw [if_neg h30] at h
    simp only [] at h
    have hloop := searchLoop_pos_best root_eval e.pos
      (generate_moves_com e.pos) ⟨e, none, LeafEvaluation.worst, false⟩
      rfl hgen (by intro m hm; cases hm)
    split at h
    · simp only [Option.some.injEq, Prod.mk.injEq] at h
      obtain ⟨hraw, he⟩ := h
      subst he
      refine ⟨hloop.1, ?_⟩
      intro bm q f hic hmv
      rw [hmv] at hraw
      cases hraw
    · cases hbm : (searchLoop root_eval (generate_moves_com e.pos)
          ⟨e, none, LeafEvaluation.worst, false⟩).best_mv with
      | none =>
        rw [hbm] at h
        cases h
      | some bm0 =>
        rw [hbm] at h
        simp only [Option.some.injEq, Prod.mk.injEq] at h
        obtain ⟨hraw, he⟩ := h
        subst he
        refine ⟨hloop.1, ?_⟩
        intro bm q f hic hmv
        rw [hmv] at hraw
        have hbm0 : bm0 = bm := by
          cases hraw
          rfl
        rw [← hbm0]
        exact hloop.2 bm0 hbm

theorem thinkBookOverride_props (e : Engine) (mv_hum : Option Move)
    (Hbook : ∀ m ∈ allBookMoves, book_move_is_legal e.pos m = true →
      DoPre e.pos m) :
    ∀ res, thinkBookOverride e mv_hum = some res →
    (∀ pr, res = Sum.inl pr → pr.2.pos = e.pos ∧
      (∀ bm q f hic, pr.1 = EngineResponseRaw.move bm q f hic →
        DoPre e.pos bm)) ∧
    (∀ e3, res = Sum.inr e3 → e3.pos = e.pos) := by
  intro res h
  unfold thinkBookOverride at h
  cases mv_hum with
  | none =>
    simp only [Option.some.injEq] at h
    subst h
    refine ⟨?_, ?_⟩
    · intro pr hpr
      cases hpr
    · intro e3 he3
      cases he3
      rfl
  | some mv =>
    simp only [] at h
    split at h
    · cases htb : think_book THINK_BOOK_FUEL e (some mv) with
      | none => rw [htb] at h; cases h
      | some pr0 =>
        rw [htb] at h
        obtain ⟨obm, e1⟩ := pr0
        have hprops := think_book_props e.pos (some mv) Hbook
          THINK_BOOK_FUEL e obm e1 rfl htb
        cases obm with
        | some book_mv =>
          simp only [Option.some.injEq] at h
          subst h
          refine ⟨?_, ?_⟩
          case refine_2 =>
            intro e3 he3
            cases he3
          intro pr hpr
          cases hpr
          refine ⟨hprops.1, ?_⟩
          intro bm q f hic hmv
          simp only [EngineResponseRaw.move.injEq] at hmv
          rw [← hmv.1]
          exact Hbook book_mv (hprops.2 book_mv rfl).1 (hprops.2 book_mv rfl).2
        | none =>
          simp only [Option.some.injEq] at h
          subst h
          refine ⟨?_, ?_⟩
          case refine_1 =>
            intro pr hpr
            cases hpr
          intro e3 he3
          cases he3
          exact hprops.1
    · simp only [Option.some.injEq] at h
      subst h
      refine ⟨?_, ?_⟩
      · intro pr hpr
        cases hpr
      · intro e3 he3
        cases he3
        rfl

theorem thinkBookAfterSearch_go (p : Position) (e2 : Engine)
    (mv_hum : Option Move) (rr : EngineResponseRaw) (quiet fsb : Bool)
    (hpos : e2.pos = p)
    (Hbook : ∀ m ∈ allBookMoves, book_move_is_legal p m = true → DoPre p m)
    (Hraw : ∀ bm q f hic, rr = EngineResponseRaw.move bm q f hic → DoPre p bm) :
    ∀ (raw' : EngineResponseRaw) (e' : Engine),
    (if e2.progress_level = 0 ∧ quiet = true ∧ fsb = false then
      match think_book THINK_BOOK_FUEL e2 mv_hum with
      | none => none
      | some (some book_mv, e3) =>
        some (EngineResponseRaw.move book_mv false false false, e3)
      | some (none, e3) => some (rr, { e3 with progress_level := 1 })
    else some (rr, e2)) = some (raw', e') →
    e'.pos = p ∧
      (∀ bm q f hic, raw' = EngineResponseRaw.move bm q f hic →
        DoPre p bm) := by
  intro raw' e' h
  split at h
  · cases htb : think_book THINK_BOOK_FUEL e2 mv_hum with
    | none => rw [htb] at h; cases h
    | some pr0 =>
      rw [htb] at h
      obtain ⟨obm, e3⟩ := pr0
      have hprops := think_book_props p mv_hum Hbook THINK_BOOK_FUEL e2 obm e3
        hpos htb
      cases obm with
      | some book_mv =>
        simp only [Option.some.injEq, Prod.mk.injEq] at h
        obtain ⟨hraw, he⟩ := h
        subst he
        refine ⟨hprops.1, ?_⟩
        intro bm q f hic hmv
        rw [← hraw] at hmv
        simp only [EngineResponseRaw.move.injEq] at hmv
        rw [← hmv.1]
        exact Hbook book_mv (hprops.2 book_mv rfl).1 (hprops.2 book_mv rfl).2
      | none =>
        simp only [Option.some.injEq, Prod.mk.injEq] at h
        obtain ⟨hraw, he⟩ := h
        subst he
        refine ⟨hprops.1, ?_⟩
        intro bm q f hic hmv
        exact Hraw bm q f hic (hraw.trans hmv)
  · simp only [Option.some.injEq, Prod.mk.injEq] at h
    obtain ⟨hraw, he⟩ := h
    subst he
    refine ⟨hpos, ?_⟩
    intro bm q f hic hmv
    exact Hraw bm q f hic (hraw.trans hmv)

theorem thinkBookAfterSearch_props (e : Engine) (mv_hum : Option Move)
    (resp_raw : EngineResponseRaw)
    (Hbook : ∀ m ∈ allBookMoves, book_move_is_legal e.pos m = true →
      DoPre e.pos m)
    (Hraw : ∀ bm q f hic, resp_raw = EngineResponseRaw.move bm q f hic →
      DoPre e.pos bm) :
    ∀ (raw' : EngineResponseRaw) (e' : Engine),
    thinkBookAfterSearch e mv_hum resp_raw = some (raw', e') →
    e'.pos = e.pos ∧
      (∀ bm q f hic, raw' = EngineResponseRaw.move bm q f hic →
        DoPre e.pos bm) := by
  intro raw' e' h
  unfold thinkBookAfterSearch at h
  cases resp_raw with
  | humWin =>
    simp only [Option.some.injEq, Prod.mk.injEq] at h
    obtain ⟨hraw, he⟩ := h
    subst he
    refine ⟨rfl, ?_⟩
    intro bm q f hic hmv
    exact EngineResponseRaw.noConfusion (hraw.trans hmv)
  | humSuicide =>
    simp only [Option.some.injEq, Prod.mk.injEq] at h
    obtain ⟨hraw, he⟩ := h
    subst he
    refine ⟨rfl, ?_⟩
    intro bm q f hic hmv
    exact EngineResponseRaw.noConfusion (hraw.trans hmv)
  | move bm0 quiet fsb hic0 =>
    simp only [] at h
    exact thinkBookAfterSearch_go e.pos _ mv_hum
      (EngineResponseRaw.move bm0 quiet fsb hic0) quiet fsb
      (by split <;> rfl) Hbook Hraw raw' e' h
theorem think_props (e : Engine) (mv_hum : Option Move)
    (hgen : ∀ mv ∈ generate_moves_com e.pos, DoPre e.pos mv)
    (Hbook : ∀ m ∈ allBookMoves, book_move_is_legal e.pos m = true →
      DoPre e.pos m) :
    ∀ (raw : EngineResponseRaw) (e' : Engine),
    think e mv_hum = some (raw, e') →
    e'.pos = e.pos ∧
      (∀ bm q f hic, raw = EngineResponseRaw.move bm q f hic →
        DoPre e.pos bm) := by
  intro raw e' h
  unfold think at h
  simp only [] at h
  cases hs : think_search e (evaluate_root e) with
  | none => rw [hs] at h; cases h
  | some pr =>
    rw [hs] at h
    obtain ⟨raw1, e1⟩ := pr
    simp only [] at h
    have h1 := think_search_props e (evaluate_root e) hgen raw1 e1 hs
    have hb1 : ∀ m ∈ allBookMoves, book_move_is_legal e1.pos m = true →
        DoPre e1.pos m := by
      rw [h1.1]
      exact Hbook
    cases hov : thinkBookOverride e1 mv_hum with
    | none => rw [hov] at h; cases h
    | some res =>
      rw [hov] at h
      have h2 := thinkBookOverride_props e1 mv_hum hb1 res hov
      cases res with
      | inl pr2 =>
        simp only [Option.some.injEq] at h
        subst h
        obtain ⟨hpos2, hmv2⟩ := h2.1 (raw, e') rfl
        refine ⟨hpos2.trans h1.1, ?_⟩
        intro bm q f hic hmv
        have hd := hmv2 bm q f hic hmv
        rw [h1.1] at hd
        exact hd
      | inr e3 =>
        have hpos3 : e3.pos = e.pos := (h2.2 e3 rfl).trans h1.1
        have hb3 : ∀ m ∈ allBookMoves, book_move_is_legal e3.pos m = true →
            DoPre e3.pos m := by
          rw [hpos3]
          exact Hbook
        have hraw3 : ∀ bm q f hic,
            raw1 = EngineResponseRaw.move bm q f hic → DoPre e3.pos bm := by
          intro bm q f hic hmv
          rw [hpos3]
          exact h1.2 bm q f hic hmv
        have h3 := thinkBookAfterSearch_props e3 mv_hum raw1 hb3 hraw3 raw e' h
        refine ⟨h3.1.trans hpos3, ?_⟩
        intro bm q f hic hmv
        have hd := h3.2 bm q f hic hmv
        rw [hpos3] at hd
        exact hd

theorem do_move_hum_success (e : Engine) (mv : Move) (ui : EngineUndoInfo)
    (e1 : Engine) (h : do_move_hum e mv = (some ui, e1)) :
    e1.pos = (e.pos.do_move mv).2 ∧
    ui = ⟨(e.pos.do_move mv).1, e.progress_ply, e.progress_level,
      e.progress_level_sub, e.book_state, e.naitou_best_src_value⟩ := by
  unfold do_move_hum increment_progress_ply at h
  by_cases hc : (e.pos.do_move mv).2.is_checked HUM = true
  · rw [if_pos hc] at h
    simp only [Prod.mk.injEq] at h
    exact absurd h.1 (by simp)
  · rw [if_neg hc] at h
    simp only [Prod.mk.injEq, Option.some.injEq] at h
    obtain ⟨hui, he1⟩ := h
    refine ⟨?_, hui.symm⟩
    rw [← he1]
    by_cases h51 : 51 ≤ min (e.progress_ply + 1) 100
    · simp only [if_pos h51]
      by_cases h71 : 71 ≤ min (e.progress_ply + 1) 100
      · simp only [if_pos h71]
      · simp only [if_neg h71]
    · simp only [if_neg h51]
      by_cases h71 : 71 ≤ min (e.progress_ply + 1) 100
      · simp only [if_pos h71]
      · simp only [if_neg h71]

/-- C8: for every engine state and HUM move satisfying the step
precondition (the HUM move, all generated COM candidates, and all legal
book moves round-trip on the position after the HUM move), every response
a successful `do_step` returns is exactly reversed by `undo_step`: the
COM move (if any) and the HUM move are undone and every saved counter —
progress, book state, and the carried best-source value — is restored. -/
theorem c8_undo_step_roundtrip (e : Engine) (mv_hum : Move)
    (h : StepPre e mv_hum) :
    ∀ (resp : EngineResponse) (e2 : Engine),
    do_step e mv_hum = some (DoStepResult.ok resp e2) →
    undo_step e2 resp = e := by
  obtain ⟨hdp, hgen, hbook⟩ := h
  intro resp e2 hstep
  unfold do_step at hstep
  cases hdm : do_move_hum e mv_hum with
  | mk oui e1 =>
    rw [hdm] at hstep
    cases oui with
    | none =>
      simp at hstep
    | some ui =>
      simp only [] at hstep
      obtain ⟨hpos1, hui⟩ := do_move_hum_success e mv_hum ui e1 hdm
      have hgen1 : ∀ mv ∈ generate_moves_com e1.pos, DoPre e1.pos mv := by
        rw [hpos1]
        exact hgen
      have hbook1 : ∀ m ∈ allBookMoves,
          book_move_is_legal e1.pos m = true → DoPre e1.pos m := by
        rw [hpos1]
        exact hbook
      cases hth : think e1 (some mv_hum) with
      | none => rw [hth] at hstep; cases hstep
      | some pr =>
        rw [hth] at hstep
        obtain ⟨raw, e3⟩ := pr
        have hprops := think_props e1 (some mv_hum) hgen1 hbook1 raw e3 hth
        cases raw with
        | humWin =>
          simp only [Option.some.injEq, DoStepResult.ok.injEq] at hstep
          obtain ⟨hresp, he2⟩ := hstep
          subst hresp
          subst hui
          rw [← he2]
          unfold undo_step
          simp only [EngineResponse.move_com,
            EngineResponse.undo_info]
          rw [hprops.1]
          rw [hpos1]
          rw [do_undo_roundtrip e.pos mv_hum hdp]
        | humSuicide =>
          simp only [Option.some.injEq, DoStepResult.ok.injEq] at hstep
          obtain ⟨hresp, he2⟩ := hstep
          subst hresp
          subst hui
          rw [← he2]
          unfold undo_step
          simp only [EngineResponse.move_com,
            EngineResponse.undo_info]
          rw [hprops.1]
          rw [hpos1]
          rw [do_undo_roundtrip e.pos mv_hum hdp]
        | move bm q f hic =>
          have hdpbm : DoPre e1.pos bm := hprops.2 bm q f hic rfl
          have hdpbm3 : DoPre e3.pos bm := by
            rw [hprops.1]
            exact hdpbm
          simp only [] at hstep
          split at hstep
          · simp only [Option.some.injEq, DoStepResult.ok.injEq] at hstep
            obtain ⟨hresp, he2⟩ := hstep
            subst hresp
            subst hui
            rw [← he2]
            unfold undo_step do_move_com increment_progress_ply
            simp only [EngineResponse.move_com,
              EngineResponse.undo_info]
            rw [do_undo_roundtrip e3.pos bm hdpbm3]
            rw [hprops.1]
            rw [hpos1]
            rw [do_undo_roundtrip e.pos mv_hum hdp]
          · simp only [Option.some.injEq, DoStepResult.ok.injEq] at hstep
            obtain ⟨hresp, he2⟩ := hstep
            subst hresp
            subst hui
            rw [← he2]
            unfold undo_step do_move_com increment_progress_ply
            simp only [EngineResponse.move_com,
              EngineResponse.undo_info]
            rw [do_undo_roundtrip e3.pos bm hdpbm3]
            rw [hprops.1]
            rw [hpos1]
            rw [do_undo_roundtrip e.pos mv_hum hdp]

set_option maxHeartbeats 4000000 in
theorem c8_undo_step_roundtrip_witness :
    StepPre (sampleEngine 10 0) (Move.walk (SQn 7 7) (SQn 7 6) false) ∧
    (∀ (resp : EngineResponse) (e2 : Engine),
      do_step (sampleEngine 10 0) (Move.walk (SQn 7 7) (SQn 7 6) false) =
        some (DoStepResult.ok resp e2) →
      undo_step e2 resp = sampleEngine 10 0) := by
  have h : StepPre (sampleEngine 10 0) (Move.walk (SQn 7 7) (SQn 7 6) false) := by
    unfold StepPre
    decide
  exact ⟨h, c8_undo_step_roundtrip (sampleEngine 10 0)
    (Move.walk (SQn 7 7) (SQn 7 6) false) h⟩

end Naitou
